import Mathlib

/-!
# ChatGPTDownloader: capture of a branching chat log and its viewer

A shallow embedding of `chatdownloader.js` (capture: `cacheChatter`,
`parseDialogBlock`, `buildSimpleLog`, `buildFullLog`, `parseThreads`),
of the thread navigation of `chatgpt.js` (`getThreadArrow`, `setRootThread`,
`incrementThread`) and of the viewer of `options.js` (`loadThread`,
`changeThread`).

Conventions of the embedding

* A JavaScript array of strings and nested arrays is an `Item`.
* The live page is a `Thread`: the chat log's children from some position on.
  A fork holds all its branches and the index of the branch on display; the
  thread arrows of a fork block are read off that index. A click on an arrow
  changes only which branch is on display, and `parseThreads` reads a block
  again after each click, so the capture is a function of the page it starts
  from; the page it leaves behind is not part of the result.
* `encodeChatterIcon` (network fetch and base64 encoding) is a parameter.
* A speaker name is an e-mail address or `ChatGPT` (chatgpt.js, "CHAT LOG
  FUNCTIONS"), so the `chatters` object is a finite map from names to entries;
  property names that a JavaScript object inherits (`constructor`, ...) are
  not speaker names and are outside the model.
* The viewer's `#chatlog` is the list of its rendered blocks; a thrown
  TypeError is a `Failure`, and the blocks rendered before it are not kept.
-/

namespace ChatGPTDownloader

/-! ## Data -/

/-- A value of the `chatterlines`, `dialog` and `strippeddialog` arrays: a
string, or an array of such values (the sub array pushed at a fork, and each
thread inside it). -/
inductive Item where
  | leaf (s : String)
  | array (items : List Item)
deriving Inhabited

/-- The element `img:not([aria-hidden])` of a DialogBlockElement. -/
structure Image where
  alt : String
  src : String
  outerHTML : String
deriving DecidableEq, Inhabited

/-- The icon of `DialogChatterInfo`: the user's `img`, or the `svg` of ChatGPT. -/
inductive IconElement where
  | img (image : Image)
  | svg (outerHTML : String)
deriving DecidableEq, Inhabited

/-- The element `div.items-start` of a DialogBlockElement. -/
structure Message where
  outerHTML : String
  textContent : String
deriving DecidableEq, Inhabited

/-- A DialogBlockElement that has the `.text-base` child: one line of dialog,
with the chatter's icon and the message (chatgpt.js, "CHAT LOG FUNCTIONS"). -/
structure Turn where
  icon : IconElement
  message : Message
deriving DecidableEq, Inhabited

/-- A child of the ChatLogElement: `some turn` when it has the `.text-base`
child, `none` for the padding element, which has not. Nothing else is read
from a child without `.text-base`. -/
abbrev DialogBlock := Option Turn

mutual
/-- The children of the ChatLogElement from some position on, with what the
thread arrows can bring on display.

* `done`: no element (`nextElementSibling` is null, `children[0]` undefined).
* `unit b next`: a child without thread arrows, then its siblings.
* `fork cur bs`: a child with thread arrows (`isStartofThread`). The branches
  `bs` are in navigation order, branch `cur` is on display (an index past the
  end shows the last branch). The previous arrow is disabled on branch 0, the
  next arrow on the last branch. -/
inductive Thread where
  | done
  | unit (b : DialogBlock) (next : Thread)
  | fork (cur : Nat) (bs : Branches)
/-- The threads of a fork, at least one: for each, the block shown at the fork
position and the siblings that follow it. The block carries the thread arrows,
which sit inside `.text-base` (`getAllThreads` selects
`.text-base:has(polyline...)`), so it is a `Turn`. -/
inductive Branches where
  | last (b : Turn) (next : Thread)
  | cons (b : Turn) (next : Thread) (more : Branches)
end

/-- ChatterInfoOutput: the name, the icon element as a string and the icon as
a Base64 DataURL. -/
structure ChatterInfoOutput where
  name : String
  icon : String
  image : String
deriving DecidableEq, Inhabited

/-- The `chatters` object: the entries in insertion order, keyed by name. -/
abbrev Chatters := List (String × ChatterInfoOutput)

/-- DownloadOutput, as the build functions create it. `type` is a property of
the typedef; `none` when the object has no such property. `GUID` is the value
of `GPT.getGUID()`: `none` stands for the boolean it returns when the URL does
not match. -/
structure DownloadOutput where
  type : Option String := none
  GUID : Option String
  timestamp : Nat
  title : Option String
  chatters : Chatters
  chatterlines : List Item
  dialog : List Item
  strippeddialog : List Item
deriving Inhabited

/-- What a build function reads from the page: the GUID of the URL, the clock,
the text of the active chat title if there is one, and the ChatLogElement
(its children) if there is one. -/
structure Page where
  GUID : Option String
  now : Nat
  title : Option String
  log : Option Thread

/-- A rejected promise of a build function. -/
inductive Failure where
  | typeError
deriving DecidableEq, Inhabited

/-! ## chatgpt.js -/

/-- DialogChatterInfo: the chatter's name and icon element. -/
structure DialogChatterInfo where
  name : String
  icon : IconElement
deriving DecidableEq, Inhabited

/-- Function `getDialogBlockChatter`: an image gives its `alt` as the name; otherwise
the chatter is ChatGPT, with the svg as icon. -/
def getDialogBlockChatter (dialogBlock : Turn) : DialogChatterInfo :=
  match dialogBlock.icon with
  | .img image => { name := image.alt, icon := .img image }
  | .svg s => { name := "ChatGPT", icon := .svg s }

/-- Function `getDialogBlockMessage`. -/
def getDialogBlockMessage (dialogBlock : Turn) : Message := dialogBlock.message

/-- The value of `getThreadArrow(dialogBlock).disabled` on a fork showing branch `cur`. -/
def previousDisabled (cur : Nat) : Bool := cur == 0

/-- Function `setRootThread`: while the previous arrow is not disabled, click it (each
click shows the branch before). The result is the branch on display at the end. -/
def setRootThread : Nat → Nat
  | 0 => 0
  | cur + 1 => setRootThread cur

/-- The branch of a fork that is on display. -/
def Branches.shown : Nat → Branches → Turn × Thread
  | _, .last b next => (b, next)
  | 0, .cons b next _ => (b, next)
  | cur + 1, .cons _ _ more => more.shown cur

/-- The branches as a list, in navigation order. -/
def Branches.toList : Branches → List (Turn × Thread)
  | .last b next => [(b, next)]
  | .cons b next more => (b, next) :: more.toList

mutual
/-- The children of the ChatLogElement on display (`log.children`). -/
def Thread.children : Thread → List DialogBlock
  | .done => []
  | .unit b next => b :: next.children
  | .fork cur bs => bs.childrenAt cur
/-- The children on display from a fork position on, branch `cur` showing. -/
def Branches.childrenAt : Branches → Nat → List DialogBlock
  | .last b next, _ => some b :: next.children
  | .cons b next _, 0 => some b :: next.children
  | .cons _ _ more, cur + 1 => more.childrenAt cur
end

/-! ## chatdownloader.js: capture -/

/-- The value of `s.startsWith(p)`. -/
def startsWith (s p : String) : Bool := p.data.isPrefixOf s.data

/-- The `tagName` of the icon element. -/
def IconElement.tagName : IconElement → String
  | .img _ => "IMG"
  | .svg _ => "svg"

/-- The `outerHTML` of the icon element. -/
def IconElement.outerHTML : IconElement → String
  | .img image => image.outerHTML
  | .svg s => s

/-- The test of `cacheChatter` on the icon:
`chatter.icon.tagName == "svg" || !chatter.icon.src.startsWith("data")`. -/
def iconLoaded : IconElement → Bool
  | .svg _ => true
  | .img image => !startsWith image.src "data"

/-- The test `typeof chatters[name] == "undefined"`. -/
def isUndefined (chatters : Chatters) (name : String) : Bool :=
  (chatters.lookup name).isNone

/-- Function `cacheChatter`. -/
def cacheChatter (encodeChatterIcon : IconElement → String)
    (chatter : DialogChatterInfo) (chatters : Chatters) : Chatters :=
  if isUndefined chatters chatter.name then
    if iconLoaded chatter.icon then
      chatters ++ [(chatter.name,
        { name := chatter.name, icon := chatter.icon.outerHTML,
          image := encodeChatterIcon chatter.icon })]
    else chatters
  else chatters

/-- Function `parseDialogBlock`. -/
def parseDialogBlock (encodeChatterIcon : IconElement → String)
    (dialogBlock : DialogBlock) (output : DownloadOutput) : DownloadOutput :=
  match dialogBlock with
  | none => output
  | some turn =>
    let chatter := getDialogBlockChatter turn
    let message := getDialogBlockMessage turn
    { output with
      chatters := cacheChatter encodeChatterIcon chatter output.chatters
      chatterlines := output.chatterlines ++ [.leaf chatter.name]
      dialog := output.dialog ++ [.leaf message.outerHTML]
      strippeddialog := output.strippeddialog ++ [.leaf message.textContent] }

/-- The sub output of the loop of `parseThreads`: the parent's GUID, timestamp,
title and chatters, and empty arrays. -/
def subOutput (output : DownloadOutput) (chatters : Chatters) : DownloadOutput :=
  { GUID := output.GUID, timestamp := output.timestamp, title := output.title,
    chatters := chatters, chatterlines := [], dialog := [], strippeddialog := [] }

/-- What the loop of `parseThreads` has collected: the shared chatters and the
three sub arrays. -/
structure Threads where
  chatters : Chatters
  allchatterslines : List Item
  alldialog : List Item
  allstrippeddialog : List Item
deriving Inhabited

mutual
/-- Function `parseThreads`. At a fork the three sub arrays are pushed when the
loop is over; the source pushes them empty and fills them in place. -/
def parseThreads (encodeChatterIcon : IconElement → String) :
    Thread → DownloadOutput → DownloadOutput
  -- `!dialogBlock`
  | .done, output => output
  -- `!dialogBlock.querySelector(".text-base")`
  | .unit none _, output => output
  -- not a fork: `parseDialogBlock`, then recurse on `nextElementSibling`
  | .unit (some turn) next, output =>
    parseThreads encodeChatterIcon next
      (parseDialogBlock encodeChatterIcon (some turn) output)
  -- a fork: `setRootThread`, then the loop over the threads
  | .fork cur bs, output =>
    let all := threadLoop encodeChatterIcon bs (setRootThread cur) output output.chatters
    { output with
      chatters := all.chatters
      chatterlines := output.chatterlines ++ [.array all.allchatterslines]
      dialog := output.dialog ++ [.array all.alldialog]
      strippeddialog := output.strippeddialog ++ [.array all.allstrippeddialog] }
/-- The loop `while(!isLast)` of `parseThreads`, entered with branch `cur` of
`bs` on display: the thread on display is parsed into a sub output and pushed,
then `incrementThread` shows the next one, until the next arrow is disabled. -/
def threadLoop (encodeChatterIcon : IconElement → String) :
    Branches → Nat → DownloadOutput → Chatters → Threads
  -- the last thread is on display: the next arrow is disabled, `isLast`
  | .last b next, _, output, chatters =>
    let sub := parseThreads encodeChatterIcon next
      (parseDialogBlock encodeChatterIcon (some b) (subOutput output chatters))
    { chatters := sub.chatters
      allchatterslines := [.array sub.chatterlines]
      alldialog := [.array sub.dialog]
      allstrippeddialog := [.array sub.strippeddialog] }
  -- thread `b, next` is on display and is not the last: after its pass,
  -- `incrementThread` shows the first thread of `more`
  | .cons b next more, 0, output, chatters =>
    let sub := parseThreads encodeChatterIcon next
      (parseDialogBlock encodeChatterIcon (some b) (subOutput output chatters))
    let rest := threadLoop encodeChatterIcon more 0 output sub.chatters
    { chatters := rest.chatters
      allchatterslines := .array sub.chatterlines :: rest.allchatterslines
      alldialog := .array sub.dialog :: rest.alldialog
      allstrippeddialog := .array sub.strippeddialog :: rest.allstrippeddialog }
  -- a later thread is on display
  | .cons _ _ more, cur + 1, output, chatters =>
    threadLoop encodeChatterIcon more cur output chatters
end

/-- Function `buildFullLog`. Without a ChatLogElement `log.children` throws. -/
def buildFullLog (encodeChatterIcon : IconElement → String) (page : Page) :
    Except Failure DownloadOutput :=
  match page.log with
  | none => .error .typeError
  | some log =>
    .ok (parseThreads encodeChatterIcon log
      { GUID := page.GUID, timestamp := page.now, title := page.title,
        chatters := [], chatterlines := [], dialog := [], strippeddialog := [] })

/-- Function `buildSimpleLog`. -/
def buildSimpleLog (encodeChatterIcon : IconElement → String) (page : Page) :
    Except Failure DownloadOutput :=
  match page.log with
  | none => .error .typeError
  | some log =>
    .ok (log.children.foldl
      (fun output dialogBlock => parseDialogBlock encodeChatterIcon dialogBlock output)
      { GUID := page.GUID, timestamp := page.now, title := page.title,
        chatters := [], chatterlines := [], dialog := [], strippeddialog := [] })


/-! ## Reading the capture off the page -/

/-- The name `parseDialogBlock` pushes for a turn. -/
def speaker (turn : Turn) : String := (getDialogBlockChatter turn).name

/-- The string `parseDialogBlock` pushes to `dialog` for a turn. -/
def rendered (turn : Turn) : String := (getDialogBlockMessage turn).outerHTML

/-- The string `parseDialogBlock` pushes to `strippeddialog` for a turn. -/
def stripped (turn : Turn) : String := (getDialogBlockMessage turn).textContent

mutual
/-- The turns `parseThreads` hands to `parseDialogBlock`, in that order. -/
def Thread.units : Thread → List Turn
  | .done => []
  | .unit none _ => []
  | .unit (some turn) next => turn :: next.units
  | .fork _ bs => bs.units
/-- The turns the loop of `parseThreads` goes through from branch 0 on. -/
def Branches.units : Branches → List Turn
  | .last b next => b :: next.units
  | .cons b next more => b :: (next.units ++ more.units)
end

mutual
/-- The array `parseThreads` builds from one string per turn. -/
def Thread.lines (f : Turn → String) : Thread → List Item
  | .done => []
  | .unit none _ => []
  | .unit (some turn) next => .leaf (f turn) :: next.lines f
  | .fork _ bs => [.array (bs.lines f)]
/-- The sub array the loop of `parseThreads` builds from branch 0 on. -/
def Branches.lines (f : Turn → String) : Branches → List Item
  | .last b next => [.array (.leaf (f b) :: next.lines f)]
  | .cons b next more => .array (.leaf (f b) :: next.lines f) :: more.lines f
end

/-- The result of `cacheChatter` on each turn of a list in order. -/
def cacheAll (encodeChatterIcon : IconElement → String) (units : List Turn)
    (chatters : Chatters) : Chatters :=
  units.foldl (fun c u => cacheChatter encodeChatterIcon (getDialogBlockChatter u) c) chatters

/-- The children of the ChatLogElement when no block has thread arrows: the
blocks `units` followed by `rest`. -/
def Thread.after (units : List DialogBlock) (rest : Thread) : Thread :=
  units.foldr Thread.unit rest

/-- The output a build function starts from. -/
def initialOutput (page : Page) : DownloadOutput :=
  { GUID := page.GUID, timestamp := page.now, title := page.title,
    chatters := [], chatterlines := [], dialog := [], strippeddialog := [] }

/-! ## Shapes of the captured arrays -/

mutual
/-- Three values have the same shape: three strings, or three arrays of the
same length whose elements have the same shape position by position. -/
def sameShape : Item → Item → Item → Bool
  | .leaf _, .leaf _, .leaf _ => true
  | .array xs, .array ys, .array zs => sameShapes xs ys zs
  | _, _, _ => false
/-- Three arrays have the same length and the same shape position by position. -/
def sameShapes : List Item → List Item → List Item → Bool
  | [], [], [] => true
  | x :: xs, y :: ys, z :: zs => sameShape x y z && sameShapes xs ys zs
  | _, _, _ => false
end

/-- The value is a string. -/
def Item.isLeaf : Item → Bool
  | .leaf _ => true
  | .array _ => false

/-- The array is not empty and its first element is a string. -/
def headIsLeaf : List Item → Bool
  | [] => false
  | item :: _ => item.isLeaf

mutual
/-- An element of a thread: a string, or a sub array all of whose elements are
threads with `forkLast`. -/
def Item.forkLast : Item → Bool
  | .leaf _ => true
  | .array threads => forkLastIn threads
/-- An element of a sub array: an array, and as a thread it has `forkLast`. -/
def Item.threadForkLast : Item → Bool
  | .leaf _ => false
  | .array thread => forkLast thread
/-- A thread (an array of strings and sub arrays) holds a sub array only as its
last element, and so does every thread of that sub array, at every depth. -/
def forkLast : List Item → Bool
  | [] => true
  | item :: rest => (item.isLeaf || rest.isEmpty) && item.forkLast && forkLast rest
/-- Every element of a sub array is a thread with `forkLast`. -/
def forkLastIn : List Item → Bool
  | [] => true
  | item :: more => item.threadForkLast && forkLastIn more
end

mutual
/-- An element of a thread: a string, or a sub array all of whose elements are
arrays that start with a string, and so at every depth. -/
def Item.leafFirst : Item → Bool
  | .leaf _ => true
  | .array threads => leafFirstIn threads
/-- An element of a sub array: a non-empty array that starts with a string,
and as a thread it has `leafFirst`. -/
def Item.threadLeafFirst : Item → Bool
  | .leaf _ => false
  | .array thread => headIsLeaf thread && leafFirst thread
/-- In a thread, every thread of every sub array, at every depth, is a
non-empty array that starts with a string. -/
def leafFirst : List Item → Bool
  | [] => true
  | item :: rest => item.leafFirst && leafFirst rest
/-- Every element of a sub array is a non-empty array that starts with a
string, and so at every depth. -/
def leafFirstIn : List Item → Bool
  | [] => true
  | item :: more => item.threadLeafFirst && leafFirstIn more
end

mutual
/-- The strings of a value, at every depth, from left to right. -/
def Item.leaves : Item → List String
  | .leaf s => [s]
  | .array items => leaves items
/-- The strings of an array, at every depth, from left to right. -/
def leaves : List Item → List String
  | [] => []
  | item :: rest => item.leaves ++ leaves rest
end

/-! ## Scenarios -/

/-- A turn of a chatter with an image, the icon loaded. -/
def turnOf (name html text : String) : Turn :=
  { icon := .img { alt := name, src := "https://cdn/icon.png", outerHTML := "<img>" },
    message := { outerHTML := html, textContent := text } }

/-- An icon encoder for the scenarios. -/
def encodeStub (icon : IconElement) : String := "data:image;base64," ++ icon.tagName

/-- Scenario A: three units by User, Assistant, User and the padding element. -/
def scenarioA : Page :=
  { GUID := some "abc", now := 1700000000000, title := some "Scenario A",
    log := some (Thread.after
      [some (turnOf "User" "<div>q1</div>" "q1"),
       some (turnOf "Assistant" "<div>a1</div>" "a1"),
       some (turnOf "User" "<div>q2</div>" "q2"), none] .done) }

/-- The threads of the fork of scenario B: Assistant, User and Assistant. -/
def scenarioBThreads : Branches :=
  .cons (turnOf "Assistant" "<div>a1</div>" "a1")
    (.unit (some (turnOf "User" "<div>q2</div>" "q2")) (.unit none .done))
    (.last (turnOf "Assistant" "<div>a1b</div>" "a1b") (.unit none .done))

/-- Scenario B: a unit by User, then a fork with two threads, the second one on
display. -/
def scenarioB : Page :=
  { GUID := some "abc", now := 1700000000000, title := some "Scenario B",
    log := some (.unit (some (turnOf "User" "<div>q1</div>" "q1")) (.fork 1 scenarioBThreads)) }

/-- The turns of a run of blocks that come before the first block without
`.text-base` (all of them if there is none). -/
def turnsBeforePadding (blocks : List DialogBlock) : List Turn :=
  (blocks.takeWhile Option.isSome).filterMap id

/-- The sub output of one pass of the loop of `parseThreads`, for the thread
whose fork block is `b` and whose following siblings are `next`, when the
chatters cached so far are `chatters`. -/
def parseThread (encodeChatterIcon : IconElement → String) (page : Page)
    (chatters : Chatters) (b : Turn) (next : Thread) : DownloadOutput :=
  parseThreads encodeChatterIcon next
    (parseDialogBlock encodeChatterIcon (some b) (subOutput (initialOutput page) chatters))

/-- The entry `cacheChatter` stores for the chatter of a turn. -/
def chatterEntry (encodeChatterIcon : IconElement → String) (turn : Turn) :
    ChatterInfoOutput :=
  { name := speaker turn, icon := turn.icon.outerHTML, image := encodeChatterIcon turn.icon }

/-- The turns `buildSimpleLog` hands to `parseDialogBlock` past its first
line, in that order: the children on display that have `.text-base`. -/
def Thread.shownUnits (log : Thread) : List Turn := log.children.filterMap id

/-- A turn of a chatter with an image whose icon is still the lazy-loading
placeholder (a DataURL). -/
def placeholderTurn (name html text : String) : Turn :=
  { icon := .img { alt := name, src := "data:image/gif;base64,R0lGOD", outerHTML := "<img>" },
    message := { outerHTML := html, textContent := text } }

/-- A chat log of one unit by User whose icon has not been loaded. -/
def scenarioPlaceholder : Page :=
  { GUID := some "abc", now := 1700000000000, title := some "Placeholder",
    log := some (.unit (some (placeholderTurn "User" "<div>q1</div>" "q1")) .done) }

/-- A chat log of three units by User: the first with the placeholder icon,
the second and the third with loaded icons `<img 2>` and `<img 3>`. -/
def scenarioRetry : Page :=
  { GUID := some "abc", now := 1700000000000, title := some "Retry",
    log := some (Thread.after
      [some (placeholderTurn "User" "<div>q1</div>" "q1"),
       some { icon := .img { alt := "User", src := "https://cdn/2.png", outerHTML := "<img 2>" },
              message := { outerHTML := "<div>q2</div>", textContent := "q2" } },
       some { icon := .img { alt := "User", src := "https://cdn/3.png", outerHTML := "<img 3>" },
              message := { outerHTML := "<div>q3</div>", textContent := "q3" } }] .done) }

/-! ## options.js: the viewer -/

/-- The value `x.length` of a string or an array. -/
def Item.length : Item → Nat
  | .leaf s => s.length
  | .array items => items.length

/-- The value `x[i]` of a string or an array, `none` for undefined. A string gives the
one-character string at `i` (strings are indexed by character here; JavaScript
indexes UTF-16 code units, the same thing in the Basic Multilingual Plane). -/
def Item.index (x : Item) (i : Nat) : Option Item :=
  match x with
  | .leaf s => (s.data.get? i).map (fun c => .leaf (String.singleton c))
  | .array items => items.get? i

/-- The value `x[k]` for an integer `k`: undefined when `k` is negative. -/
def Item.indexInt (x : Item) (k : Int) : Option Item :=
  if k < 0 then none else x.index k.toNat

mutual
/-- The string JavaScript makes of a value handed to `insertAdjacentHTML`:
the string itself, or the elements of the array joined by commas. -/
def Item.toString : Item → String
  | .leaf s => s
  | .array items => joinItems items
/-- The value of `items.join(",")`. -/
def joinItems : List Item → String
  | [] => ""
  | item :: rest => item.toString ++ (if rest.isEmpty then "" else "," ++ joinItems rest)
end

/-- The string `insertAdjacentHTML` gets for `dialog[0]`. -/
def htmlOf : Option Item → String
  | none => "undefined"
  | some item => item.toString

/-- The thread navigation of a rendered fork block (THREADNAVHTML): the numbers
shown in `[data-threadcurrent]` and `[data-threadmax]`, the `disabled` flags of
the two arrows, and the `dialog` and `chatterlines` the click handlers of the
arrows hold. -/
structure ThreadNav where
  threadcurrent : Int
  threadmax : Nat
  threadprev : Bool
  threadnext : Bool
  dialog : Item
  chatterlines : Item
deriving Inhabited

/-- A rendered dialog block (DIALOGBLOCKHTML), a child of `#chatlog`: the
chatter whose icon it shows, if any; the thread navigation, if any; and the
HTML of its last child, the message (each string inserted as a message is
taken as one element, as the `outerHTML` of a message is). -/
structure Block where
  chatter : Option ChatterInfoOutput
  threadnav : Option ThreadNav
  content : String
deriving Inhabited

/-- The step "Setup Icon" of `loadThread`: the new block with the icon of the chatter
`chatters[chatterline]` unless `chatterline` is an Array; reading `chatter.name`
of an unknown chatter throws. The message is not yet set. -/
def setupIcon (chatters : Chatters) (chatterline : Item) : Except Failure Block :=
  match chatterline with
  | .array _ => .ok { chatter := none, threadnav := none, content := "" }
  | .leaf name =>
    match chatters.lookup name with
    | none => .error .typeError
    | some chatter => .ok { chatter := some chatter, threadnav := none, content := "" }

/-- The loop of `loadThread` from index `i` on when `dialog` is a string, whose
characters from `i` on are `cs`: every `dialog[i]` is a one-character string,
inserted as the message. -/
def loadChars (chatters : Chatters) (chatterlines : Item) :
    List Char → Nat → List Block → Except Failure (List Block)
  | [], i, view => if i < chatterlines.length then .error .typeError else .ok view
  | c :: cs, i, view =>
    if i < chatterlines.length then
      match chatterlines.index i with
      | none => .error .typeError
      | some chatterline =>
        match setupIcon chatters chatterline with
        | .error e => .error e
        | .ok block =>
          loadChars chatters chatterlines cs (i + 1)
            (view ++ [{ block with content := String.singleton c }])
    else .ok view

/-- The fork block `loadThread` sets up for the Array `dialogBlock` and hands
to `changeThread(block, ..., 0)`: the navigation shows 1 of
`dialogBlock.length`, the previous arrow is disabled, the message is the empty
`<div></div>`. -/
def forkBlock (block : Block) (chatterline dialogBlock : Item) : Block :=
  { block with
    threadnav := some
      { threadcurrent := 1, threadmax := dialogBlock.length, threadprev := true,
        threadnext := false, dialog := dialogBlock, chatterlines := chatterline }
    content := "<div></div>" }

/-- The fork block after `changeThread` has set the thread number and the
message. -/
def Block.showThread (block : Block) (nav : ThreadNav) (threadnumber : Int)
    (content : String) : Block :=
  { block with
    threadnav := some
      { nav with
        threadcurrent := threadnumber
        threadprev := threadnumber == 1
        threadnext := threadnumber == (nav.threadmax : Int) }
    content := content }

mutual
/-- The loop of `loadThread` from index `i` on, `rest` being the elements of
the array `dialog` from `i` on. The blocks go to the end of `view`, the
children of `#chatlog`. -/
def loadThreadFrom (chatters : Chatters) (chatterlines : Item) :
    List Item → Nat → List Block → Except Failure (List Block)
  | [], i, view => if i < chatterlines.length then .error .typeError else .ok view
  | dialogBlock :: rest, i, view =>
    if i < chatterlines.length then
      match chatterlines.index i with
      | none => .error .typeError
      | some chatterline =>
        match setupIcon chatters chatterline with
        | .error e => .error e
        | .ok block =>
          match setupMessage chatters chatterline block dialogBlock view with
          | .error e => .error e
          | .ok view => loadThreadFrom chatters chatterlines rest (i + 1) view
    else .ok view
termination_by structural rest => rest
/-- The step "Setup Message" of `loadThread` for `dialogBlock = dialog[i]`: a string is
the message of the block; for an Array the block gets the thread navigation
and `changeThread(block, ..., 0)` shows its first thread. -/
def setupMessage (chatters : Chatters) (chatterline : Item) (block : Block) :
    Item → List Block → Except Failure (List Block)
  | .leaf s, view => .ok (view ++ [{ block with content := s }])
  | .array threads, view =>
    showFirst chatters chatterline (forkBlock block chatterline (.array threads)) threads view
termination_by structural dialogBlock => dialogBlock
/-- The call `changeThread(block, ..., 0)` on the block `loadThread` has just set up:
`dialog = dialog[0]`, undefined for an empty array of threads, and then
`dialog[0]` throws. -/
def showFirst (chatters : Chatters) (chatterline : Item) (block : Block) :
    List Item → List Block → Except Failure (List Block)
  | [], _ => .error .typeError
  | dialog :: _, view => showDialog chatters chatterline block dialog view
termination_by structural threads => threads
/-- The call `changeThread(block, ..., 0)` once `dialog` is the first thread: the
message becomes `dialog[0]` and `loadThread(..., 1)` renders the rest. -/
def showDialog (chatters : Chatters) (chatterline : Item) (block : Block) :
    Item → List Block → Except Failure (List Block)
  | .leaf s, view =>
    match block.threadnav, chatterline.index 0 with
    | some nav, some chatterlines =>
      loadChars chatters chatterlines (s.data.drop 1) 1
        (view ++ [block.showThread nav 1 (htmlOf ((Item.leaf s).index 0))])
    | _, _ => .error .typeError
  | .array items, view => showItems chatters chatterline block items view
termination_by structural dialog => dialog
/-- The same for a first thread that is an array, of elements `items`. -/
def showItems (chatters : Chatters) (chatterline : Item) (block : Block) :
    List Item → List Block → Except Failure (List Block)
  | [], view =>
    match block.threadnav, chatterline.index 0 with
    | some nav, some chatterlines =>
      loadChars chatters chatterlines [] 1 (view ++ [block.showThread nav 1 (htmlOf none)])
    | _, _ => .error .typeError
  | first :: rest, view =>
    match block.threadnav, chatterline.index 0 with
    | some nav, some chatterlines =>
      loadThreadFrom chatters chatterlines rest 1
        (view ++ [block.showThread nav 1 (htmlOf (some first))])
    | _, _ => .error .typeError
termination_by structural items => items
end

/-- Function `loadThread(parent, chatterlines, dialog, chatters, skipFirst)`, `view`
being the children of `parent`. -/
def loadThread (chatters : Chatters) (view : List Block) (chatterlines dialog : Item)
    (skipFirst : Nat) : Except Failure (List Block) :=
  match dialog with
  | .array items => loadThreadFrom chatters chatterlines (items.drop skipFirst) skipFirst view
  | .leaf s => loadChars chatters chatterlines (s.data.drop skipFirst) skipFirst view

/-- Function `changeThread(block, data, modifier)` for the
block at index `i` of `view`, the children of `#chatlog`; `dialog` and
`chatterlines` are those the handlers of the block hold. A block without
thread navigation has no `[data-threadcurrent]`, and reading its text throws.
(The selectors for the two arrows are written without the closing bracket in
the source; a selector's open bracket is closed at the end of its text.) -/
def changeThread (chatters : Chatters) (view : List Block) (i : Nat) (modifier : Int) :
    Except Failure (List Block) :=
  match view.get? i with
  | none => .error .typeError
  | some block =>
    match block.threadnav with
    | none => .error .typeError
    | some nav =>
      if nav.threadcurrent == 1 && modifier == -1 then .ok view
      else if nav.threadcurrent == (nav.threadmax : Int) && modifier == 1 then .ok view
      else
        let threadnumber := nav.threadcurrent + modifier
        -- the blocks after this one are removed (`view.take i` and the block
        -- stay), the last child of the block is replaced by `dialog[0]`
        match nav.dialog.indexInt (threadnumber - 1) with
        | none => .error .typeError
        | some dialog =>
          match nav.chatterlines.indexInt (threadnumber - 1) with
          | none => .error .typeError
          | some chatterlines =>
            loadThread chatters
              (view.take i ++ [block.showThread nav threadnumber (htmlOf (dialog.index 0))])
              chatterlines dialog 1

/-- Function `loadLog`: the children of `#chatlog` are removed and the log is loaded. -/
def loadLog (downloadOutput : DownloadOutput) : Except Failure (List Block) :=
  loadThread downloadOutput.chatters [] (.array downloadOutput.chatterlines)
    (.array downloadOutput.dialog) 0

/-- A rendered block shows the first thread of its fork, if it has one: the
navigation reads 1 of the number of threads, the previous arrow is disabled,
the next arrow is disabled exactly when there is one thread, and the message is
the first element of the first thread. -/
def Block.onFirstThread (b : Block) : Prop :=
  ∀ nav, b.threadnav = some nav →
    nav.threadcurrent = 1 ∧ nav.threadmax = nav.dialog.length ∧ nav.threadprev = true ∧
      nav.threadnext = ((1 : Int) == (nav.threadmax : Int)) ∧
      b.content = htmlOf ((nav.dialog.index 0).bind (fun dialog => dialog.index 0))

/-- The chatters of scenario B, as `buildFullLog` caches them. -/
def chattersB : Chatters :=
  [("User", { name := "User", icon := "<img>", image := "data:image;base64,IMG" }),
   ("Assistant", { name := "Assistant", icon := "<img>", image := "data:image;base64,IMG" })]

/-- Scenario C: a saved log whose `chatterlines[2]` is a sub array while
`dialog[2]` is a string. -/
def scenarioC : DownloadOutput :=
  { GUID := some "abc", timestamp := 1700000000000, title := some "Scenario C"
    chatters := chattersB
    chatterlines := [.leaf "User", .leaf "Assistant", .array [.array [.leaf "User"]]]
    dialog := [.leaf "<div>q1</div>", .leaf "<div>a1</div>", .leaf "<div>q2</div>"]
    strippeddialog := [.leaf "q1", .leaf "a1", .leaf "q2"] }

/-- The `chatterlines` sub array of the fork of scenario B. -/
def chatterlinesB : Item :=
  .array [.array [.leaf "Assistant", .leaf "User"], .array [.leaf "Assistant"]]

/-- The `dialog` sub array of the fork of scenario B. -/
def dialogB : Item :=
  .array [.array [.leaf "<div>a1</div>", .leaf "<div>q2</div>"], .array [.leaf "<div>a1b</div>"]]

/-- The blocks `loadLog` renders for the capture of scenario B: the unit by
User, the fork block on thread 1 of 2, and the second unit of that thread. -/
def viewB : List Block :=
  [{ chatter := some { name := "User", icon := "<img>", image := "data:image;base64,IMG" },
     threadnav := none, content := "<div>q1</div>" },
   { chatter := none,
     threadnav := some
       { threadcurrent := 1, threadmax := 2, threadprev := true, threadnext := false,
         dialog := dialogB, chatterlines := chatterlinesB },
     content := "<div>a1</div>" },
   { chatter := some { name := "User", icon := "<img>", image := "data:image;base64,IMG" },
     threadnav := none, content := "<div>q2</div>" }]

/-! ## chatgpt.js: the steps of `setRootThread` -/

/-- What `setRootThread` does to the page, one entry per statement of its loop
body: `arrow.click()` and `await threadTransitionTimeout()`. -/
inductive NavStep where
  | click
  | threadTransitionTimeout
deriving DecidableEq, Inhabited

/-- The run of `setRootThread` on a fork that shows branch `cur`: the branch on
display when the loop ends, and the steps taken. On branch 0 the previous
arrow is disabled and the loop ends; on a later branch the arrow is clicked,
which shows the branch before, and the transition is awaited. -/
def setRootThreadRun : Nat → Nat × List NavStep
  | 0 => (0, [])
  | cur + 1 =>
    ((setRootThreadRun cur).1,
      .click :: .threadTransitionTimeout :: (setRootThreadRun cur).2)

/-! ## chatgpt.js: `getGUID` -/

/-- A line terminator, which `.` does not match. -/
def isLineTerminator (c : Char) : Bool :=
  c == '\n' || c == '\r' || c == '\u2028' || c == '\u2029'

/-- The match of `(?<GUID>[^?/]*?)(?:\/|\?|$)` at the head of a text: the lazy
group takes as few characters as possible, so it ends at the first `/` or `?`,
or at the end of the text. The value is the group `GUID`. -/
def matchGUID : List Char → List Char
  | [] => []
  | c :: cs => if c == '/' || c == '?' then [] else c :: matchGUID cs

/-- The match of `(chat|c)\/(?<GUID>[^?/]*?)(?:\/|\?|$)` at the head of a text,
if there is one. -/
def matchHere (text : List Char) : Option (List Char) :=
  if "chat/".data.isPrefixOf text then some (matchGUID (text.drop 5))
  else if "c/".data.isPrefixOf text then some (matchGUID (text.drop 2))
  else none

/-- The match of the whole pattern `.*(chat|c)\/(?<GUID>[^?/]*?)(?:\/|\?|$)`
at the head of a text: the greedy `.*` first takes as many characters as it
can (up to a line terminator) and gives them back one by one. -/
def matchPattern : List Char → Option (List Char)
  | [] => matchHere []
  | c :: cs =>
    if isLineTerminator c then matchHere (c :: cs)
    else
      match matchPattern cs with
      | some guid => some guid
      | none => matchHere (c :: cs)

/-- The group `GUID` of `pattern.exec(text)`: the match at the first position
of the text that has one. -/
def execGUID : List Char → Option (List Char)
  | [] => matchPattern []
  | c :: cs =>
    match matchPattern (c :: cs) with
    | some guid => some guid
    | none => execGUID cs

/-- Function `getGUID` on `window.location.href`: `none` stands for the boolean
`true` that `!match || match.groups.GUID` gives without a match. -/
def getGUID (href : String) : Option String :=
  (execGUID href.data).map String.mk

/-! ## chatdownloader.js: the download buttons and the lock -/

/-- What `isLoaded` and `updateDownloadButtons` read from the document: whether
`getChatLogElement()`, `getActiveChatTitle()` and `#__next` find an element,
and whether `isRenderingResponse()` holds. -/
structure Document where
  chatLogElement : Bool
  activeChatTitle : Bool
  renderingResponse : Bool
  nextElement : Bool
deriving DecidableEq, Inhabited

/-- Function `isLoaded(titleLoading, responseLoading)`. -/
def isLoaded (d : Document) (titleLoading responseLoading : Bool) : Bool :=
  if !d.chatLogElement then false
  else if titleLoading && !d.activeChatTitle then false
  else if responseLoading && d.renderingResponse then false
  else true

/-- The state of the content script: the global `PARSELOCK`, the `disabled`
flag of each `#downloadbuttons button.download` (none before
`setupDownloadButtons`), the value stored under `STORAGENAME` (`none` when
nothing is stored yet) and the outputs handed to `completeDownload` so far. -/
structure Session where
  PARSELOCK : Bool
  buttons : List Bool
  saved : Option (List DownloadOutput)
  downloads : List DownloadOutput
deriving Inhabited

/-- The buttons `setupDownloadButtons` inserts: four, all disabled. -/
def setupDownloadButtons : List Bool := [true, true, true, true]

/-- Function `updateDownloadButtons`: the buttons are set up if there are none
and `#__next` exists, then each gets `disabled = !_isLoaded || PARSELOCK`,
with `_isLoaded = GPT.isLoaded()` (both arguments at their default, `true`). -/
def updateDownloadButtons (d : Document) (s : Session) : Session :=
  let buttons := if s.buttons.isEmpty && d.nextElement then setupDownloadButtons else s.buttons
  { s with buttons := buttons.map (fun _ => !isLoaded d true true || s.PARSELOCK) }

/-- Function `completeDownload`: a download of the output is started. -/
def completeDownload (output : DownloadOutput) (s : Session) : Session :=
  { s with downloads := s.downloads ++ [output] }

/-- Function `completeSave`: the output is pushed to the stored list (the empty
list when nothing is stored yet) and the list is stored. -/
def completeSave (output : DownloadOutput) (s : Session) : Session :=
  { s with saved := some (s.saved.getD [] ++ [output]) }

/-- The state in which an operation of the content script ends and, when its
promise is rejected, the failure. -/
structure Ended where
  session : Session
  rejected : Option Failure
deriving Inhabited

/-- Function `download`; `build` is how the awaited `buildSimpleLog()` ends. A
rejection ends the function at the `await`. -/
def download (d : Document) (build : Except Failure DownloadOutput) (s : Session) : Ended :=
  let s := updateDownloadButtons d { s with PARSELOCK := true }
  match build with
  | .error e => { session := s, rejected := some e }
  | .ok output =>
    let s := completeDownload output s
    { session := updateDownloadButtons d { s with PARSELOCK := false }, rejected := none }

/-- Function `downloadAll`; `build` is how the awaited `buildFullLog()` ends. -/
def downloadAll (d : Document) (build : Except Failure DownloadOutput) (s : Session) :
    Ended :=
  let s := updateDownloadButtons d { s with PARSELOCK := true }
  match build with
  | .error e => { session := s, rejected := some e }
  | .ok output =>
    let s := completeDownload output s
    { session := updateDownloadButtons d { s with PARSELOCK := false }, rejected := none }

/-- Function `save`; `build` is how the awaited `buildSimpleLog()` ends. -/
def save (d : Document) (build : Except Failure DownloadOutput) (s : Session) : Ended :=
  let s := updateDownloadButtons d { s with PARSELOCK := true }
  match build with
  | .error e => { session := s, rejected := some e }
  | .ok output =>
    let s := completeSave output s
    { session := updateDownloadButtons d { s with PARSELOCK := false }, rejected := none }

/-- Function `saveAll`; `build` is how the awaited `buildFullLog()` ends. -/
def saveAll (d : Document) (build : Except Failure DownloadOutput) (s : Session) : Ended :=
  let s := updateDownloadButtons d { s with PARSELOCK := true }
  match build with
  | .error e => { session := s, rejected := some e }
  | .ok output =>
    let s := completeSave output s
    { session := updateDownloadButtons d { s with PARSELOCK := false }, rejected := none }

/-- A loaded document: the chat log and the active title are there, no
response is being rendered. -/
def documentLoaded : Document :=
  { chatLogElement := true, activeChatTitle := true, renderingResponse := false,
    nextElement := true }

/-- The content script at rest: the lock off, the four buttons enabled,
nothing stored, no download started. -/
def sessionIdle : Session :=
  { PARSELOCK := false, buttons := [false, false, false, false], saved := none,
    downloads := [] }

/-- Scenario A without the ChatLogElement. -/
def scenarioNoLog : Page :=
  { GUID := some "abc", now := 1700000000000, title := some "Scenario A", log := none }

/-! ## chatdownloader.js: a capture on a page that changes under it -/

mutual
/-- The page as `parseThreads` finds it when the document may have changed
between two reads. It is a `Thread`, except that in the loop over the threads
of a fork a read can come back empty: the block at the fork position
(`b = none`: `previous.nextElementSibling` is null) or the next arrow of that
block (`arrow = false`: `getThreadArrow(dialogBlock, "next")` is null). -/
inductive LiveThread where
  | done
  | unit (b : DialogBlock) (next : LiveThread)
  | fork (cur : Nat) (bs : LiveBranches)
/-- The threads of a fork of a `LiveThread`, with what the loop finds when it
reads the block and the next arrow of each. -/
inductive LiveBranches where
  | last (b : Option Turn) (next : LiveThread) (arrow : Bool)
  | cons (b : Option Turn) (next : LiveThread) (arrow : Bool) (more : LiveBranches)
end

mutual
/-- A `Thread` as a `LiveThread`: every block and every next arrow is there
when it is read. -/
def Thread.live : Thread → LiveThread
  | .done => .done
  | .unit b next => .unit b next.live
  | .fork cur bs => .fork cur bs.live
/-- The threads of a fork, all there when read. -/
def Branches.live : Branches → LiveBranches
  | .last b next => .last (some b) next.live true
  | .cons b next more => .cons (some b) next.live true more.live
end

mutual
/-- Function `parseThreads` on a `LiveThread`: as `parseThreads`, and a
TypeError thrown in the loop rejects the whole call. -/
def parseThreadsLive (encodeChatterIcon : IconElement → String) :
    LiveThread → DownloadOutput → Except Failure DownloadOutput
  | .done, output => .ok output
  | .unit none _, output => .ok output
  | .unit (some turn) next, output =>
    parseThreadsLive encodeChatterIcon next
      (parseDialogBlock encodeChatterIcon (some turn) output)
  | .fork cur bs, output =>
    match threadLoopLive encodeChatterIcon bs (setRootThread cur) output output.chatters with
    | .error e => .error e
    | .ok all =>
      .ok { output with
        chatters := all.chatters
        chatterlines := output.chatterlines ++ [.array all.allchatterslines]
        dialog := output.dialog ++ [.array all.alldialog]
        strippeddialog := output.strippeddialog ++ [.array all.allstrippeddialog] }
/-- The loop `while(!isLast)` of `parseThreads` on a `LiveThread`:
`parseDialogBlock(dialogBlock, sub)` throws when the block is null, and
`getThreadArrow(dialogBlock, "next").disabled` throws when the arrow is null. -/
def threadLoopLive (encodeChatterIcon : IconElement → String) :
    LiveBranches → Nat → DownloadOutput → Chatters → Except Failure Threads
  | .last none _ _, _, _, _ => .error .typeError
  | .last (some b) next arrow, _, output, chatters =>
    match parseThreadsLive encodeChatterIcon next
      (parseDialogBlock encodeChatterIcon (some b) (subOutput output chatters)) with
    | .error e => .error e
    | .ok sub =>
      if arrow then
        .ok { chatters := sub.chatters
              allchatterslines := [.array sub.chatterlines]
              alldialog := [.array sub.dialog]
              allstrippeddialog := [.array sub.strippeddialog] }
      else .error .typeError
  | .cons none _ _ _, 0, _, _ => .error .typeError
  | .cons (some b) next arrow more, 0, output, chatters =>
    match parseThreadsLive encodeChatterIcon next
      (parseDialogBlock encodeChatterIcon (some b) (subOutput output chatters)) with
    | .error e => .error e
    | .ok sub =>
      if arrow then
        match threadLoopLive encodeChatterIcon more 0 output sub.chatters with
        | .error e => .error e
        | .ok rest =>
          .ok { chatters := rest.chatters
                allchatterslines := .array sub.chatterlines :: rest.allchatterslines
                alldialog := .array sub.dialog :: rest.alldialog
                allstrippeddialog := .array sub.strippeddialog :: rest.allstrippeddialog }
      else .error .typeError
  | .cons _ _ _ more, cur + 1, output, chatters =>
    threadLoopLive encodeChatterIcon more cur output chatters
end

/-- Function `buildFullLog` on a page whose chat log is the `LiveThread` `log`
(`none` without a ChatLogElement); GUID, clock and title are those of `page`. -/
def buildFullLogLive (encodeChatterIcon : IconElement → String) (page : Page)
    (log : Option LiveThread) : Except Failure DownloadOutput :=
  match log with
  | none => .error .typeError
  | some log => parseThreadsLive encodeChatterIcon log (initialOutput page)

mutual
/-- Every block and every next arrow that `parseThreads` reads, in the order
it reads them, is there: nothing is read after a block without `.text-base`,
and at a fork every thread is read, from the first one on. -/
def LiveThread.intact : LiveThread → Bool
  | .done => true
  | .unit none _ => true
  | .unit (some _) next => next.intact
  | .fork _ bs => bs.intact
/-- The same for the loop over the threads of a fork. -/
def LiveBranches.intact : LiveBranches → Bool
  | .last b next arrow => b.isSome && next.intact && arrow
  | .cons b next arrow more => b.isSome && next.intact && arrow && more.intact
end

/-- Scenario B when the next arrow of the first thread is gone by the time the
loop reads it. -/
def scenarioBStale : LiveThread :=
  .unit (some (turnOf "User" "<div>q1</div>" "q1"))
    (.fork 1
      (.cons (some (turnOf "Assistant" "<div>a1</div>" "a1"))
        (.unit (some (turnOf "User" "<div>q2</div>" "q2")) (.unit none .done)) false
        (.last (some (turnOf "Assistant" "<div>a1b</div>" "a1b")) (.unit none .done) true)))

/-- Scenario B when the block at the fork position is gone after the switch to
the second thread. -/
def scenarioBGone : LiveThread :=
  .unit (some (turnOf "User" "<div>q1</div>" "q1"))
    (.fork 1
      (.cons (some (turnOf "Assistant" "<div>a1</div>" "a1"))
        (.unit (some (turnOf "User" "<div>q2</div>" "q2")) (.unit none .done)) true
        (.last none .done true)))

/-! ## The root path and the states of the viewer -/

mutual
/-- The turns on the root path of the page: at every fork the first thread. -/
def Thread.rootUnits : Thread → List Turn
  | .done => []
  | .unit none _ => []
  | .unit (some turn) next => turn :: next.rootUnits
  | .fork _ bs => bs.rootUnits
/-- The turns on the root path from a fork position on. -/
def Branches.rootUnits : Branches → List Turn
  | .last b next => b :: next.rootUnits
  | .cons b next _ => b :: next.rootUnits
end

mutual
/-- The strings on the root path of an element of a thread: the string itself,
or the root path of the first thread of the sub array. -/
def Item.rootPath : Item → List String
  | .leaf s => [s]
  | .array threads => firstRootPath threads
/-- The root path of the first thread of a sub array. -/
def firstRootPath : List Item → List String
  | [] => []
  | thread :: _ => thread.threadRootPath
/-- The root path of a thread given as an element of a sub array. -/
def Item.threadRootPath : Item → List String
  | .leaf _ => []
  | .array items => rootPath items
/-- The strings on the root path of a thread: its strings in order, and at a
sub array the root path of the first thread. -/
def rootPath : List Item → List String
  | [] => []
  | item :: rest => item.rootPath ++ rootPath rest
end

/-- The fork block the viewer shows for the fork with the threads `bs` when the
first thread, with fork block `b`, is on display. -/
def shownFork (bs : Branches) (b : Turn) : Block :=
  { chatter := none
    threadnav := some
      { threadcurrent := 1
        threadmax := (bs.lines rendered).length
        threadprev := true
        threadnext := ((1 : Int) == (((bs.lines rendered).length : Nat) : Int))
        dialog := .array (bs.lines rendered)
        chatterlines := .array (bs.lines speaker) }
    content := rendered b }

mutual
/-- The blocks on the root path of the page as the viewer shows them, with the
icons of `chatters`. -/
def Thread.rootBlocks (chatters : Chatters) : Thread → List Block
  | .done => []
  | .unit none _ => []
  | .unit (some turn) next =>
    { chatter := chatters.lookup (speaker turn), threadnav := none, content := rendered turn } ::
      next.rootBlocks chatters
  | .fork _ bs => bs.rootBlocks chatters
/-- The blocks on the root path from a fork position on. -/
def Branches.rootBlocks (chatters : Chatters) : Branches → List Block
  | .last b next => shownFork (.last b next) b :: next.rootBlocks chatters
  | .cons b next more => shownFork (.cons b next more) b :: next.rootBlocks chatters
end

/-- A rendered block is in step with the thread number it shows, if it is a
fork block: `threadmax` is the number of threads, the thread number lies
between 1 and `threadmax`, the previous arrow is disabled exactly on thread 1,
the next arrow exactly on thread `threadmax`, and the message is the first
element of the thread shown. -/
def Block.showsThread (b : Block) : Prop :=
  ∀ nav, b.threadnav = some nav →
    nav.threadmax = nav.dialog.length ∧
    1 ≤ nav.threadcurrent ∧ nav.threadcurrent ≤ (nav.threadmax : Int) ∧
    nav.threadprev = (nav.threadcurrent == 1) ∧
    nav.threadnext = (nav.threadcurrent == (nav.threadmax : Int)) ∧
    b.content =
      htmlOf ((nav.dialog.indexInt (nav.threadcurrent - 1)).bind (fun dialog => dialog.index 0))

/-- A sequence of clicks on thread arrows: each click is `changeThread` on the
block at index `i` with modifier `m`; a failure ends the sequence. -/
def changeThreads (chatters : Chatters) :
    List (Nat × Int) → List Block → Except Failure (List Block)
  | [], view => .ok view
  | (i, m) :: clicks, view =>
    match changeThread chatters view i m with
    | .error e => .error e
    | .ok view => changeThreads chatters clicks view

/-- The capture of scenario B, as `buildFullLog` returns it. -/
def captureB : DownloadOutput :=
  { GUID := some "abc", timestamp := 1700000000000, title := some "Scenario B"
    chatters := chattersB
    chatterlines := [.leaf "User", chatterlinesB]
    dialog := [.leaf "<div>q1</div>", dialogB]
    strippeddialog := [.leaf "q1",
      .array [.array [.leaf "a1", .leaf "q2"], .array [.leaf "a1b"]]] }


/-- Scenario B as rendered after a click on the next arrow of its fork: the
unit by User and the fork block on thread 2 of 2. -/
def viewB2 : List Block :=
  [{ chatter := some { name := "User", icon := "<img>", image := "data:image;base64,IMG" },
     threadnav := none, content := "<div>q1</div>" },
   { chatter := none,
     threadnav := some
       { threadcurrent := 2, threadmax := 2, threadprev := false, threadnext := true,
         dialog := dialogB, chatterlines := chatterlinesB },
     content := "<div>a1b</div>" }]

/-- The subtree of the fork block at index `i` of `view` is freshly rendered:
the blocks after the fork block are exactly those `loadThread` renders for the
thread on display, from its second element on (so every fork among them shows
its first thread, and nothing else follows). -/
def subtreeFresh (chatters : Chatters) (view : List Block) (i : Nat) : Prop :=
  ∃ block nav dialog chatterlines,
    view.get? i = some block ∧ block.threadnav = some nav ∧
    nav.dialog.indexInt (nav.threadcurrent - 1) = some dialog ∧
    nav.chatterlines.indexInt (nav.threadcurrent - 1) = some chatterlines ∧
    loadThread chatters (view.take (i + 1)) chatterlines dialog 1 = .ok view

/-! ## Sources without a fork -/

/-- No block of the page has thread arrows. -/
def Thread.forkFree : Thread → Bool
  | .done => true
  | .unit _ next => next.forkFree
  | .fork _ _ => false

/-- Every block without `.text-base` comes after all the blocks that have it:
after the first block without `.text-base` no block has it. -/
def paddingLast : List DialogBlock → Bool
  | [] => true
  | some _ :: rest => paddingLast rest
  | none :: rest => rest.all Option.isNone

/-! ## Logs the viewer renders without a failed lookup -/

mutual
/-- An element of a thread: a string, or a sub array that holds at least one
thread, and so at every depth. -/
def Item.hasThreads : Item → Bool
  | .leaf _ => true
  | .array threads => !threads.isEmpty && hasThreadsIn threads
/-- An element of a sub array, as a thread, has `hasThreads`. -/
def Item.threadHasThreads : Item → Bool
  | .leaf _ => true
  | .array thread => hasThreads thread
/-- Every sub array of the thread, at every depth, holds at least one thread. -/
def hasThreads : List Item → Bool
  | [] => true
  | item :: rest => item.hasThreads && hasThreads rest
/-- Every element of a sub array has `threadHasThreads`. -/
def hasThreadsIn : List Item → Bool
  | [] => true
  | item :: more => item.threadHasThreads && hasThreadsIn more
end

mutual
/-- The element `chatterlines[i]` goes with the element `dialog[i]`: both are
strings and the name has an entry in `chatters`, or both are sub arrays that
hold the same number of threads, at least one, and go together thread by thread. -/
def Item.renders (chatters : Chatters) : Item → Item → Bool
  | .leaf name, .leaf _ => (chatters.lookup name).isSome
  | .array cls, .array ds => !ds.isEmpty && forkRenders chatters cls ds
  | _, _ => false
termination_by structural chatterline _ => chatterline
/-- The threads of two sub arrays go together one by one. -/
def forkRenders (chatters : Chatters) : List Item → List Item → Bool
  | [], [] => true
  | cl :: cls, d :: ds => cl.threadRenders chatters d && forkRenders chatters cls ds
  | _, _ => false
termination_by structural threads _ => threads
/-- Two threads go together: both are arrays, that of `dialog` starts with a
string, and their elements go together one by one. -/
def Item.threadRenders (chatters : Chatters) : Item → Item → Bool
  | .array cl, .array d => headIsLeaf d && renders chatters cl d
  | _, _ => false
termination_by structural thread _ => thread
/-- The elements of two threads go together one by one: the arrays have the
same length and `chatterlines[i]` goes with `dialog[i]` for every `i`. -/
def renders (chatters : Chatters) : List Item → List Item → Bool
  | [], [] => true
  | c :: cs, d :: ds => c.renders chatters d && renders chatters cs ds
  | _, _ => false
termination_by structural chatterlines _ => chatterlines
end

/-- A rendered fork block is ready for a click on its arrows: its handlers hold
two sub arrays whose threads go together, `threadmax` is their number, the
thread number lies between 1 and `threadmax`, and the thread shown and its
first element are defined, the latter being the message of the block. -/
def Block.ready (chatters : Chatters) (b : Block) : Prop :=
  ∀ nav, b.threadnav = some nav →
    ∃ cls ds dialog first,
      nav.chatterlines = .array cls ∧ nav.dialog = .array ds ∧
      forkRenders chatters cls ds = true ∧ nav.threadmax = ds.length ∧
      1 ≤ nav.threadcurrent ∧ nav.threadcurrent ≤ (ds.length : Int) ∧
      nav.dialog.indexInt (nav.threadcurrent - 1) = some dialog ∧
      dialog.index 0 = some first ∧ b.content = first.toString

/-- A sequence of clicks a user can make: each click is on an arrow (modifier
-1 or +1) of a block that has thread arrows in the view at that moment. -/
def arrowClicks (chatters : Chatters) : List (Nat × Int) → List Block → Bool
  | [], _ => true
  | (i, m) :: clicks, view =>
    ((view.get? i).bind (fun block => block.threadnav)).isSome && (m == -1 || m == 1) &&
      match changeThread chatters view i m with
      | .ok view => arrowClicks chatters clicks view
      | .error _ => true

/-- A saved log whose second element, in each of the three arrays, is a sub
array without any thread. -/
def scenarioNoThread : DownloadOutput :=
  { GUID := some "abc", timestamp := 1700000000000, title := some "No thread"
    chatters := chattersB
    chatterlines := [.leaf "User", .array []]
    dialog := [.leaf "<div>q1</div>", .array []]
    strippeddialog := [.leaf "q1", .array []] }
/-! ## Lemmas on the capture -/

theorem setRootThread_eq_zero : ∀ cur : Nat, setRootThread cur = 0
  | 0 => rfl
  | cur + 1 => by rw [setRootThread]; exact setRootThread_eq_zero cur

theorem cacheAll_append (enc : IconElement → String) (us vs : List Turn) (c : Chatters) :
    cacheAll enc (us ++ vs) c = cacheAll enc vs (cacheAll enc us c) := by
  simp [cacheAll, List.foldl_append]

mutual
theorem parseThreads_eq (enc : IconElement → String) :
    ∀ (t : Thread) (o : DownloadOutput),
      parseThreads enc t o =
        { o with
          chatters := cacheAll enc t.units o.chatters
          chatterlines := o.chatterlines ++ t.lines speaker
          dialog := o.dialog ++ t.lines rendered
          strippeddialog := o.strippeddialog ++ t.lines stripped }
  | .done, o => by simp [parseThreads, Thread.units, Thread.lines, cacheAll]
  | .unit none _, o => by simp [parseThreads, Thread.units, Thread.lines, cacheAll]
  | .unit (some turn) next, o => by
    rw [parseThreads, parseThreads_eq enc next]
    simp [parseDialogBlock, Thread.units, Thread.lines, cacheAll, speaker, rendered, stripped]
  | .fork cur bs, o => by
    rw [parseThreads, setRootThread_eq_zero]
    simp only [threadLoop_eq enc bs o o.chatters, Thread.units, Thread.lines]
theorem threadLoop_eq (enc : IconElement → String) :
    ∀ (bs : Branches) (o : DownloadOutput) (c : Chatters),
      threadLoop enc bs 0 o c =
        { chatters := cacheAll enc bs.units c
          allchatterslines := bs.lines speaker
          alldialog := bs.lines rendered
          allstrippeddialog := bs.lines stripped }
  | .last b next, o, c => by
    rw [threadLoop, parseThreads_eq enc next]
    simp [parseDialogBlock, subOutput, Branches.units, Branches.lines, cacheAll, speaker,
      rendered, stripped]
  | .cons b next more, o, c => by
    rw [threadLoop, parseThreads_eq enc next, threadLoop_eq enc more]
    simp [parseDialogBlock, subOutput, Branches.units, Branches.lines, cacheAll, speaker,
      rendered, stripped, List.foldl_append]
end


mutual
theorem threadLines_sameShapes (f g h : Turn → String) :
    ∀ t : Thread, sameShapes (t.lines f) (t.lines g) (t.lines h) = true
  | .done => by simp [Thread.lines, sameShapes]
  | .unit none _ => by simp [Thread.lines, sameShapes]
  | .unit (some _) next => by
    simp [Thread.lines, sameShapes, sameShape, threadLines_sameShapes f g h next]
  | .fork _ bs => by
    simp [Thread.lines, sameShapes, sameShape, branchLines_sameShapes f g h bs]
theorem branchLines_sameShapes (f g h : Turn → String) :
    ∀ bs : Branches, sameShapes (bs.lines f) (bs.lines g) (bs.lines h) = true
  | .last _ next => by
    simp [Branches.lines, sameShapes, sameShape, threadLines_sameShapes f g h next]
  | .cons _ next more => by
    simp [Branches.lines, sameShapes, sameShape, threadLines_sameShapes f g h next,
      branchLines_sameShapes f g h more]
end

theorem buildFullLog_eq (enc : IconElement → String) (page : Page) (log : Thread)
    (hlog : page.log = some log) :
    buildFullLog enc page = .ok
      { GUID := page.GUID, timestamp := page.now, title := page.title
        chatters := cacheAll enc log.units []
        chatterlines := log.lines speaker
        dialog := log.lines rendered
        strippeddialog := log.lines stripped } := by
  simp [buildFullLog, hlog, parseThreads_eq]

theorem buildFullLog_ok (enc : IconElement → String) (page : Page) (out : DownloadOutput)
    (h : buildFullLog enc page = .ok out) :
    ∃ log, page.log = some log ∧ out =
      { GUID := page.GUID, timestamp := page.now, title := page.title
        chatters := cacheAll enc log.units []
        chatterlines := log.lines speaker
        dialog := log.lines rendered
        strippeddialog := log.lines stripped } := by
  cases hlog : page.log with
  | none => simp [buildFullLog, hlog] at h
  | some log =>
    rw [buildFullLog_eq enc page log hlog] at h
    exact ⟨log, rfl, (Except.ok.inj h).symm⟩

/-- C1: in every output of `buildFullLog`, `chatterlines`, `dialog` and
`strippeddialog` have the same recursive shape: at every position and depth
either all three hold a string or all three hold an array, of the same length
and with the same shape position by position. -/
theorem buildFullLog_sameShapes (enc : IconElement → String) (page : Page)
    (out : DownloadOutput) (h : buildFullLog enc page = .ok out) :
    sameShapes out.chatterlines out.dialog out.strippeddialog = true := by
  obtain ⟨log, -, rfl⟩ := buildFullLog_ok enc page out h
  exact threadLines_sameShapes speaker rendered stripped log

/-- Scenario B: the three arrays hold a string, then one sub array of two
threads, of two strings and of one string. -/
theorem buildFullLog_sameShapes_scenarioB :
    buildFullLog encodeStub scenarioB = .ok
      { GUID := some "abc", timestamp := 1700000000000, title := some "Scenario B"
        chatters :=
          [("User", { name := "User", icon := "<img>", image := "data:image;base64,IMG" }),
           ("Assistant",
             { name := "Assistant", icon := "<img>", image := "data:image;base64,IMG" })]
        chatterlines := [.leaf "User",
          .array [.array [.leaf "Assistant", .leaf "User"], .array [.leaf "Assistant"]]]
        dialog := [.leaf "<div>q1</div>",
          .array [.array [.leaf "<div>a1</div>", .leaf "<div>q2</div>"],
            .array [.leaf "<div>a1b</div>"]]]
        strippeddialog := [.leaf "q1",
          .array [.array [.leaf "a1", .leaf "q2"], .array [.leaf "a1b"]]] } ∧
    sameShapes
      [.leaf "User",
        .array [.array [.leaf "Assistant", .leaf "User"], .array [.leaf "Assistant"]]]
      [.leaf "<div>q1</div>",
        .array [.array [.leaf "<div>a1</div>", .leaf "<div>q2</div>"],
          .array [.leaf "<div>a1b</div>"]]]
      [.leaf "q1", .array [.array [.leaf "a1", .leaf "q2"], .array [.leaf "a1b"]]] = true :=
  ⟨by rfl, buildFullLog_sameShapes encodeStub scenarioB _ (by rfl)⟩

theorem after_lines (f : Turn → String) :
    ∀ blocks : List DialogBlock,
      (Thread.after blocks .done).lines f = (turnsBeforePadding blocks).map (fun u => .leaf (f u))
  | [] => by simp [Thread.after, Thread.lines, turnsBeforePadding]
  | none :: rest => by simp [Thread.after, Thread.lines, turnsBeforePadding]
  | some turn :: rest => by
    have ih := after_lines f rest
    simp only [Thread.after, turnsBeforePadding] at ih
    simp [Thread.after, Thread.lines, turnsBeforePadding, ih]

theorem after_units :
    ∀ blocks : List DialogBlock, (Thread.after blocks .done).units = turnsBeforePadding blocks
  | [] => by simp [Thread.after, Thread.units, turnsBeforePadding]
  | none :: rest => by simp [Thread.after, Thread.units, turnsBeforePadding]
  | some turn :: rest => by
    have ih := after_units rest
    simp only [Thread.after, turnsBeforePadding] at ih
    simp [Thread.after, Thread.units, turnsBeforePadding, ih]

/-- C2: for a run of blocks without thread arrows, `buildFullLog` returns an
output (no error) whose `chatterlines`, `dialog` and `strippeddialog` are flat
arrays of strings, one per turn that comes before the first block without
`.text-base`, in order: the speaker name, the message's `outerHTML` and the
message's `textContent`. -/
theorem buildFullLog_forkFree (enc : IconElement → String) (GUID title : Option String)
    (now : Nat) (blocks : List DialogBlock) :
    buildFullLog enc
        { GUID := GUID, now := now, title := title, log := some (Thread.after blocks .done) } =
      .ok
        { GUID := GUID, timestamp := now, title := title
          chatters := cacheAll enc (turnsBeforePadding blocks) []
          chatterlines := (turnsBeforePadding blocks).map (fun u => .leaf (speaker u))
          dialog := (turnsBeforePadding blocks).map (fun u => .leaf (rendered u))
          strippeddialog := (turnsBeforePadding blocks).map (fun u => .leaf (stripped u)) } := by
  rw [buildFullLog_eq enc _ _ rfl, after_lines, after_lines, after_lines,
    after_units]

/-- Scenario A: units by User, Assistant, User and the padding element. -/
theorem buildFullLog_forkFree_scenarioA :
    buildFullLog encodeStub scenarioA = .ok
      { GUID := some "abc", timestamp := 1700000000000, title := some "Scenario A"
        chatters :=
          [("User", { name := "User", icon := "<img>", image := "data:image;base64,IMG" }),
           ("Assistant",
             { name := "Assistant", icon := "<img>", image := "data:image;base64,IMG" })]
        chatterlines := [.leaf "User", .leaf "Assistant", .leaf "User"]
        dialog := [.leaf "<div>q1</div>", .leaf "<div>a1</div>", .leaf "<div>q2</div>"]
        strippeddialog := [.leaf "q1", .leaf "a1", .leaf "q2"] } :=
  (buildFullLog_forkFree encodeStub (some "abc") (some "Scenario A") 1700000000000 _).trans
    (by rfl)

theorem after_some_lines (f : Turn → String) (rest : Thread) :
    ∀ units : List Turn,
      (Thread.after (units.map some) rest).lines f =
        units.map (fun u => .leaf (f u)) ++ rest.lines f
  | [] => by simp [Thread.after]
  | u :: us => by
    have ih := after_some_lines f rest us
    simp only [Thread.after] at ih
    simp [Thread.after, Thread.lines, ih]

theorem parseThread_lines (enc : IconElement → String) (page : Page) (c : Chatters)
    (b : Turn) (next : Thread) :
    (parseThread enc page c b next).chatterlines = .leaf (speaker b) :: next.lines speaker ∧
    (parseThread enc page c b next).dialog = .leaf (rendered b) :: next.lines rendered ∧
    (parseThread enc page c b next).strippeddialog =
      .leaf (stripped b) :: next.lines stripped := by
  simp [parseThread, parseThreads_eq, parseDialogBlock, subOutput, speaker, rendered, stripped]

theorem branchLines_eq_map (f : Turn → String) :
    ∀ bs : Branches,
      bs.lines f = bs.toList.map (fun br => .array (.leaf (f br.1) :: br.2.lines f))
  | .last _ _ => by simp [Branches.lines, Branches.toList]
  | .cons _ _ more => by
    simp [Branches.lines, Branches.toList, branchLines_eq_map f more]

/-- C3: for a run of `units` followed by a fork with the threads `bs` (at least
one), whichever thread `cur` is on display, `buildFullLog` returns an output
whose three arrays hold the strings of the units followed by exactly one sub
array; the sub array holds one thread per branch, in navigation order from
branch 0, and thread k is what one pass of the loop parses for branch k: the
fork block of that branch, then its siblings (whatever chatters `c` the pass
starts with). -/
theorem buildFullLog_fork (enc : IconElement → String) (page : Page) (units : List Turn)
    (cur : Nat) (bs : Branches) (c : Chatters)
    (hlog : page.log = some (Thread.after (units.map some) (.fork cur bs))) :
    ∃ out, buildFullLog enc page = .ok out ∧
      out.chatterlines = units.map (fun u => .leaf (speaker u)) ++
        [.array (bs.toList.map
          (fun br => .array (parseThread enc page c br.1 br.2).chatterlines))] ∧
      out.dialog = units.map (fun u => .leaf (rendered u)) ++
        [.array (bs.toList.map (fun br => .array (parseThread enc page c br.1 br.2).dialog))] ∧
      out.strippeddialog = units.map (fun u => .leaf (stripped u)) ++
        [.array (bs.toList.map
          (fun br => .array (parseThread enc page c br.1 br.2).strippeddialog))] := by
  refine ⟨_, buildFullLog_eq enc page _ hlog, ?_, ?_, ?_⟩
  · simp [after_some_lines, Thread.lines, branchLines_eq_map, parseThread_lines]
  · simp [after_some_lines, Thread.lines, branchLines_eq_map, parseThread_lines]
  · simp [after_some_lines, Thread.lines, branchLines_eq_map, parseThread_lines]

/-- Scenario B, with the second thread on display when the capture begins. -/
theorem buildFullLog_fork_scenarioB :
    ∃ out, buildFullLog encodeStub scenarioB = .ok out ∧
      out.chatterlines = [.leaf "User",
        .array [.array [.leaf "Assistant", .leaf "User"], .array [.leaf "Assistant"]]] ∧
      out.dialog = [.leaf "<div>q1</div>",
        .array [.array [.leaf "<div>a1</div>", .leaf "<div>q2</div>"],
          .array [.leaf "<div>a1b</div>"]]] ∧
      out.strippeddialog = [.leaf "q1",
        .array [.array [.leaf "a1", .leaf "q2"], .array [.leaf "a1b"]]] :=
  buildFullLog_fork encodeStub scenarioB [turnOf "User" "<div>q1</div>" "q1"] 1
    scenarioBThreads [] (by rfl)

mutual
theorem threadLines_forkLast (f : Turn → String) :
    ∀ t : Thread, forkLast (t.lines f) = true
  | .done => by simp [Thread.lines, forkLast, Item.forkLast, Item.threadForkLast, Item.isLeaf]
  | .unit none _ => by
    simp [Thread.lines, forkLast, Item.forkLast, Item.threadForkLast, Item.isLeaf]
  | .unit (some _) next => by
    simp [Thread.lines, forkLast, Item.forkLast, Item.threadForkLast, Item.isLeaf,
      threadLines_forkLast f next]
  | .fork _ bs => by
    simp [Thread.lines, forkLast, Item.forkLast, Item.threadForkLast, Item.isLeaf,
      branchLines_forkLastIn f bs]
theorem branchLines_forkLastIn (f : Turn → String) :
    ∀ bs : Branches, forkLastIn (bs.lines f) = true
  | .last _ next => by
    simp [Branches.lines, forkLast, forkLastIn, Item.forkLast, Item.threadForkLast, Item.isLeaf,
      threadLines_forkLast f next]
  | .cons _ next more => by
    simp [Branches.lines, forkLast, forkLastIn, Item.forkLast, Item.threadForkLast, Item.isLeaf,
      threadLines_forkLast f next,
      branchLines_forkLastIn f more]
end

/-- C4: in every output of `buildFullLog`, in each of the three arrays and at
every depth, a thread holds at most one sub array, and holds it as its last
element: nothing follows a sub array in its thread. -/
theorem buildFullLog_forkLast (enc : IconElement → String) (page : Page)
    (out : DownloadOutput) (h : buildFullLog enc page = .ok out) :
    forkLast out.chatterlines = true ∧ forkLast out.dialog = true ∧
      forkLast out.strippeddialog = true := by
  obtain ⟨log, -, rfl⟩ := buildFullLog_ok enc page out h
  exact ⟨threadLines_forkLast speaker log, threadLines_forkLast rendered log,
    threadLines_forkLast stripped log⟩

/-- Scenario B: the sub array is the last element of the top thread. -/
theorem buildFullLog_forkLast_scenarioB :
    forkLast [.leaf "User",
        .array [.array [.leaf "Assistant", .leaf "User"], .array [.leaf "Assistant"]]] = true ∧
      forkLast [.leaf "<div>q1</div>",
        .array [.array [.leaf "<div>a1</div>", .leaf "<div>q2</div>"],
          .array [.leaf "<div>a1b</div>"]]] = true ∧
      forkLast [.leaf "q1",
        .array [.array [.leaf "a1", .leaf "q2"], .array [.leaf "a1b"]]] = true :=
  buildFullLog_forkLast encodeStub scenarioB _ (by rfl)

mutual
theorem threadLines_leafFirst (f : Turn → String) :
    ∀ t : Thread, leafFirst (t.lines f) = true
  | .done => by
    simp [Thread.lines, leafFirst, Item.leafFirst, Item.threadLeafFirst, headIsLeaf, Item.isLeaf]
  | .unit none _ => by
    simp [Thread.lines, leafFirst, Item.leafFirst, Item.threadLeafFirst, headIsLeaf, Item.isLeaf]
  | .unit (some _) next => by
    simp [Thread.lines, leafFirst, Item.leafFirst, Item.threadLeafFirst, headIsLeaf, Item.isLeaf,
      threadLines_leafFirst f next]
  | .fork _ bs => by
    simp [Thread.lines, leafFirst, Item.leafFirst, Item.threadLeafFirst, headIsLeaf, Item.isLeaf,
      branchLines_leafFirstIn f bs]
theorem branchLines_leafFirstIn (f : Turn → String) :
    ∀ bs : Branches, leafFirstIn (bs.lines f) = true
  | .last _ next => by
    simp [Branches.lines, leafFirst, leafFirstIn, Item.leafFirst, Item.threadLeafFirst, headIsLeaf,
      Item.isLeaf, threadLines_leafFirst f next]
  | .cons _ next more => by
    simp [Branches.lines, leafFirst, leafFirstIn, Item.leafFirst, Item.threadLeafFirst, headIsLeaf,
      Item.isLeaf, threadLines_leafFirst f next,
      branchLines_leafFirstIn f more]
end

theorem branchLines_getElem (f : Turn → String) :
    ∀ (bs : Branches) (k : Nat), k < bs.toList.length →
      (bs.lines f)[k]? =
        some (.array (.leaf (f (bs.shown k).1) :: (bs.shown k).2.lines f))
  | .last _ _, k, hk => by
    have : k = 0 := by simpa [Branches.toList] using hk
    subst this
    simp [Branches.lines, Branches.shown]
  | .cons _ _ _, 0, _ => by simp [Branches.lines, Branches.shown]
  | .cons _ _ more, k + 1, hk => by
    have hk' : k < more.toList.length := by simpa [Branches.toList] using hk
    simp [Branches.lines, Branches.shown, branchLines_getElem f more k hk']

/-- C5: in every output of `buildFullLog`, in each of the three arrays, every
thread of every sub array (at every depth) is a non-empty array that starts
with a string; and the thread the loop of `parseThreads` pushes for branch k
of a fork starts with the strings of the block shown at the fork position
while branch k is on display. -/
theorem buildFullLog_leafFirst (enc : IconElement → String) (page : Page)
    (out : DownloadOutput) (h : buildFullLog enc page = .ok out) :
    (leafFirst out.chatterlines = true ∧ leafFirst out.dialog = true ∧
      leafFirst out.strippeddialog = true) ∧
    ∀ (bs : Branches) (o : DownloadOutput) (c : Chatters) (k : Nat),
      k < bs.toList.length →
      ∃ names contents texts,
        (threadLoop enc bs 0 o c).allchatterslines[k]? =
          some (.array (.leaf (speaker (bs.shown k).1) :: names)) ∧
        (threadLoop enc bs 0 o c).alldialog[k]? =
          some (.array (.leaf (rendered (bs.shown k).1) :: contents)) ∧
        (threadLoop enc bs 0 o c).allstrippeddialog[k]? =
          some (.array (.leaf (stripped (bs.shown k).1) :: texts)) := by
  obtain ⟨log, -, rfl⟩ := buildFullLog_ok enc page out h
  refine ⟨⟨threadLines_leafFirst speaker log, threadLines_leafFirst rendered log,
    threadLines_leafFirst stripped log⟩, ?_⟩
  intro bs o c k hk
  rw [threadLoop_eq]
  exact ⟨_, _, _, branchLines_getElem speaker bs k hk,
    branchLines_getElem rendered bs k hk, branchLines_getElem stripped bs k hk⟩

/-- Scenario B: both threads of the sub array start with a string, and the
second thread the loop pushes starts with the block of the second branch. -/
theorem buildFullLog_leafFirst_scenarioB :
    (leafFirst [.leaf "User",
        .array [.array [.leaf "Assistant", .leaf "User"], .array [.leaf "Assistant"]]] = true ∧
      leafFirst [.leaf "<div>q1</div>",
        .array [.array [.leaf "<div>a1</div>", .leaf "<div>q2</div>"],
          .array [.leaf "<div>a1b</div>"]]] = true ∧
      leafFirst [.leaf "q1",
        .array [.array [.leaf "a1", .leaf "q2"], .array [.leaf "a1b"]]] = true) ∧
    ∃ names contents texts,
      (threadLoop encodeStub scenarioBThreads 0 (initialOutput scenarioB) []).allchatterslines[1]?
        = some (.array (.leaf "Assistant" :: names)) ∧
      (threadLoop encodeStub scenarioBThreads 0 (initialOutput scenarioB) []).alldialog[1]?
        = some (.array (.leaf "<div>a1b</div>" :: contents)) ∧
      (threadLoop encodeStub scenarioBThreads 0 (initialOutput scenarioB) []).allstrippeddialog[1]?
        = some (.array (.leaf "a1b" :: texts)) :=
  ⟨(buildFullLog_leafFirst encodeStub scenarioB _ (by rfl)).1,
    (buildFullLog_leafFirst encodeStub scenarioB _ (by rfl)).2 scenarioBThreads
      (initialOutput scenarioB) [] 1 (by decide)⟩

/-! ## Lemmas on the chatters -/

theorem getDialogBlockChatter_icon (turn : Turn) :
    (getDialogBlockChatter turn).icon = turn.icon := by
  unfold getDialogBlockChatter
  cases h : turn.icon <;> simp

theorem cacheChatter_turn (enc : IconElement → String) (u : Turn) (c : Chatters) :
    cacheChatter enc (getDialogBlockChatter u) c =
      if c.lookup (speaker u) = none ∧ iconLoaded u.icon = true then
        c ++ [(speaker u, chatterEntry enc u)]
      else c := by
  simp only [cacheChatter, isUndefined, getDialogBlockChatter_icon, speaker, chatterEntry]
  by_cases h1 : List.lookup (getDialogBlockChatter u).name c = none
  · by_cases h2 : iconLoaded u.icon = true <;> simp [h1, h2]
  · have h1' : (List.lookup (getDialogBlockChatter u).name c).isNone = false := by
      cases h : List.lookup (getDialogBlockChatter u).name c with
      | none => exact absurd h h1
      | some _ => rfl
    simp [h1, h1']

theorem cacheChatter_lookup (enc : IconElement → String) (u : Turn) (c : Chatters) (n : String) :
    (cacheChatter enc (getDialogBlockChatter u) c).lookup n =
      (c.lookup n).or
        (if (speaker u == n && iconLoaded u.icon) = true then some (chatterEntry enc u)
         else none) := by
  rw [cacheChatter_turn]
  by_cases hn : speaker u = n
  · subst hn
    cases hl : List.lookup (speaker u) c with
    | none =>
      by_cases h2 : iconLoaded u.icon = true
      · simp [h2, List.lookup_append, hl, List.lookup_cons]
      · simp [h2, hl]
    | some e => simp [hl]
  · have hne : (speaker u == n) = false := by simpa using hn
    have hne' : (n == speaker u) = false := by
      simpa using fun h : n = speaker u => hn h.symm
    split
    · simp [List.lookup_append, List.lookup_cons, hne, hne']
    · simp [hne]

theorem cacheAll_lookup (enc : IconElement → String) (n : String) :
    ∀ (us : List Turn) (c : Chatters),
      (cacheAll enc us c).lookup n =
        (c.lookup n).or
          ((us.find? (fun u => speaker u == n && iconLoaded u.icon)).map (chatterEntry enc))
  | [], c => by simp [cacheAll]
  | u :: us, c => by
    have ih := cacheAll_lookup enc n us (cacheChatter enc (getDialogBlockChatter u) c)
    simp only [cacheAll, List.foldl_cons] at ih ⊢
    rw [ih, cacheChatter_lookup, List.find?_cons]
    cases c.lookup n with
    | some e => simp
    | none =>
      by_cases hp : (speaker u == n && iconLoaded u.icon) = true
      · simp [hp]
      · have hp' : (speaker u == n && iconLoaded u.icon) = false := by simpa using hp
        simp [hp']

theorem lookup_eq_none_iff_keys (c : Chatters) (n : String) :
    c.lookup n = none ↔ n ∉ c.map Prod.fst := by
  simp only [List.lookup_eq_none_iff, List.mem_map, not_exists, not_and]
  constructor
  · intro h p hp hn
    have := h p hp
    simp [hn] at this
  · intro h p hp
    have := h p hp
    simpa [bne_iff_ne] using fun e : n = p.1 => this e.symm

theorem cacheChatter_keys_nodup (enc : IconElement → String) (u : Turn) (c : Chatters)
    (h : (c.map Prod.fst).Nodup) :
    ((cacheChatter enc (getDialogBlockChatter u) c).map Prod.fst).Nodup := by
  rw [cacheChatter_turn]
  split
  · rename_i hc
    have hn := (lookup_eq_none_iff_keys c (speaker u)).1 hc.1
    rw [List.map_append, List.nodup_append]
    refine ⟨h, by simp, ?_⟩
    intro a ha hb
    simp only [List.map_cons, List.map_nil, List.mem_singleton] at hb
    subst hb
    exact hn ha
  · exact h

theorem cacheAll_keys_nodup (enc : IconElement → String) :
    ∀ (us : List Turn) (c : Chatters), (c.map Prod.fst).Nodup →
      ((cacheAll enc us c).map Prod.fst).Nodup
  | [], _, h => by simpa [cacheAll] using h
  | u :: us, c, h => by
    have := cacheAll_keys_nodup enc us _ (cacheChatter_keys_nodup enc u c h)
    simpa [cacheAll] using this

theorem cacheAll_mem_keys (enc : IconElement → String) (us : List Turn) (n : String) :
    n ∈ (cacheAll enc us []).map Prod.fst ↔
      ∃ u ∈ us, speaker u = n ∧ iconLoaded u.icon = true := by
  have h := cacheAll_lookup enc n us []
  have hk := lookup_eq_none_iff_keys (cacheAll enc us []) n
  constructor
  · intro hm
    have hne : (cacheAll enc us []).lookup n ≠ none := fun e => (hk.1 e) hm
    rw [h] at hne
    simp only [List.lookup_nil, Option.or] at hne
    cases hf : us.find? (fun u => speaker u == n && iconLoaded u.icon) with
    | none => simp [hf] at hne
    | some u =>
      have hp := List.find?_some hf
      have hmem := List.mem_of_find?_eq_some hf
      simp only [Bool.and_eq_true, beq_iff_eq] at hp
      exact ⟨u, hmem, hp.1, hp.2⟩
  · rintro ⟨u, hu, hs, hl⟩
    by_contra hm
    have hnone := hk.2 hm
    rw [h] at hnone
    simp only [List.lookup_nil, Option.or, Option.map_eq_none', List.find?_eq_none] at hnone
    have := hnone u hu
    simp [hs, hl] at this

mutual
theorem threadLines_leaves (f : Turn → String) :
    ∀ t : Thread, leaves (t.lines f) = t.units.map f
  | .done => by simp [Thread.lines, Thread.units, leaves, Item.leaves]
  | .unit none _ => by simp [Thread.lines, Thread.units, leaves, Item.leaves]
  | .unit (some _) next => by
    simp [Thread.lines, Thread.units, leaves, Item.leaves, threadLines_leaves f next]
  | .fork _ bs => by
    simp [Thread.lines, Thread.units, leaves, Item.leaves, branchLines_leaves f bs]
theorem branchLines_leaves (f : Turn → String) :
    ∀ bs : Branches, leaves (bs.lines f) = bs.units.map f
  | .last _ next => by
    simp [Branches.lines, Branches.units, leaves, Item.leaves, threadLines_leaves f next]
  | .cons _ next more => by
    simp [Branches.lines, Branches.units, leaves, Item.leaves, threadLines_leaves f next,
      branchLines_leaves f more]
end

theorem leaves_map_leaf (f : Turn → String) :
    ∀ us : List Turn, leaves (us.map (fun u => .leaf (f u))) = us.map f
  | [] => by simp [leaves]
  | u :: us => by simp [leaves, Item.leaves, leaves_map_leaf f us]

theorem foldl_parseDialogBlock (enc : IconElement → String) :
    ∀ (blocks : List DialogBlock) (o : DownloadOutput),
      blocks.foldl (fun output dialogBlock => parseDialogBlock enc dialogBlock output) o =
        { o with
          chatters := cacheAll enc (blocks.filterMap id) o.chatters
          chatterlines := o.chatterlines ++ (blocks.filterMap id).map (fun u => .leaf (speaker u))
          dialog := o.dialog ++ (blocks.filterMap id).map (fun u => .leaf (rendered u))
          strippeddialog :=
            o.strippeddialog ++ (blocks.filterMap id).map (fun u => .leaf (stripped u)) }
  | [], o => by simp [cacheAll]
  | none :: rest, o => by
    rw [List.foldl_cons, foldl_parseDialogBlock enc rest]
    simp [parseDialogBlock]
  | some turn :: rest, o => by
    rw [List.foldl_cons, foldl_parseDialogBlock enc rest]
    simp [parseDialogBlock, cacheAll, speaker, rendered, stripped]

theorem buildSimpleLog_eq (enc : IconElement → String) (page : Page) (log : Thread)
    (hlog : page.log = some log) :
    buildSimpleLog enc page = .ok
      { GUID := page.GUID, timestamp := page.now, title := page.title
        chatters := cacheAll enc log.shownUnits []
        chatterlines := log.shownUnits.map (fun u => .leaf (speaker u))
        dialog := log.shownUnits.map (fun u => .leaf (rendered u))
        strippeddialog := log.shownUnits.map (fun u => .leaf (stripped u)) } := by
  simp [buildSimpleLog, hlog, foldl_parseDialogBlock, Thread.shownUnits]

/-- C6, as the code has it: after a capture (`buildSimpleLog` or
`buildFullLog`) the strings of `chatterlines`, at every depth, are the speaker
names of the captured turns; `chatters` holds at most one entry per name, and
a name has an entry exactly when some captured turn of that name had a loaded
icon (an svg, or an image whose `src` does not start with `data`). So every
entry belongs to a name of `chatterlines`, and two turns of one name give one
entry. -/
theorem capture_chatters_keys (enc : IconElement → String) (page : Page) (log : Thread)
    (hlog : page.log = some log) :
    ∃ simple full,
      buildSimpleLog enc page = .ok simple ∧ buildFullLog enc page = .ok full ∧
      (leaves simple.chatterlines = log.shownUnits.map speaker ∧
        (simple.chatters.map Prod.fst).Nodup ∧
        ∀ n, n ∈ simple.chatters.map Prod.fst ↔
          ∃ u ∈ log.shownUnits, speaker u = n ∧ iconLoaded u.icon = true) ∧
      (leaves full.chatterlines = log.units.map speaker ∧
        (full.chatters.map Prod.fst).Nodup ∧
        ∀ n, n ∈ full.chatters.map Prod.fst ↔
          ∃ u ∈ log.units, speaker u = n ∧ iconLoaded u.icon = true) :=
  ⟨_, _, buildSimpleLog_eq enc page log hlog, buildFullLog_eq enc page log hlog,
    ⟨leaves_map_leaf speaker _, cacheAll_keys_nodup enc _ [] List.nodup_nil,
      cacheAll_mem_keys enc _⟩,
    ⟨threadLines_leaves speaker log, cacheAll_keys_nodup enc _ [] List.nodup_nil,
      cacheAll_mem_keys enc _⟩⟩

/-- Scenario B has the names User and Assistant in `chatterlines` (User once,
Assistant twice) and one entry for each in `chatters`. -/
theorem capture_chatters_keys_scenarioB :
    ∃ simple full,
      buildSimpleLog encodeStub scenarioB = .ok simple ∧
      buildFullLog encodeStub scenarioB = .ok full ∧
      leaves full.chatterlines = ["User", "Assistant", "User", "Assistant"] ∧
      full.chatters.map Prod.fst = ["User", "Assistant"] ∧
      leaves simple.chatterlines = ["User", "Assistant"] ∧
      simple.chatters.map Prod.fst = ["User", "Assistant"] :=
  match capture_chatters_keys encodeStub scenarioB _ rfl with
  | ⟨simple, full, hs, hf, _, _⟩ =>
    ⟨simple, full, hs, hf,
      by cases hf; rfl, by cases hf; rfl, by cases hs; rfl, by cases hs; rfl⟩

/-- C6 fails as stated: a unit by User whose icon is still the lazy-loading
placeholder gives the name User in `chatterlines` and no entry in `chatters`,
with `buildFullLog` and with `buildSimpleLog`. -/
theorem capture_chatters_placeholder :
    (∃ full, buildFullLog encodeStub scenarioPlaceholder = .ok full ∧
      "User" ∈ leaves full.chatterlines ∧ full.chatters = []) ∧
    (∃ simple, buildSimpleLog encodeStub scenarioPlaceholder = .ok simple ∧
      "User" ∈ leaves simple.chatterlines ∧ simple.chatters = []) :=
  ⟨⟨_, rfl, by decide, rfl⟩, ⟨_, rfl, by decide, rfl⟩⟩

/-- C7: `cacheChatter` leaves the map as it is when the name has an entry or
the icon is not loaded; otherwise it adds one entry under the name, after the
others; and it never changes the entry of another name. So after a capture
(`buildFullLog` or `buildSimpleLog`) the entry under a name is the one made
from the first captured turn of that name whose icon was loaded, and there is
none when no such turn exists. -/
theorem cacheChatter_first_loaded (enc : IconElement → String) :
    (∀ (chatter : DialogChatterInfo) (c : Chatters),
      (c.lookup chatter.name).isSome = true ∨ iconLoaded chatter.icon = false →
        cacheChatter enc chatter c = c) ∧
    (∀ (chatter : DialogChatterInfo) (c : Chatters),
      c.lookup chatter.name = none → iconLoaded chatter.icon = true →
        cacheChatter enc chatter c =
          c ++ [(chatter.name,
            { name := chatter.name, icon := chatter.icon.outerHTML,
              image := enc chatter.icon })]) ∧
    (∀ (chatter : DialogChatterInfo) (c : Chatters) (n : String),
      n ≠ chatter.name → (cacheChatter enc chatter c).lookup n = c.lookup n) ∧
    (∀ (page : Page) (log : Thread), page.log = some log →
      ∃ simple full,
        buildSimpleLog enc page = .ok simple ∧ buildFullLog enc page = .ok full ∧
        (∀ n, simple.chatters.lookup n =
          (log.shownUnits.find? (fun u => speaker u == n && iconLoaded u.icon)).map
            (chatterEntry enc)) ∧
        (∀ n, full.chatters.lookup n =
          (log.units.find? (fun u => speaker u == n && iconLoaded u.icon)).map
            (chatterEntry enc))) := by
  refine ⟨?_, ?_, ?_, ?_⟩
  · intro chatter c h
    unfold cacheChatter isUndefined
    rcases h with h | h
    · cases hl : List.lookup chatter.name c with
      | none => simp [hl] at h
      | some e => simp
    · simp [h]
  · intro chatter c h1 h2
    simp [cacheChatter, isUndefined, h1, h2]
  · intro chatter c n hn
    unfold cacheChatter
    split
    · split
      · have hne : (n == chatter.name) = false := by simpa using hn
        simp [List.lookup_append, List.lookup_cons, hne]
      · rfl
    · rfl
  · intro page log hlog
    refine ⟨_, _, buildSimpleLog_eq enc page log hlog, buildFullLog_eq enc page log hlog,
      ?_, ?_⟩
    · intro n
      simpa using cacheAll_lookup enc n log.shownUnits []
    · intro n
      simpa using cacheAll_lookup enc n log.units []

/-- Three units by User, the first with the placeholder icon: the entry under
User is made from the second unit (the first is skipped, the third does not
overwrite). -/
theorem cacheChatter_first_loaded_scenarioRetry :
    ∃ full, buildFullLog encodeStub scenarioRetry = .ok full ∧
      full.chatters.lookup "User" =
        some { name := "User", icon := "<img 2>", image := "data:image;base64,IMG" } :=
  match (cacheChatter_first_loaded encodeStub).2.2.2 scenarioRetry _ rfl with
  | ⟨_, full, _, hf, _, h⟩ => ⟨full, hf, (h "User").trans (by decide)⟩


/-! ## Lemmas on the viewer -/

theorem loadChars_append (chatters : Chatters) (cl : Item) (v : List Block) :
    ∀ (cs : List Char) (i : Nat) (w : List Block),
      loadChars chatters cl cs i (v ++ w) = (loadChars chatters cl cs i w).map (v ++ ·)
  | [], i, w => by
    simp only [loadChars]
    split <;> rfl
  | c :: cs, i, w => by
    simp only [loadChars]
    split
    · split
      · rfl
      · split
        · rfl
        · simp only [List.append_assoc]
          exact loadChars_append chatters cl v cs (i + 1) _
    · rfl

mutual
theorem loadThreadFrom_append (chatters : Chatters) (v : List Block) :
    ∀ (cl : Item) (ds : List Item) (i : Nat) (w : List Block),
      loadThreadFrom chatters cl ds i (v ++ w) =
        (loadThreadFrom chatters cl ds i w).map (v ++ ·)
  | cl, [], i, w => by
    simp only [loadThreadFrom]
    split <;> rfl
  | cl, d :: rest, i, w => by
    simp only [loadThreadFrom]
    split
    · split
      · rfl
      · split
        · rfl
        · rw [setupMessage_append chatters v]
          generalize setupMessage chatters _ _ d w = r
          cases r with
          | error e => rfl
          | ok w' =>
            simp only [Except.map]
            exact loadThreadFrom_append chatters v cl rest (i + 1) w'
    · rfl
termination_by structural _ ds _ _ => ds
theorem setupMessage_append (chatters : Chatters) (v : List Block) :
    ∀ (chatterline : Item) (block : Block) (d : Item) (w : List Block),
      setupMessage chatters chatterline block d (v ++ w) =
        (setupMessage chatters chatterline block d w).map (v ++ ·)
  | chatterline, block, .leaf s, w => by
    simp [setupMessage, Except.map, List.append_assoc]
  | chatterline, block, .array threads, w => by
    simp only [setupMessage]
    exact showFirst_append chatters v chatterline _ threads w
termination_by structural _ _ d _ => d
theorem showFirst_append (chatters : Chatters) (v : List Block) :
    ∀ (chatterline : Item) (block : Block) (threads : List Item) (w : List Block),
      showFirst chatters chatterline block threads (v ++ w) =
        (showFirst chatters chatterline block threads w).map (v ++ ·)
  | chatterline, block, [], w => by simp [showFirst, Except.map]
  | chatterline, block, dialog :: _, w => by
    simp only [showFirst]
    exact showDialog_append chatters v chatterline block dialog w
termination_by structural _ _ threads _ => threads
theorem showDialog_append (chatters : Chatters) (v : List Block) :
    ∀ (chatterline : Item) (block : Block) (dialog : Item) (w : List Block),
      showDialog chatters chatterline block dialog (v ++ w) =
        (showDialog chatters chatterline block dialog w).map (v ++ ·)
  | chatterline, block, .leaf s, w => by
    simp only [showDialog]
    split
    · simp only [List.append_assoc]
      exact loadChars_append chatters _ v _ 1 _
    · rfl
  | chatterline, block, .array items, w => by
    simp only [showDialog]
    exact showItems_append chatters v chatterline block items w
termination_by structural _ _ dialog _ => dialog
theorem showItems_append (chatters : Chatters) (v : List Block) :
    ∀ (chatterline : Item) (block : Block) (items : List Item) (w : List Block),
      showItems chatters chatterline block items (v ++ w) =
        (showItems chatters chatterline block items w).map (v ++ ·)
  | chatterline, block, [], w => by
    simp only [showItems]
    split
    · simp only [List.append_assoc]
      exact loadChars_append chatters _ v _ 1 _
    · rfl
  | chatterline, block, first :: rest, w => by
    simp only [showItems]
    split
    · simp only [List.append_assoc]
      exact loadThreadFrom_append chatters v _ rest 1 _
    · rfl
termination_by structural _ _ items _ => items
end

theorem loadThread_append (chatters : Chatters) (v w : List Block) (cl dialog : Item)
    (skipFirst : Nat) :
    loadThread chatters (v ++ w) cl dialog skipFirst =
      (loadThread chatters w cl dialog skipFirst).map (v ++ ·) := by
  cases dialog with
  | leaf s => exact loadChars_append chatters cl v _ _ w
  | array items => exact loadThreadFrom_append chatters v cl _ _ w

theorem setupIcon_threadnav (chatters : Chatters) (chatterline : Item) (block : Block)
    (h : setupIcon chatters chatterline = .ok block) : block.threadnav = none := by
  unfold setupIcon at h
  split at h
  · cases h; rfl
  · split at h
    · cases h
    · cases h; rfl

theorem onFirstThread_of_threadnav_none (b : Block) (h : b.threadnav = none) :
    b.onFirstThread := by
  intro nav hnav
  rw [h] at hnav
  cases hnav

theorem onFirstThread_append (w : List Block) (b : Block)
    (hw : ∀ x ∈ w, x.onFirstThread) (hb : b.onFirstThread) :
    ∀ x ∈ w ++ [b], x.onFirstThread := by
  intro x hx
  rcases List.mem_append.1 hx with h | h
  · exact hw x h
  · rw [List.mem_singleton.1 h]; exact hb

theorem showThread_onFirstThread (block : Block) (nav : ThreadNav) (first : Option Item)
    (hmax : nav.threadmax = nav.dialog.length)
    (hfirst : (nav.dialog.index 0).bind (fun dialog => dialog.index 0) = first) :
    (block.showThread nav 1 (htmlOf first)).onFirstThread := by
  intro nav' hnav'
  simp only [Block.showThread, Option.some.injEq] at hnav'
  subst hnav'
  simp [Block.showThread, hmax, hfirst]

theorem loadChars_onFirstThread (chatters : Chatters) (cl : Item) :
    ∀ (cs : List Char) (i : Nat) (w r : List Block),
      loadChars chatters cl cs i w = .ok r → (∀ x ∈ w, x.onFirstThread) →
        ∀ x ∈ r, x.onFirstThread
  | [], i, w, r, h, hw => by
    simp only [loadChars] at h
    split at h
    · cases h
    · cases h; exact hw
  | c :: cs, i, w, r, h, hw => by
    simp only [loadChars] at h
    split at h
    · split at h
      · cases h
      · split at h
        · cases h
        · rename_i hicon
          have hnone := setupIcon_threadnav chatters _ _ hicon
          exact loadChars_onFirstThread chatters cl cs (i + 1) _ r h
            (onFirstThread_append w _ hw (onFirstThread_of_threadnav_none _ hnone))
    · cases h; exact hw

mutual
theorem loadThreadFrom_onFirstThread (chatters : Chatters) :
    ∀ (cl : Item) (ds : List Item) (i : Nat) (w r : List Block),
      loadThreadFrom chatters cl ds i w = .ok r → (∀ x ∈ w, x.onFirstThread) →
        ∀ x ∈ r, x.onFirstThread
  | cl, [], i, w, r, h, hw => by
    simp only [loadThreadFrom] at h
    split at h
    · cases h
    · cases h; exact hw
  | cl, d :: rest, i, w, r, h, hw => by
    simp only [loadThreadFrom] at h
    split at h
    · split at h
      · cases h
      · split at h
        · cases h
        · rename_i hicon
          have hnone := setupIcon_threadnav chatters _ _ hicon
          split at h
          · cases h
          · rename_i w' hmsg
            exact loadThreadFrom_onFirstThread chatters cl rest (i + 1) w' r h
              (setupMessage_onFirstThread chatters _ _ d w w' hnone hmsg hw)
    · cases h; exact hw
termination_by structural _ ds _ _ _ _ _ => ds
theorem setupMessage_onFirstThread (chatters : Chatters) :
    ∀ (chatterline : Item) (block : Block) (d : Item) (w r : List Block),
      block.threadnav = none →
      setupMessage chatters chatterline block d w = .ok r → (∀ x ∈ w, x.onFirstThread) →
        ∀ x ∈ r, x.onFirstThread
  | chatterline, block, .leaf s, w, r, hnone, h, hw => by
    simp only [setupMessage] at h
    cases h
    exact onFirstThread_append w _ hw (onFirstThread_of_threadnav_none _ hnone)
  | chatterline, block, .array threads, w, r, _, h, hw => by
    simp only [setupMessage] at h
    have key := showFirst_onFirstThread chatters chatterline
      (forkBlock block chatterline (.array threads)) _ threads w r rfl
    exact key rfl (by cases threads <;> rfl) h hw
termination_by structural _ _ d _ _ _ _ _ => d
theorem showFirst_onFirstThread (chatters : Chatters) :
    ∀ (chatterline : Item) (block : Block) (nav : ThreadNav) (threads : List Item)
      (w r : List Block),
      block.threadnav = some nav → nav.threadmax = nav.dialog.length →
      nav.dialog.index 0 = threads.head? →
      showFirst chatters chatterline block threads w = .ok r → (∀ x ∈ w, x.onFirstThread) →
        ∀ x ∈ r, x.onFirstThread
  | chatterline, block, nav, [], w, r, _, _, _, h, _ => by
    simp only [showFirst] at h
    cases h
  | chatterline, block, nav, dialog :: _, w, r, hnav, hmax, hhead, h, hw => by
    simp only [showFirst] at h
    exact showDialog_onFirstThread chatters chatterline block nav dialog w r hnav hmax
      (by simpa using hhead) h hw
termination_by structural _ _ _ threads _ _ _ _ _ _ _ => threads
theorem showDialog_onFirstThread (chatters : Chatters) :
    ∀ (chatterline : Item) (block : Block) (nav : ThreadNav) (dialog : Item)
      (w r : List Block),
      block.threadnav = some nav → nav.threadmax = nav.dialog.length →
      nav.dialog.index 0 = some dialog →
      showDialog chatters chatterline block dialog w = .ok r → (∀ x ∈ w, x.onFirstThread) →
        ∀ x ∈ r, x.onFirstThread
  | chatterline, block, nav, .leaf s, w, r, hnav, hmax, hhead, h, hw => by
    simp only [showDialog, hnav] at h
    split at h
    · rename_i nav' cl' hn _
      cases hn
      exact loadChars_onFirstThread chatters _ _ 1 _ r h
        (onFirstThread_append w _ hw
          (showThread_onFirstThread block nav _ hmax (by simp [hhead])))
    · cases h
  | chatterline, block, nav, .array items, w, r, hnav, hmax, hhead, h, hw => by
    simp only [showDialog] at h
    exact showItems_onFirstThread chatters chatterline block nav items w r hnav hmax hhead h hw
termination_by structural _ _ _ dialog _ _ _ _ _ _ _ => dialog
theorem showItems_onFirstThread (chatters : Chatters) :
    ∀ (chatterline : Item) (block : Block) (nav : ThreadNav) (items : List Item)
      (w r : List Block),
      block.threadnav = some nav → nav.threadmax = nav.dialog.length →
      nav.dialog.index 0 = some (.array items) →
      showItems chatters chatterline block items w = .ok r → (∀ x ∈ w, x.onFirstThread) →
        ∀ x ∈ r, x.onFirstThread
  | chatterline, block, nav, [], w, r, hnav, hmax, hhead, h, hw => by
    simp only [showItems, hnav] at h
    split at h
    · rename_i nav' cl' hn _
      cases hn
      exact loadChars_onFirstThread chatters _ _ 1 _ r h
        (onFirstThread_append w _ hw
          (showThread_onFirstThread block nav _ hmax (by rw [hhead]; rfl)))
    · cases h
  | chatterline, block, nav, first :: rest, w, r, hnav, hmax, hhead, h, hw => by
    simp only [showItems, hnav] at h
    split at h
    · rename_i nav' cl' hn _
      cases hn
      exact loadThreadFrom_onFirstThread chatters _ rest 1 _ r h
        (onFirstThread_append w _ hw
          (showThread_onFirstThread block nav _ hmax (by rw [hhead]; rfl)))
    · cases h
termination_by structural _ _ _ items _ _ _ _ _ _ _ => items
end

theorem loadThread_onFirstThread (chatters : Chatters) (w r : List Block) (cl dialog : Item)
    (skipFirst : Nat) (h : loadThread chatters w cl dialog skipFirst = .ok r)
    (hw : ∀ x ∈ w, x.onFirstThread) : ∀ x ∈ r, x.onFirstThread := by
  cases dialog with
  | leaf s => exact loadChars_onFirstThread chatters cl _ _ w r h hw
  | array items => exact loadThreadFrom_onFirstThread chatters cl _ _ w r h hw

theorem loadThreadFrom_nil_eq_loadChars (chatters : Chatters) (cl : Item) (i : Nat)
    (view : List Block) :
    loadThreadFrom chatters cl [] i view = loadChars chatters cl [] i view := by
  simp [loadThreadFrom, loadChars]

theorem index_array (items : List Item) (i : Nat) :
    (Item.array items).index i = items.get? i := rfl

/-- The call `changeThread(block, ..., 0)` that `loadThread` makes on the fork
block it has just set up is `changeThread` with modifier 0 on the last block. -/
theorem setupMessage_eq_changeThread (chatters : Chatters) (chatterline : Item) (block : Block)
    (threads : List Item) (view : List Block) :
    setupMessage chatters chatterline block (.array threads) view =
      changeThread chatters (view ++ [forkBlock block chatterline (.array threads)])
        view.length 0 := by
  have hget : (view ++ [forkBlock block chatterline (.array threads)]).get? view.length =
      some (forkBlock block chatterline (.array threads)) := by
    simp [List.get?_eq_getElem?]
  unfold changeThread
  rw [hget]
  cases threads with
  | nil => simp [setupMessage, showFirst, forkBlock, Item.indexInt, index_array]
  | cons dialog more =>
    cases hcl : chatterline.index 0 with
    | none =>
      cases dialog with
      | leaf s =>
        simp [setupMessage, showFirst, showDialog, forkBlock, Item.indexInt, index_array, hcl]
      | array items =>
        cases items <;>
          simp [setupMessage, showFirst, showDialog, showItems, forkBlock, Item.indexInt,
            index_array, hcl]
    | some cl =>
      cases dialog with
      | leaf s =>
        simp [setupMessage, showFirst, showDialog, forkBlock, Item.indexInt, index_array, hcl,
          loadThread]
      | array items =>
        cases items with
        | nil =>
          simp [setupMessage, showFirst, showDialog, showItems, forkBlock, Item.indexInt,
            index_array, hcl, loadThread, loadThreadFrom_nil_eq_loadChars]
        | cons first rest =>
          simp [setupMessage, showFirst, showDialog, showItems, forkBlock, Item.indexInt,
            index_array, hcl, loadThread]

/-- C9: `changeThread` does nothing at the bounds. For a fork block of the
view whose navigation shows thread number `threadcurrent` of `threadmax` (the
number of threads `loadThread` wrote there), the call with modifier -1 at
thread number 1, and the call with modifier +1 at thread number `threadmax`,
return the view as it was: the number shown, both arrows, the message of the
fork block and every block after it. -/
theorem changeThread_bounds (chatters : Chatters) (view : List Block) (i : Nat)
    (block : Block) (nav : ThreadNav) (modifier : Int)
    (hblock : view.get? i = some block) (hnav : block.threadnav = some nav)
    (hbound : (nav.threadcurrent = 1 ∧ modifier = -1) ∨
      (nav.threadcurrent = (nav.threadmax : Int) ∧ modifier = 1)) :
    changeThread chatters view i modifier = .ok view := by
  unfold changeThread
  simp only [hblock, hnav]
  rcases hbound with ⟨h1, h2⟩ | ⟨h1, h2⟩
  · simp [h1, h2]
  · simp [h1, h2]

/-- Scenario B as rendered, thread 1 of 2 on display: the previous arrow does
nothing; and after a switch to thread 2 the next arrow does nothing. -/
theorem changeThread_bounds_viewB :
    changeThread chattersB viewB 1 (-1) = .ok viewB ∧
    ∀ view, changeThread chattersB viewB 1 1 = .ok view →
      changeThread chattersB view 1 1 = .ok view :=
  ⟨changeThread_bounds chattersB viewB 1 _ _ (-1) rfl rfl (Or.inl ⟨rfl, rfl⟩),
    fun view h => by
      cases h
      exact changeThread_bounds chattersB _ 1 _ _ 1 rfl rfl (Or.inr ⟨rfl, rfl⟩)⟩

/-- C10: away from the bounds `changeThread` shows thread number
`threadcurrent + modifier`. When that thread exists in `dialog` and in
`chatterlines`, the result is: the blocks before the fork block, as they were;
the fork block with the new number, its arrows set for that number and the
first element of the new thread as its message; and then exactly the blocks
`loadThread` renders for the new thread (from its second element on) into an
empty parent. Nothing that came after the fork block, and nothing of its old
message, is part of it, and every fork among the new blocks shows its first
thread. -/
theorem changeThread_switch (chatters : Chatters) (view : List Block) (i : Nat)
    (block : Block) (nav : ThreadNav) (modifier : Int) (dialog chatterlines : Item)
    (hblock : view.get? i = some block) (hnav : block.threadnav = some nav)
    (hlow : ¬ (nav.threadcurrent = 1 ∧ modifier = -1))
    (hhigh : ¬ (nav.threadcurrent = (nav.threadmax : Int) ∧ modifier = 1))
    (hdialog : nav.dialog.indexInt (nav.threadcurrent + modifier - 1) = some dialog)
    (hchatterlines :
      nav.chatterlines.indexInt (nav.threadcurrent + modifier - 1) = some chatterlines) :
    changeThread chatters view i modifier =
      (loadThread chatters [] chatterlines dialog 1).map
        (fun rest =>
          view.take i ++
            ([block.showThread nav (nav.threadcurrent + modifier) (htmlOf (dialog.index 0))] ++
              rest)) ∧
    ∀ rest, loadThread chatters [] chatterlines dialog 1 = .ok rest →
      ∀ b ∈ rest, b.onFirstThread := by
  constructor
  · unfold changeThread
    simp only [hblock, hnav, hdialog, hchatterlines]
    have h1 : (nav.threadcurrent == 1 && modifier == -1) = false := by
      simpa using hlow
    have h2 : (nav.threadcurrent == (nav.threadmax : Int) && modifier == 1) = false := by
      simpa using hhigh
    simp only [h1, h2]
    have happ := loadThread_append chatters
      (view.take i ++
        [block.showThread nav (nav.threadcurrent + modifier) (htmlOf (dialog.index 0))])
      [] chatterlines dialog 1
    simp only [List.append_nil] at happ
    rw [happ]
    cases loadThread chatters [] chatterlines dialog 1 with
    | error e => rfl
    | ok rest => simp [Except.map]
  · intro rest h b hb
    exact loadThread_onFirstThread chatters [] rest chatterlines dialog 1 h
      (fun x hx => absurd hx (List.not_mem_nil x)) b hb

/-- Scenario B as rendered, thread 1 of 2 on display: the next arrow keeps the
unit by User, shows thread 2 with its first element as the message of the fork
block, and drops the block of thread 1 that came after the fork block. -/
theorem changeThread_switch_viewB :
    changeThread chattersB viewB 1 1 = .ok
      [{ chatter := some { name := "User", icon := "<img>", image := "data:image;base64,IMG" },
         threadnav := none, content := "<div>q1</div>" },
       { chatter := none,
         threadnav := some
           { threadcurrent := 2, threadmax := 2, threadprev := false, threadnext := true,
             dialog := dialogB, chatterlines := chatterlinesB },
         content := "<div>a1b</div>" }] :=
  (changeThread_switch chattersB viewB 1 _ _ 1 (.array [.leaf "<div>a1b</div>"])
    (.array [.leaf "Assistant"]) rfl rfl (by decide) (by decide) rfl rfl).1.trans (by rfl)

theorem singleton_length (c : Char) : (String.singleton c).length = 1 := rfl

/-- C8, as the code has it: `loadThread` does not compare `chatterlines` and
`dialog` and rejects nothing before rendering; it goes position by position.
Where `chatterlines[i]` is a sub array and `dialog[i]` a string, it adds a
block with no chatter icon and that string as message, and goes on with the
next position. Where `chatterlines[i]` is the non-empty name of a known chatter
and `dialog[i]` a sub array whose first thread is an array that starts with
`first`, it adds a block with that chatter's icon, the thread navigation on 1
and `first` as message, renders nothing more of that thread, and goes on with
the next position. -/
theorem loadThread_position (chatters : Chatters) (chatterlines : Item) (i : Nat)
    (rest : List Item) (view : List Block) (hi : i < chatterlines.length) :
    (∀ (threads : List Item) (s : String),
      chatterlines.index i = some (.array threads) →
      loadThreadFrom chatters chatterlines (.leaf s :: rest) i view =
        loadThreadFrom chatters chatterlines rest (i + 1)
          (view ++ [{ chatter := none, threadnav := none, content := s }])) ∧
    (∀ (name : String) (chatter : ChatterInfoOutput) (first : Item)
      (more others : List Item),
      chatterlines.index i = some (.leaf name) → name ≠ "" →
      chatters.lookup name = some chatter →
      loadThreadFrom chatters chatterlines
          (.array (.array (first :: more) :: others) :: rest) i view =
        loadThreadFrom chatters chatterlines rest (i + 1)
          (view ++
            [{ chatter := some chatter,
               threadnav := some
                 { threadcurrent := 1, threadmax := others.length + 1, threadprev := true,
                   threadnext := ((1 : Int) == ((others.length + 1 : Nat) : Int)),
                   dialog := .array (.array (first :: more) :: others),
                   chatterlines := .leaf name },
               content := first.toString }])) := by
  constructor
  · intro threads s hcl
    rw [loadThreadFrom]
    simp [hi, hcl, setupIcon, setupMessage]
  · intro name chatter first more others hcl hname hchatter
    have hdata : ∃ c cs, name.data = c :: cs := by
      cases hd : name.data with
      | nil => exact absurd (String.ext hd) hname
      | cons c cs => exact ⟨c, cs, rfl⟩
    obtain ⟨c, cs, hd⟩ := hdata
    have hindex : (Item.leaf name).index 0 = some (.leaf (String.singleton c)) := by
      simp [Item.index, hd]
    have hstop : ∀ v, loadThreadFrom chatters (.leaf (String.singleton c)) more 1 v = .ok v := by
      intro v
      cases more <;> simp [loadThreadFrom, Item.length, singleton_length]
    have hlen : (Item.array (.array (first :: more) :: others)).length = others.length + 1 :=
      rfl
    rw [loadThreadFrom]
    simp [hi, hcl, setupIcon, hchatter, setupMessage, showFirst, showDialog, showItems,
      forkBlock, hindex, hstop, Block.showThread, htmlOf, hlen]

/-- Scenario C: the third position holds a sub array in `chatterlines` and a
string in `dialog`; the first two blocks are rendered as usual. -/
theorem loadThread_position_scenarioC :
    loadThreadFrom chattersB (.array scenarioC.chatterlines) [.leaf "<div>q2</div>"] 2
        [{ chatter := some
             { name := "User", icon := "<img>", image := "data:image;base64,IMG" },
           threadnav := none, content := "<div>q1</div>" },
         { chatter := some
             { name := "Assistant", icon := "<img>", image := "data:image;base64,IMG" },
           threadnav := none, content := "<div>a1</div>" }] =
      .ok
        [{ chatter := some
             { name := "User", icon := "<img>", image := "data:image;base64,IMG" },
           threadnav := none, content := "<div>q1</div>" },
         { chatter := some
             { name := "Assistant", icon := "<img>", image := "data:image;base64,IMG" },
           threadnav := none, content := "<div>a1</div>" },
         { chatter := none, threadnav := none, content := "<div>q2</div>" }] :=
  ((loadThread_position chattersB (.array scenarioC.chatterlines) 2 [] _ (by decide)).1
    [.array [.leaf "User"]] "<div>q2</div>" rfl).trans (by rfl)

/-- C8 fails as stated: for the saved log of scenario C, whose `chatterlines[2]`
is a sub array while `dialog[2]` is a string, `loadLog` raises no failure and
renders three blocks, the third without chatter icon. -/
theorem loadLog_scenarioC :
    loadLog scenarioC = .ok
      [{ chatter := some { name := "User", icon := "<img>", image := "data:image;base64,IMG" },
         threadnav := none, content := "<div>q1</div>" },
       { chatter := some
           { name := "Assistant", icon := "<img>", image := "data:image;base64,IMG" },
         threadnav := none, content := "<div>a1</div>" },
       { chatter := none, threadnav := none, content := "<div>q2</div>" }] := by
  rfl

/-! ## The thread navigation, the GUID, the buttons and the lock -/

theorem setRootThreadRun_eq : ∀ k : Nat,
    setRootThreadRun k =
      (0, (List.replicate k [NavStep.click, NavStep.threadTransitionTimeout]).flatten)
  | 0 => rfl
  | k + 1 => by
    rw [setRootThreadRun, setRootThreadRun_eq k]
    simp [List.replicate_succ]

/-- C13: on a fork that shows branch `k` (counted from 0), where a click on the
previous arrow shows the branch before and the arrow is disabled exactly on
branch 0, `setRootThread` ends; it ends with branch 0 on display and the
previous arrow disabled, after exactly `k` clicks, each followed by one
`threadTransitionTimeout` (no step at all when `k = 0`). -/
theorem setRootThread_steps (k : Nat) :
    (setRootThreadRun k).1 = 0 ∧ setRootThread k = 0 ∧
    previousDisabled (setRootThreadRun k).1 = true ∧
    (setRootThreadRun k).2 =
      (List.replicate k [NavStep.click, NavStep.threadTransitionTimeout]).flatten ∧
    (setRootThreadRun k).2.count NavStep.click = k ∧
    (setRootThreadRun k).2.count NavStep.threadTransitionTimeout = k := by
  rw [setRootThreadRun_eq k]
  refine ⟨rfl, setRootThread_eq_zero k, rfl, rfl, ?_, ?_⟩
  · induction k with
    | zero => rfl
    | succ n ih => simpa [List.replicate_succ] using ih
  · induction k with
    | zero => rfl
    | succ n ih => simpa [List.replicate_succ] using ih

/-- A fork on its third branch: two clicks, each followed by a wait. -/
theorem setRootThread_steps_third :
    setRootThreadRun 2 =
      (0, [.click, .threadTransitionTimeout, .click, .threadTransitionTimeout]) ∧
    setRootThreadRun 0 = (0, []) :=
  ⟨Prod.ext (setRootThread_steps 2).1 ((setRootThread_steps 2).2.2.2.1.trans rfl), rfl⟩

/-- C15 fails on the code: for the URL `https://chat.openai.com/c/abc/` (the
id `abc` followed by `/`) the greedy `.*` lets the `c/` at the end of the URL
match, and `getGUID` returns the empty string; for a query that holds `c/`
it returns what follows that instead of the id. Without such a later `c/` the
id is returned. -/
theorem getGUID_later_match :
    getGUID "https://chat.openai.com/c/abc/" = some "" ∧
    getGUID "https://chat.openai.com/c/abc?from=/c/xyz" = some "xyz" ∧
    getGUID "https://chat.openai.com/c/abc" = some "abc" ∧
    getGUID "https://chat.openai.com/c/abd/" = some "abd" := by
  decide

theorem updateDownloadButtons_PARSELOCK (d : Document) (s : Session) :
    (updateDownloadButtons d s).PARSELOCK = s.PARSELOCK := rfl

/-- C16 on the code: each of `download`, `downloadAll`, `save` and `saveAll`
sets `PARSELOCK` before the build step; when the build step returns an output
the operation ends with `PARSELOCK` false, and when the build step is
rejected the operation is rejected at the `await` and ends with `PARSELOCK`
still true. -/
theorem PARSELOCK_at_end (d : Document) (s : Session)
    (build : Except Failure DownloadOutput) :
    (∀ output, build = .ok output →
      (download d build s).session.PARSELOCK = false ∧
      (downloadAll d build s).session.PARSELOCK = false ∧
      (save d build s).session.PARSELOCK = false ∧
      (saveAll d build s).session.PARSELOCK = false) ∧
    (∀ e, build = .error e →
      ((download d build s).rejected = some e ∧
        (download d build s).session.PARSELOCK = true) ∧
      ((downloadAll d build s).rejected = some e ∧
        (downloadAll d build s).session.PARSELOCK = true) ∧
      ((save d build s).rejected = some e ∧ (save d build s).session.PARSELOCK = true) ∧
      ((saveAll d build s).rejected = some e ∧
        (saveAll d build s).session.PARSELOCK = true)) := by
  constructor
  · intro output h
    subst h
    exact ⟨rfl, rfl, rfl, rfl⟩
  · intro e h
    subst h
    exact ⟨⟨rfl, rfl⟩, ⟨rfl, rfl⟩, ⟨rfl, rfl⟩, ⟨rfl, rfl⟩⟩

/-- Without a ChatLogElement `buildFullLog` is rejected: `saveAll` and
`download` end with the lock on and the four buttons disabled, in a loaded
document. -/
theorem PARSELOCK_at_end_scenarioNoLog :
    (saveAll documentLoaded (buildFullLog encodeStub scenarioNoLog)
      sessionIdle).session.PARSELOCK = true ∧
    (saveAll documentLoaded (buildFullLog encodeStub scenarioNoLog) sessionIdle).session.buttons
      = [true, true, true, true] ∧
    (download documentLoaded (buildSimpleLog encodeStub scenarioNoLog)
      sessionIdle).session.PARSELOCK = true :=
  ⟨((PARSELOCK_at_end documentLoaded sessionIdle (buildFullLog encodeStub scenarioNoLog)).2
      .typeError rfl).2.2.2.2,
    by decide,
    ((PARSELOCK_at_end documentLoaded sessionIdle (buildSimpleLog encodeStub scenarioNoLog)).2
      .typeError rfl).1.2⟩

/-- C17: after `updateDownloadButtons` every download and save button is
disabled exactly when `isLoaded()` is false or `PARSELOCK` is true (the lock
itself is left as it was); `isLoaded()` with its default arguments is true
exactly when the chat log element exists, an active chat title exists and no
response is being rendered. When `#__next` exists there are four buttons. -/
theorem updateDownloadButtons_disabled (d : Document) (s : Session) :
    (∀ b ∈ (updateDownloadButtons d s).buttons,
      (b = true ↔ (isLoaded d true true = false ∨ s.PARSELOCK = true))) ∧
    (updateDownloadButtons d s).PARSELOCK = s.PARSELOCK ∧
    (isLoaded d true true = true ↔
      (d.chatLogElement = true ∧ d.activeChatTitle = true ∧ d.renderingResponse = false)) ∧
    (s.buttons = [] → d.nextElement = true →
      (updateDownloadButtons d s).buttons.length = 4) := by
  refine ⟨?_, rfl, ?_, ?_⟩
  · intro b hb
    simp only [updateDownloadButtons, List.mem_map] at hb
    obtain ⟨_, _, rfl⟩ := hb
    cases isLoaded d true true <;> cases s.PARSELOCK <;> simp
  · cases d with
    | mk a b c n => cases a <;> cases b <;> cases c <;> simp [isLoaded]
  · intro hs hn
    simp [updateDownloadButtons, hs, hn, setupDownloadButtons]

/-- A loaded document: the buttons are enabled with the lock off and disabled
with the lock on; while a response is rendered they are disabled. -/
theorem updateDownloadButtons_disabled_loaded :
    (updateDownloadButtons documentLoaded sessionIdle).buttons = [false, false, false, false] ∧
    (updateDownloadButtons documentLoaded { sessionIdle with PARSELOCK := true }).buttons =
      [true, true, true, true] ∧
    (updateDownloadButtons { documentLoaded with renderingResponse := true } sessionIdle).buttons
      = [true, true, true, true] ∧
    (true = true ↔ (isLoaded documentLoaded true true = false ∨ true = true)) :=
  ⟨by decide, by decide, by decide,
    (updateDownloadButtons_disabled documentLoaded { sessionIdle with PARSELOCK := true }).1
      true (by decide)⟩

/-- C18 on the code: neither build function gives its output a `type`
property; the output of `buildSimpleLog` and the output of `buildFullLog` have
none, so it is neither `simple` nor `full`. -/
theorem build_type_none (enc : IconElement → String) (page : Page) (out : DownloadOutput) :
    (buildSimpleLog enc page = .ok out → out.type = none) ∧
    (buildFullLog enc page = .ok out → out.type = none) := by
  constructor
  · intro h
    cases hlog : page.log with
    | none => simp [buildSimpleLog, hlog] at h
    | some log =>
      rw [buildSimpleLog_eq enc page log hlog] at h
      cases h; rfl
  · intro h
    obtain ⟨log, -, rfl⟩ := buildFullLog_ok enc page out h
    rfl

/-- Scenario A: no `type` in either output. -/
theorem build_type_none_scenarioA :
    (∃ out, buildSimpleLog encodeStub scenarioA = .ok out ∧ out.type = none) ∧
    (∃ out, buildFullLog encodeStub scenarioA = .ok out ∧ out.type = none) :=
  ⟨⟨_, rfl, (build_type_none encodeStub scenarioA _).1 rfl⟩,
    ⟨_, rfl, (build_type_none encodeStub scenarioA _).2 rfl⟩⟩

/-! ## A capture on a page that changes under it -/

mutual
theorem parseThreadsLive_live (enc : IconElement → String) :
    ∀ (t : Thread) (o : DownloadOutput),
      parseThreadsLive enc t.live o = .ok (parseThreads enc t o)
  | .done, o => by simp [Thread.live, parseThreadsLive, parseThreads]
  | .unit none _, o => by simp [Thread.live, parseThreadsLive, parseThreads]
  | .unit (some turn) next, o => by
    simp only [Thread.live, parseThreadsLive, parseThreads]
    exact parseThreadsLive_live enc next _
  | .fork cur bs, o => by
    simp only [Thread.live, parseThreadsLive, parseThreads]
    rw [threadLoopLive_live enc bs (setRootThread cur) o o.chatters]
theorem threadLoopLive_live (enc : IconElement → String) :
    ∀ (bs : Branches) (k : Nat) (o : DownloadOutput) (c : Chatters),
      threadLoopLive enc bs.live k o c = .ok (threadLoop enc bs k o c)
  | .last b next, k, o, c => by
    simp only [Branches.live, threadLoopLive, threadLoop]
    rw [parseThreadsLive_live enc next]
    simp
  | .cons b next more, 0, o, c => by
    simp only [Branches.live, threadLoopLive, threadLoop]
    rw [parseThreadsLive_live enc next]
    simp only [if_true]
    rw [threadLoopLive_live enc more 0]
  | .cons b next more, k + 1, o, c => by
    simp only [Branches.live, threadLoopLive, threadLoop]
    exact threadLoopLive_live enc more k o c
end

mutual
theorem parseThreadsLive_intact (enc : IconElement → String) :
    ∀ (t : LiveThread) (o : DownloadOutput),
      (t.intact = false → parseThreadsLive enc t o = .error .typeError) ∧
      (t.intact = true → ∃ out, parseThreadsLive enc t o = .ok out)
  | .done, o => by simp [LiveThread.intact, parseThreadsLive]
  | .unit none _, o => by simp [LiveThread.intact, parseThreadsLive]
  | .unit (some turn) next, o => by
    simp only [LiveThread.intact, parseThreadsLive]
    exact parseThreadsLive_intact enc next _
  | .fork cur bs, o => by
    simp only [LiveThread.intact, parseThreadsLive, setRootThread_eq_zero]
    have ih := threadLoopLive_intact enc bs o o.chatters
    constructor
    · intro h
      rw [ih.1 h]
    · intro h
      obtain ⟨all, hall⟩ := ih.2 h
      rw [hall]
      exact ⟨_, rfl⟩
theorem threadLoopLive_intact (enc : IconElement → String) :
    ∀ (bs : LiveBranches) (o : DownloadOutput) (c : Chatters),
      (bs.intact = false → threadLoopLive enc bs 0 o c = .error .typeError) ∧
      (bs.intact = true → ∃ all, threadLoopLive enc bs 0 o c = .ok all)
  | .last none _ _, o, c => by simp [LiveBranches.intact, threadLoopLive]
  | .last (some b) next arrow, o, c => by
    have ih := parseThreadsLive_intact enc next
      (parseDialogBlock enc (some b) (subOutput o c))
    simp only [LiveBranches.intact, threadLoopLive, Option.isSome_some, Bool.true_and]
    cases hn : next.intact with
    | false => simp [ih.1 hn]
    | true =>
      obtain ⟨sub, hsub⟩ := ih.2 hn
      cases arrow <;> simp [hsub]
  | .cons none _ _ _, o, c => by simp [LiveBranches.intact, threadLoopLive]
  | .cons (some b) next arrow more, o, c => by
    have ih := parseThreadsLive_intact enc next
      (parseDialogBlock enc (some b) (subOutput o c))
    simp only [LiveBranches.intact, threadLoopLive, Option.isSome_some, Bool.true_and]
    cases hn : next.intact with
    | false => simp [ih.1 hn]
    | true =>
      obtain ⟨sub, hsub⟩ := ih.2 hn
      have ihm := threadLoopLive_intact enc more o sub.chatters
      cases arrow with
      | false => simp [hsub]
      | true =>
        cases hm : more.intact with
        | false => simp [hsub, ihm.1 hm]
        | true =>
          obtain ⟨rest, hrest⟩ := ihm.2 hm
          simp [hsub, hrest]
end

theorem live_intact (t : Thread) : t.live.intact = true := by
  cases h : t.live.intact with
  | true => rfl
  | false =>
    have := (parseThreadsLive_intact (fun _ => "") t.live default).1 h
    rw [parseThreadsLive_live] at this
    cases this

/-- C14: when, during a full capture, the block at a fork position or its next
arrow is not there when the loop of `parseThreads` reads it, `buildFullLog` is
rejected and gives no output, whatever it had collected and however deep the
fork is; `saveAll` and `downloadAll` are then rejected at the `await`, the
stored list is as it was, no download is started, and neither `completeSave`
nor `completeDownload` gets an output. When everything read is there, the
capture returns an output. -/
theorem capture_abort (enc : IconElement → String) (page : Page) (log : LiveThread)
    (d : Document) (s : Session) :
    (log.intact = false →
      buildFullLogLive enc page (some log) = .error .typeError ∧
      (saveAll d (buildFullLogLive enc page (some log)) s).rejected = some .typeError ∧
      (saveAll d (buildFullLogLive enc page (some log)) s).session.saved = s.saved ∧
      (saveAll d (buildFullLogLive enc page (some log)) s).session.downloads = s.downloads ∧
      (downloadAll d (buildFullLogLive enc page (some log)) s).rejected = some .typeError ∧
      (downloadAll d (buildFullLogLive enc page (some log)) s).session.saved = s.saved ∧
      (downloadAll d (buildFullLogLive enc page (some log)) s).session.downloads =
        s.downloads) ∧
    (log.intact = true → ∃ out, buildFullLogLive enc page (some log) = .ok out) := by
  constructor
  · intro h
    have he : buildFullLogLive enc page (some log) = .error .typeError :=
      (parseThreadsLive_intact enc log (initialOutput page)).1 h
    rw [he]
    exact ⟨rfl, rfl, rfl, rfl, rfl, rfl, rfl⟩
  · intro h
    exact (parseThreadsLive_intact enc log (initialOutput page)).2 h

/-- Scenario B with the next arrow of the first thread gone, and with the block
of the second thread gone: the capture is rejected, nothing is stored and no
download is started; scenario B itself is captured as before. -/
theorem capture_abort_scenarioB :
    buildFullLogLive encodeStub scenarioB (some scenarioBStale) = .error .typeError ∧
    buildFullLogLive encodeStub scenarioB (some scenarioBGone) = .error .typeError ∧
    (saveAll documentLoaded (buildFullLogLive encodeStub scenarioB (some scenarioBStale))
      sessionIdle).session.saved = none ∧
    (downloadAll documentLoaded (buildFullLogLive encodeStub scenarioB (some scenarioBGone))
      sessionIdle).session.downloads = [] ∧
    buildFullLogLive encodeStub scenarioB (scenarioB.log.map Thread.live) =
      buildFullLog encodeStub scenarioB :=
  ⟨((capture_abort encodeStub scenarioB scenarioBStale documentLoaded sessionIdle).1 rfl).1,
    ((capture_abort encodeStub scenarioB scenarioBGone documentLoaded sessionIdle).1 rfl).1,
    ((capture_abort encodeStub scenarioB scenarioBStale documentLoaded sessionIdle).1 rfl).2.2.1,
    ((capture_abort encodeStub scenarioB scenarioBGone documentLoaded sessionIdle).1
      rfl).2.2.2.2.2.2,
    by rfl⟩

/-- On a page where every read finds its element the capture on the
`LiveThread` is `buildFullLog`. -/
theorem buildFullLogLive_live (enc : IconElement → String) (page : Page) :
    buildFullLogLive enc page (page.log.map Thread.live) = buildFullLog enc page := by
  cases h : page.log with
  | none => simp [buildFullLogLive, buildFullLog, h]
  | some log =>
    simp [buildFullLogLive, buildFullLog, h, parseThreadsLive_live, initialOutput]

/-! ## The initial render -/

/-- C12 fails on the code: on the capture of scenario B the viewer renders the
fork block, whose message is the first unit of the thread on display (by
Assistant, who has an entry in `chatters`), without any chatter icon, on the
initial render and after a switch to the second thread; the units that are not
at a fork position get their icon. -/
theorem loadLog_fork_without_chatter :
    buildFullLog encodeStub scenarioB = .ok captureB ∧
    loadLog captureB = .ok viewB ∧
    captureB.chatters.lookup "Assistant" =
      some { name := "Assistant", icon := "<img>", image := "data:image;base64,IMG" } ∧
    viewB.map (fun b => (b.chatter.map (fun c => c.name), b.content)) =
      [(some "User", "<div>q1</div>"), (none, "<div>a1</div>"), (some "User", "<div>q2</div>")] ∧
    (changeThread captureB.chatters viewB 1 1).map
        (fun view => view.map (fun b => (b.chatter.map (fun c => c.name), b.content))) =
      .ok [(some "User", "<div>q1</div>"), (none, "<div>a1b</div>")] := by
  refine ⟨by rfl, by rfl, by decide, by decide, by rfl⟩

theorem index_append_length (pre : List Item) (x : Item) (xs : List Item) :
    (Item.array (pre ++ x :: xs)).index pre.length = some x := by
  induction pre with
  | nil => rfl
  | cons p ps ih => simpa [Item.index] using ih

theorem length_array_append (pre xs : List Item) :
    (Item.array (pre ++ xs)).length = pre.length + xs.length := by
  simp [Item.length]

mutual
theorem loadThreadFrom_rootBlocks (chatters : Chatters) :
    ∀ (t : Thread) (pre : List Item) (view : List Block),
      (∀ u ∈ t.units, (chatters.lookup (speaker u)).isSome = true) →
      loadThreadFrom chatters (.array (pre ++ t.lines speaker)) (t.lines rendered)
          pre.length view =
        .ok (view ++ t.rootBlocks chatters)
  | .done, pre, view, _ => by
    simp [Thread.lines, Thread.rootBlocks, loadThreadFrom, Item.length]
  | .unit none _, pre, view, _ => by
    simp [Thread.lines, Thread.rootBlocks, loadThreadFrom, Item.length]
  | .unit (some turn) next, pre, view, h => by
    have hturn : (chatters.lookup (speaker turn)).isSome = true :=
      h turn (by simp [Thread.units])
    obtain ⟨chatter, hchatter⟩ := Option.isSome_iff_exists.1 hturn
    have hnext : ∀ u ∈ next.units, (chatters.lookup (speaker u)).isSome = true :=
      fun u hu => h u (by simp [Thread.units, hu])
    have ih := loadThreadFrom_rootBlocks chatters next (pre ++ [.leaf (speaker turn)])
      (view ++ [{ chatter := some chatter, threadnav := none, content := rendered turn }])
      hnext
    simp only [List.append_assoc, List.singleton_append, List.length_append,
      List.length_singleton] at ih
    simp only [Thread.lines, Thread.rootBlocks]
    rw [loadThreadFrom]
    simp only [length_array_append, List.length_cons, index_append_length, setupIcon,
      hchatter, setupMessage]
    simp only [show pre.length < pre.length + ((next.lines speaker).length + 1) by omega,
      if_true]
    rw [ih]
  | .fork cur bs, pre, view, h => by
    have ih := showFirst_rootBlocks chatters bs view
      (fun u hu => h u (by simpa [Thread.units] using hu))
    simp only [Thread.lines, Thread.rootBlocks]
    rw [loadThreadFrom]
    simp only [length_array_append, List.length_cons, List.length_nil, index_append_length,
      setupIcon, setupMessage]
    simp only [show pre.length < pre.length + (0 + 1) by omega, if_true]
    rw [ih]
    simp [loadThreadFrom, length_array_append]
theorem showFirst_rootBlocks (chatters : Chatters) :
    ∀ (bs : Branches) (view : List Block),
      (∀ u ∈ bs.units, (chatters.lookup (speaker u)).isSome = true) →
      showFirst chatters (.array (bs.lines speaker))
          (forkBlock { chatter := none, threadnav := none, content := "" }
            (.array (bs.lines speaker)) (.array (bs.lines rendered)))
          (bs.lines rendered) view =
        .ok (view ++ bs.rootBlocks chatters)
  | .last b next, view, h => by
    have hnext : ∀ u ∈ next.units, (chatters.lookup (speaker u)).isSome = true :=
      fun u hu => h u (by simp [Branches.units, hu])
    have ih := loadThreadFrom_rootBlocks chatters next [.leaf (speaker b)]
      (view ++ [shownFork (.last b next) b]) hnext
    simp only [List.singleton_append, List.length_singleton, List.append_assoc] at ih
    simp only [Branches.rootBlocks]
    rw [← ih]
    simp [Branches.lines, showFirst, showDialog, showItems, forkBlock, Block.showThread,
      index_array, htmlOf, Item.toString, shownFork, Item.length, rendered]
  | .cons b next more, view, h => by
    have hnext : ∀ u ∈ next.units, (chatters.lookup (speaker u)).isSome = true :=
      fun u hu => h u (by simp [Branches.units, hu])
    have ih := loadThreadFrom_rootBlocks chatters next [.leaf (speaker b)]
      (view ++ [shownFork (.cons b next more) b]) hnext
    simp only [List.singleton_append, List.length_singleton, List.append_assoc] at ih
    simp only [Branches.rootBlocks]
    rw [← ih]
    simp [Branches.lines, showFirst, showDialog, showItems, forkBlock, Block.showThread,
      index_array, htmlOf, Item.toString, shownFork, Item.length, rendered]
end

mutual
theorem threadLines_rootPath (f : Turn → String) :
    ∀ t : Thread, rootPath (t.lines f) = t.rootUnits.map f
  | .done => by simp [Thread.lines, Thread.rootUnits, rootPath]
  | .unit none _ => by simp [Thread.lines, Thread.rootUnits, rootPath]
  | .unit (some _) next => by
    simp [Thread.lines, Thread.rootUnits, rootPath, Item.rootPath, threadLines_rootPath f next]
  | .fork _ bs => by
    simp [Thread.lines, Thread.rootUnits, rootPath, Item.rootPath, branchLines_rootPath f bs]
theorem branchLines_rootPath (f : Turn → String) :
    ∀ bs : Branches, firstRootPath (bs.lines f) = bs.rootUnits.map f
  | .last _ next => by
    simp [Branches.lines, Branches.rootUnits, firstRootPath, Item.threadRootPath, rootPath,
      Item.rootPath, threadLines_rootPath f next]
  | .cons _ next _ => by
    simp [Branches.lines, Branches.rootUnits, firstRootPath, Item.threadRootPath, rootPath,
      Item.rootPath, threadLines_rootPath f next]
end

mutual
theorem rootBlocks_content (chatters : Chatters) :
    ∀ t : Thread, (t.rootBlocks chatters).map (fun b => b.content) = t.rootUnits.map rendered
  | .done => by simp [Thread.rootBlocks, Thread.rootUnits]
  | .unit none _ => by simp [Thread.rootBlocks, Thread.rootUnits]
  | .unit (some _) next => by
    simp [Thread.rootBlocks, Thread.rootUnits, rootBlocks_content chatters next]
  | .fork _ bs => by
    simp [Thread.rootBlocks, Thread.rootUnits, branchRootBlocks_content chatters bs]
theorem branchRootBlocks_content (chatters : Chatters) :
    ∀ bs : Branches,
      (bs.rootBlocks chatters).map (fun b => b.content) = bs.rootUnits.map rendered
  | .last _ next => by
    simp [Branches.rootBlocks, Branches.rootUnits, shownFork, rootBlocks_content chatters next]
  | .cons _ next _ => by
    simp [Branches.rootBlocks, Branches.rootUnits, shownFork, rootBlocks_content chatters next]
end

theorem loadLog_eq_rootBlocks (enc : IconElement → String) (page : Page) (log : Thread)
    (out : DownloadOutput) (hlog : page.log = some log) (h : buildFullLog enc page = .ok out)
    (hch : ∀ n ∈ leaves out.chatterlines, (out.chatters.lookup n).isSome = true) :
    loadLog out = .ok (log.rootBlocks out.chatters) := by
  rw [buildFullLog_eq enc page log hlog] at h
  cases h
  have hunits : ∀ u ∈ log.units,
      ((cacheAll enc log.units []).lookup (speaker u)).isSome = true := by
    intro u hu
    apply hch
    simp only [threadLines_leaves]
    exact List.mem_map_of_mem speaker hu
  have key := loadThreadFrom_rootBlocks (cacheAll enc log.units []) log [] [] hunits
  simpa [loadLog, loadThread] using key

/-- C11: for every capture of `buildFullLog` whose `chatters` has an entry for
every name in `chatterlines`, the initial render `loadLog` returns a view; its
messages are, in order, the strings on the root path of `dialog` (at every
sub array the first thread), which are the messages of the page's turns on
the root path; and every fork block of the view shows thread number 1 of
`threadmax`, the number of threads of its sub array, with the previous arrow
disabled and the first element of the first thread as its message. -/
theorem loadLog_root (enc : IconElement → String) (page : Page) (out : DownloadOutput)
    (h : buildFullLog enc page = .ok out)
    (hch : ∀ n ∈ leaves out.chatterlines, (out.chatters.lookup n).isSome = true) :
    ∃ view, loadLog out = .ok view ∧
      view.map (fun b => b.content) = rootPath out.dialog ∧
      (∃ log, page.log = some log ∧ rootPath out.dialog = log.rootUnits.map rendered) ∧
      ∀ b ∈ view, b.onFirstThread := by
  obtain ⟨log, hlog, hout⟩ := buildFullLog_ok enc page out h
  have hload := loadLog_eq_rootBlocks enc page log out hlog h hch
  have hpath : rootPath out.dialog = log.rootUnits.map rendered := by
    rw [hout]
    exact threadLines_rootPath rendered log
  refine ⟨_, hload, ?_, ⟨log, hlog, hpath⟩, ?_⟩
  · rw [hpath]
    exact rootBlocks_content out.chatters log
  · exact loadThread_onFirstThread out.chatters [] _ _ _ 0 hload
      (fun x hx => absurd hx (List.not_mem_nil x))

/-- Scenario B: the initial render shows the unit by User, the first thread's
first unit in the fork block, on 1 of 2, and the second unit of that thread. -/
theorem loadLog_root_scenarioB :
    ∃ view, loadLog captureB = .ok view ∧
      view.map (fun b => b.content) = ["<div>q1</div>", "<div>a1</div>", "<div>q2</div>"] ∧
      (∃ log, scenarioB.log = some log ∧
        rootPath captureB.dialog = log.rootUnits.map rendered) ∧
      ∀ b ∈ view, b.onFirstThread :=
  loadLog_root encodeStub scenarioB captureB (by rfl) (by decide)

/-! ## The blocks of a rendered view -/

theorem forall_mem_append_singleton (P : Block → Prop) (w : List Block) (b : Block)
    (hw : ∀ x ∈ w, P x) (hb : P b) : ∀ x ∈ w ++ [b], P x := by
  intro x hx
  rcases List.mem_append.1 hx with h | h
  · exact hw x h
  · rw [List.mem_singleton.1 h]; exact hb

theorem loadChars_forall (P : Block → Prop) (hnone : ∀ b : Block, b.threadnav = none → P b)
    (chatters : Chatters) (cl : Item) :
    ∀ (cs : List Char) (i : Nat) (w r : List Block),
      loadChars chatters cl cs i w = .ok r → (∀ x ∈ w, P x) → ∀ x ∈ r, P x
  | [], i, w, r, h, hw => by
    simp only [loadChars] at h
    split at h
    · cases h
    · cases h; exact hw
  | c :: cs, i, w, r, h, hw => by
    simp only [loadChars] at h
    split at h
    · split at h
      · cases h
      · split at h
        · cases h
        · rename_i hicon
          have hn := setupIcon_threadnav chatters _ _ hicon
          exact loadChars_forall P hnone chatters cl cs (i + 1) _ r h
            (forall_mem_append_singleton P w _ hw (hnone _ hn))
    · cases h; exact hw

mutual
theorem loadThreadFrom_forall (P : Block → Prop)
    (hnone : ∀ b : Block, b.threadnav = none → P b)
    (hfork : ∀ (block : Block) (nav : ThreadNav) (dialog : Item),
      nav.threadmax = nav.dialog.length → nav.dialog.index 0 = some dialog →
        P (block.showThread nav 1 (htmlOf (dialog.index 0))))
    (chatters : Chatters) :
    ∀ (cl : Item) (ds : List Item) (i : Nat) (w r : List Block),
      loadThreadFrom chatters cl ds i w = .ok r → (∀ x ∈ w, P x) → ∀ x ∈ r, P x
  | cl, [], i, w, r, h, hw => by
    simp only [loadThreadFrom] at h
    split at h
    · cases h
    · cases h; exact hw
  | cl, d :: rest, i, w, r, h, hw => by
    simp only [loadThreadFrom] at h
    split at h
    · split at h
      · cases h
      · split at h
        · cases h
        · rename_i hicon
          have hn := setupIcon_threadnav chatters _ _ hicon
          split at h
          · cases h
          · rename_i w' hmsg
            exact loadThreadFrom_forall P hnone hfork chatters cl rest (i + 1) w' r h
              (setupMessage_forall P hnone hfork chatters _ _ d w w' hn hmsg hw)
    · cases h; exact hw
termination_by structural _ ds _ _ _ _ _ => ds
theorem setupMessage_forall (P : Block → Prop)
    (hnone : ∀ b : Block, b.threadnav = none → P b)
    (hfork : ∀ (block : Block) (nav : ThreadNav) (dialog : Item),
      nav.threadmax = nav.dialog.length → nav.dialog.index 0 = some dialog →
        P (block.showThread nav 1 (htmlOf (dialog.index 0))))
    (chatters : Chatters) :
    ∀ (chatterline : Item) (block : Block) (d : Item) (w r : List Block),
      block.threadnav = none →
      setupMessage chatters chatterline block d w = .ok r → (∀ x ∈ w, P x) →
        ∀ x ∈ r, P x
  | chatterline, block, .leaf s, w, r, hn, h, hw => by
    simp only [setupMessage] at h
    cases h
    exact forall_mem_append_singleton P w _ hw (hnone _ hn)
  | chatterline, block, .array threads, w, r, _, h, hw => by
    simp only [setupMessage] at h
    have key := showFirst_forall P hnone hfork chatters chatterline
      (forkBlock block chatterline (.array threads)) _ threads w r rfl
    exact key rfl (by cases threads <;> rfl) h hw
termination_by structural _ _ d _ _ _ _ _ => d
theorem showFirst_forall (P : Block → Prop)
    (hnone : ∀ b : Block, b.threadnav = none → P b)
    (hfork : ∀ (block : Block) (nav : ThreadNav) (dialog : Item),
      nav.threadmax = nav.dialog.length → nav.dialog.index 0 = some dialog →
        P (block.showThread nav 1 (htmlOf (dialog.index 0))))
    (chatters : Chatters) :
    ∀ (chatterline : Item) (block : Block) (nav : ThreadNav) (threads : List Item)
      (w r : List Block),
      block.threadnav = some nav → nav.threadmax = nav.dialog.length →
      nav.dialog.index 0 = threads.head? →
      showFirst chatters chatterline block threads w = .ok r → (∀ x ∈ w, P x) →
        ∀ x ∈ r, P x
  | chatterline, block, nav, [], w, r, _, _, _, h, _ => by
    simp only [showFirst] at h
    cases h
  | chatterline, block, nav, dialog :: _, w, r, hnav, hmax, hhead, h, hw => by
    simp only [showFirst] at h
    exact showDialog_forall P hnone hfork chatters chatterline block nav dialog w r hnav hmax
      (by simpa using hhead) h hw
termination_by structural _ _ _ threads _ _ _ _ _ _ _ => threads
theorem showDialog_forall (P : Block → Prop)
    (hnone : ∀ b : Block, b.threadnav = none → P b)
    (hfork : ∀ (block : Block) (nav : ThreadNav) (dialog : Item),
      nav.threadmax = nav.dialog.length → nav.dialog.index 0 = some dialog →
        P (block.showThread nav 1 (htmlOf (dialog.index 0))))
    (chatters : Chatters) :
    ∀ (chatterline : Item) (block : Block) (nav : ThreadNav) (dialog : Item)
      (w r : List Block),
      block.threadnav = some nav → nav.threadmax = nav.dialog.length →
      nav.dialog.index 0 = some dialog →
      showDialog chatters chatterline block dialog w = .ok r → (∀ x ∈ w, P x) →
        ∀ x ∈ r, P x
  | chatterline, block, nav, .leaf s, w, r, hnav, hmax, hhead, h, hw => by
    simp only [showDialog, hnav] at h
    split at h
    · rename_i nav' cl' hn _
      cases hn
      exact loadChars_forall P hnone chatters _ _ 1 _ r h
        (forall_mem_append_singleton P w _ hw (hfork block nav _ hmax hhead))
    · cases h
  | chatterline, block, nav, .array items, w, r, hnav, hmax, hhead, h, hw => by
    simp only [showDialog] at h
    exact showItems_forall P hnone hfork chatters chatterline block nav items w r hnav hmax
      hhead h hw
termination_by structural _ _ _ dialog _ _ _ _ _ _ _ => dialog
theorem showItems_forall (P : Block → Prop)
    (hnone : ∀ b : Block, b.threadnav = none → P b)
    (hfork : ∀ (block : Block) (nav : ThreadNav) (dialog : Item),
      nav.threadmax = nav.dialog.length → nav.dialog.index 0 = some dialog →
        P (block.showThread nav 1 (htmlOf (dialog.index 0))))
    (chatters : Chatters) :
    ∀ (chatterline : Item) (block : Block) (nav : ThreadNav) (items : List Item)
      (w r : List Block),
      block.threadnav = some nav → nav.threadmax = nav.dialog.length →
      nav.dialog.index 0 = some (.array items) →
      showItems chatters chatterline block items w = .ok r → (∀ x ∈ w, P x) →
        ∀ x ∈ r, P x
  | chatterline, block, nav, [], w, r, hnav, hmax, hhead, h, hw => by
    simp only [showItems, hnav] at h
    split at h
    · rename_i nav' cl' hn _
      cases hn
      exact loadChars_forall P hnone chatters _ _ 1 _ r h
        (forall_mem_append_singleton P w _ hw (hfork block nav _ hmax hhead))
    · cases h
  | chatterline, block, nav, first :: rest, w, r, hnav, hmax, hhead, h, hw => by
    simp only [showItems, hnav] at h
    split at h
    · rename_i nav' cl' hn _
      cases hn
      exact loadThreadFrom_forall P hnone hfork chatters _ rest 1 _ r h
        (forall_mem_append_singleton P w _ hw (hfork block nav _ hmax hhead))
    · cases h
termination_by structural _ _ _ items _ _ _ _ _ _ _ => items
end

theorem loadThread_forall (P : Block → Prop)
    (hnone : ∀ b : Block, b.threadnav = none → P b)
    (hfork : ∀ (block : Block) (nav : ThreadNav) (dialog : Item),
      nav.threadmax = nav.dialog.length → nav.dialog.index 0 = some dialog →
        P (block.showThread nav 1 (htmlOf (dialog.index 0))))
    (chatters : Chatters) (w r : List Block) (cl dialog : Item) (skipFirst : Nat)
    (h : loadThread chatters w cl dialog skipFirst = .ok r) (hw : ∀ x ∈ w, P x) :
    ∀ x ∈ r, P x := by
  cases dialog with
  | leaf s => exact loadChars_forall P hnone chatters cl _ _ w r h hw
  | array items => exact loadThreadFrom_forall P hnone hfork chatters cl _ _ w r h hw

/-! ## The thread number a fork block shows -/

theorem index_lt_length (x y : Item) (i : Nat) (h : x.index i = some y) : i < x.length := by
  cases x with
  | leaf s =>
    simp only [Item.index, Option.map_eq_some'] at h
    obtain ⟨c, hc, _⟩ := h
    exact (List.get?_eq_some.1 hc).1
  | array items =>
    simp only [Item.index] at h
    exact (List.get?_eq_some.1 h).1

theorem indexInt_bounds (x y : Item) (k : Int) (h : x.indexInt k = some y) :
    0 ≤ k ∧ k < (x.length : Int) := by
  unfold Item.indexInt at h
  split at h
  · cases h
  · rename_i hk
    have hlt := index_lt_length x y k.toNat h
    have hk0 : 0 ≤ k := by omega
    have hto := Int.toNat_of_nonneg hk0
    omega

theorem showThread_showsThread (block : Block) (nav : ThreadNav) (t : Int) (dialog : Item)
    (hmax : nav.threadmax = nav.dialog.length)
    (hdialog : nav.dialog.indexInt (t - 1) = some dialog) :
    (block.showThread nav t (htmlOf (dialog.index 0))).showsThread := by
  intro nav1 hnav1
  simp only [Block.showThread, Option.some.injEq] at hnav1
  subst hnav1
  have hb := indexInt_bounds _ _ _ hdialog
  refine ⟨hmax, ?_, ?_, rfl, rfl, ?_⟩
  · show 1 ≤ t
    omega
  · show t ≤ (nav.threadmax : Int)
    rw [hmax]
    omega
  · show htmlOf (dialog.index 0) =
      htmlOf ((nav.dialog.indexInt (t - 1)).bind (fun dialog => dialog.index 0))
    rw [hdialog]
    rfl

theorem loadThread_showsThread (chatters : Chatters) (w r : List Block) (cl dialog : Item)
    (skipFirst : Nat) (h : loadThread chatters w cl dialog skipFirst = .ok r)
    (hw : ∀ x ∈ w, x.showsThread) : ∀ x ∈ r, x.showsThread := by
  refine loadThread_forall Block.showsThread ?_ ?_ chatters w r cl dialog skipFirst h hw
  · intro b hb nav hnav
    rw [hb] at hnav
    cases hnav
  · intro block nav dialog hmax hhead
    refine showThread_showsThread block nav 1 dialog hmax ?_
    simpa [Item.indexInt] using hhead

theorem changeThread_showsThread (chatters : Chatters) (view v1 : List Block) (i : Nat)
    (m : Int) (hview : ∀ b ∈ view, b.showsThread)
    (h : changeThread chatters view i m = .ok v1) : ∀ b ∈ v1, b.showsThread := by
  unfold changeThread at h
  split at h
  · cases h
  · rename_i block hblock
    split at h
    · cases h
    · rename_i nav hnav
      have hmem : block ∈ view := List.get?_mem hblock
      have hmax := (hview block hmem nav hnav).1
      split at h
      · cases h; exact hview
      · split at h
        · cases h; exact hview
        · simp only at h
          split at h
          · cases h
          · rename_i dialog hdialog
            split at h
            · cases h
            · refine loadThread_showsThread chatters _ v1 _ dialog 1 h ?_
              refine forall_mem_append_singleton Block.showsThread _ _ ?_ ?_
              · intro x hx
                exact hview x (List.mem_of_mem_take hx)
              · exact showThread_showsThread block nav _ dialog hmax hdialog

theorem changeThreads_forall (chatters : Chatters) :
    ∀ (clicks : List (Nat × Int)) (view0 view : List Block),
      (∀ b ∈ view0, b.showsThread) → changeThreads chatters clicks view0 = .ok view →
      ∀ b ∈ view, b.showsThread
  | [], view0, view, h0, h => by
    simp only [changeThreads] at h
    cases h
    exact h0
  | (i, m) :: clicks, view0, view, h0, h => by
    simp only [changeThreads] at h
    split at h
    · cases h
    · rename_i v1 h1
      exact changeThreads_forall chatters clicks v1 view
        (changeThread_showsThread chatters view0 v1 i m h0 h1) h

/-- C19: after `loadLog` and any sequence of calls of `changeThread` that
complete (on any blocks and with any modifiers, the -1 and +1 of the two
arrows among them), every fork block of the view is in step with the thread
number `t` it shows: `threadmax` is the number `N` of threads of its fork,
`1 ≤ t ≤ N`, the previous arrow is disabled exactly when `t = 1`, the next
arrow exactly when `t = N`, and the message of the fork block is the first
element of thread `t - 1` of its `dialog`. -/
theorem changeThreads_showsThread (downloadOutput : DownloadOutput)
    (clicks : List (Nat × Int)) (view0 view : List Block)
    (hload : loadLog downloadOutput = .ok view0)
    (h : changeThreads downloadOutput.chatters clicks view0 = .ok view) :
    ∀ b ∈ view, ∀ nav, b.threadnav = some nav →
      nav.threadmax = nav.dialog.length ∧
      1 ≤ nav.threadcurrent ∧ nav.threadcurrent ≤ (nav.threadmax : Int) ∧
      (nav.threadprev = true ↔ nav.threadcurrent = 1) ∧
      (nav.threadnext = true ↔ nav.threadcurrent = (nav.threadmax : Int)) ∧
      b.content = htmlOf
        ((nav.dialog.indexInt (nav.threadcurrent - 1)).bind (fun dialog => dialog.index 0)) := by
  intro b hb nav hnav
  have h0 := loadThread_showsThread _ _ _ _ _ _ hload
    (fun x hx => absurd hx (List.not_mem_nil x))
  obtain ⟨h1, h2, h3, h4, h5, h6⟩ :=
    changeThreads_forall downloadOutput.chatters clicks view0 view h0 h b hb nav hnav
  refine ⟨h1, h2, h3, ?_, ?_, h6⟩
  · rw [h4]; simp
  · rw [h5]; simp

/-- The capture of scenario B, rendered, and then four clicks on the arrows of
its fork block: next, next again (nothing to do), previous, previous again
(nothing to do). The view is as rendered, thread 1 of 2 on display. -/
theorem changeThreads_showsThread_scenarioB :
    loadLog captureB = .ok viewB ∧
    changeThreads captureB.chatters [(1, 1), (1, 1), (1, -1), (1, -1)] viewB = .ok viewB ∧
    ∀ b ∈ viewB, ∀ nav, b.threadnav = some nav →
      nav.threadmax = nav.dialog.length ∧
      1 ≤ nav.threadcurrent ∧ nav.threadcurrent ≤ (nav.threadmax : Int) ∧
      (nav.threadprev = true ↔ nav.threadcurrent = 1) ∧
      (nav.threadnext = true ↔ nav.threadcurrent = (nav.threadmax : Int)) ∧
      b.content = htmlOf
        ((nav.dialog.indexInt (nav.threadcurrent - 1)).bind (fun dialog => dialog.index 0)) :=
  ⟨rfl, rfl,
    changeThreads_showsThread captureB [(1, 1), (1, 1), (1, -1), (1, -1)] viewB viewB (by rfl)
      (by rfl)⟩

/-! ## There and back on a fork -/

theorem changeThread_eq_loadThread (chatters : Chatters) (view : List Block) (i : Nat)
    (block : Block) (nav : ThreadNav) (m : Int) (dialog chatterlines : Item)
    (hblock : view.get? i = some block) (hnav : block.threadnav = some nav)
    (hlow : ¬ (nav.threadcurrent = 1 ∧ m = -1))
    (hhigh : ¬ (nav.threadcurrent = (nav.threadmax : Int) ∧ m = 1))
    (hdialog : nav.dialog.indexInt (nav.threadcurrent + m - 1) = some dialog)
    (hchatterlines : nav.chatterlines.indexInt (nav.threadcurrent + m - 1) = some chatterlines) :
    changeThread chatters view i m =
      loadThread chatters
        (view.take i ++ [block.showThread nav (nav.threadcurrent + m) (htmlOf (dialog.index 0))])
        chatterlines dialog 1 := by
  unfold changeThread
  simp only [hblock, hnav, hdialog, hchatterlines]
  have h1 : (nav.threadcurrent == 1 && m == -1) = false := by
    simpa using hlow
  have h2 : (nav.threadcurrent == (nav.threadmax : Int) && m == 1) = false := by
    simpa using hhigh
  simp only [h1, h2]
  rfl

theorem changeThread_ok_inv (chatters : Chatters) (view v1 : List Block) (i : Nat)
    (block : Block) (nav : ThreadNav) (m : Int)
    (hblock : view.get? i = some block) (hnav : block.threadnav = some nav)
    (hlow : ¬ (nav.threadcurrent = 1 ∧ m = -1))
    (hhigh : ¬ (nav.threadcurrent = (nav.threadmax : Int) ∧ m = 1))
    (h : changeThread chatters view i m = .ok v1) :
    ∃ dialog chatterlines,
      nav.dialog.indexInt (nav.threadcurrent + m - 1) = some dialog ∧
      nav.chatterlines.indexInt (nav.threadcurrent + m - 1) = some chatterlines ∧
      loadThread chatters
        (view.take i ++ [block.showThread nav (nav.threadcurrent + m) (htmlOf (dialog.index 0))])
        chatterlines dialog 1 = .ok v1 := by
  unfold changeThread at h
  simp only [hblock, hnav] at h
  have h1 : (nav.threadcurrent == 1 && m == -1) = false := by
    simpa using hlow
  have h2 : (nav.threadcurrent == (nav.threadmax : Int) && m == 1) = false := by
    simpa using hhigh
  simp only [h1, h2, Bool.false_eq_true, if_false] at h
  split at h
  · cases h
  · rename_i dialog hdialog
    split at h
    · cases h
    · rename_i chatterlines hchatterlines
      exact ⟨dialog, chatterlines, hdialog, hchatterlines, h⟩

theorem loadThread_ok_prefix (chatters : Chatters) (w r : List Block) (cl dialog : Item)
    (skipFirst : Nat) (h : loadThread chatters w cl dialog skipFirst = .ok r) :
    ∃ rest, r = w ++ rest := by
  have happ := loadThread_append chatters w [] cl dialog skipFirst
  simp only [List.append_nil] at happ
  rw [happ] at h
  cases hr : loadThread chatters [] cl dialog skipFirst with
  | error e => rw [hr] at h; cases h
  | ok rest =>
    rw [hr] at h
    simp only [Except.map, Except.ok.injEq] at h
    exact ⟨rest, h.symm⟩

theorem showThread_back (block : Block) (nav : ThreadNav) (t : Int) (c : String)
    (dialog : Item) (hnav : block.threadnav = some nav) (hshows : block.showsThread)
    (hdialog : nav.dialog.indexInt (nav.threadcurrent - 1) = some dialog) :
    (block.showThread nav t c).showThread
        { nav with
          threadcurrent := t
          threadprev := t == 1
          threadnext := t == (nav.threadmax : Int) }
        nav.threadcurrent (htmlOf (dialog.index 0)) = block := by
  obtain ⟨_, _, _, hprev, hnext, hcontent⟩ := hshows nav hnav
  rw [hdialog] at hcontent
  cases block with
  | mk chatter threadnav content =>
    cases nav with
    | mk threadcurrent threadmax threadprev threadnext dialog0 chatterlines0 =>
      simp only at hnav hprev hnext hcontent
      subst hnav
      simp only [Block.showThread, Block.mk.injEq, Option.some.injEq, ThreadNav.mk.injEq,
        true_and, and_true]
      exact ⟨⟨hprev.symm, hnext.symm⟩, hcontent.symm⟩

/-- After a switch that is not stopped at a bound, the subtree of the fork
block is freshly rendered. -/
theorem changeThread_subtreeFresh (chatters : Chatters) (view v1 : List Block) (i : Nat)
    (block : Block) (nav : ThreadNav) (m : Int)
    (hblock : view.get? i = some block) (hnav : block.threadnav = some nav)
    (hlow : ¬ (nav.threadcurrent = 1 ∧ m = -1))
    (hhigh : ¬ (nav.threadcurrent = (nav.threadmax : Int) ∧ m = 1))
    (h1 : changeThread chatters view i m = .ok v1) :
    subtreeFresh chatters v1 i := by
  obtain ⟨dialog1, chatterlines1, hdialog1, hchatterlines1, hload1⟩ :=
    changeThread_ok_inv chatters view v1 i block nav m hblock hnav hlow hhigh h1
  obtain ⟨rest, hrest⟩ := loadThread_ok_prefix chatters _ v1 _ _ 1 hload1
  have hi : i < view.length := (List.get?_eq_some.1 hblock).1
  have hlen : (view.take i).length = i := by
    rw [List.length_take]
    omega
  have hget : v1.get? i =
      some (block.showThread nav (nav.threadcurrent + m) (htmlOf (dialog1.index 0))) := by
    rw [hrest, List.append_assoc, List.get?_eq_getElem?, List.getElem?_append_right (by omega),
      hlen]
    simp
  have htake : v1.take (i + 1) =
      view.take i ++
        [block.showThread nav (nav.threadcurrent + m) (htmlOf (dialog1.index 0))] := by
    rw [hrest, List.take_append_of_le_length (by simp [hlen]),
      List.take_of_length_le (by simp [hlen])]
  refine ⟨_, _, dialog1, chatterlines1, hget, rfl, hdialog1, hchatterlines1, ?_⟩
  rw [htake]
  exact hload1

/-- C20: switching is undone by the switch back. For a fork block of the view
that is in step with the thread number `t` it shows (of `N`), and whose subtree
is freshly rendered (the blocks after it are those `loadThread` renders for the
thread on display, every fork among them on its first thread), `changeThread`
with +1 when `t < N`, or with -1 when `1 < t`, followed by `changeThread` with
the opposite modifier on the same block, gives back exactly the view there was
before the two switches: blocks, messages, thread numbers and arrows. -/
theorem changeThread_reversible (chatters : Chatters) (view v1 : List Block) (i : Nat)
    (block : Block) (nav : ThreadNav) (m : Int)
    (hblock : view.get? i = some block) (hnav : block.threadnav = some nav)
    (hshows : block.showsThread) (hfresh : subtreeFresh chatters view i)
    (hm : (m = 1 ∧ nav.threadcurrent < (nav.threadmax : Int)) ∨
      (m = -1 ∧ 1 < nav.threadcurrent))
    (h1 : changeThread chatters view i m = .ok v1) :
    changeThread chatters v1 i (-m) = .ok view := by
  obtain ⟨hmax, hge, hle, _, _, _⟩ := hshows nav hnav
  obtain ⟨block0, nav0, dialog, chatterlines, hblock0, hnav0, hdialog, hchatterlines, hload⟩ :=
    hfresh
  rw [hblock] at hblock0
  cases hblock0
  rw [hnav] at hnav0
  cases hnav0
  have hlow : ¬ (nav.threadcurrent = 1 ∧ m = -1) := by
    rcases hm with ⟨h, _⟩ | ⟨_, h⟩ <;> omega
  have hhigh : ¬ (nav.threadcurrent = (nav.threadmax : Int) ∧ m = 1) := by
    rcases hm with ⟨_, h⟩ | ⟨h, _⟩ <;> omega
  obtain ⟨dialog1, chatterlines1, _, _, hload1⟩ :=
    changeThread_ok_inv chatters view v1 i block nav m hblock hnav hlow hhigh h1
  obtain ⟨rest, hrest⟩ := loadThread_ok_prefix chatters _ v1 _ _ 1 hload1
  have hi : i < view.length := (List.get?_eq_some.1 hblock).1
  have hlen : (view.take i).length = i := by
    rw [List.length_take]
    omega
  have hget : v1.get? i =
      some (block.showThread nav (nav.threadcurrent + m) (htmlOf (dialog1.index 0))) := by
    rw [hrest, List.append_assoc, List.get?_eq_getElem?, List.getElem?_append_right (by omega),
      hlen]
    simp
  have htake : v1.take i = view.take i := by
    rw [hrest, List.append_assoc, List.take_append_of_le_length (by omega),
      List.take_of_length_le (by omega)]
  have hback : nav.threadcurrent + m + -m - 1 = nav.threadcurrent - 1 := by omega
  have hback1 : nav.threadcurrent + m + -m = nav.threadcurrent := by omega
  rw [changeThread_eq_loadThread chatters v1 i _
    { nav with
      threadcurrent := nav.threadcurrent + m
      threadprev := nav.threadcurrent + m == 1
      threadnext := nav.threadcurrent + m == (nav.threadmax : Int) }
    (-m) dialog chatterlines hget rfl
    (by
      show ¬ (nav.threadcurrent + m = 1 ∧ -m = -1)
      rcases hm with ⟨h, _⟩ | ⟨h, _⟩ <;> omega)
    (by
      show ¬ (nav.threadcurrent + m = (nav.threadmax : Int) ∧ -m = 1)
      rcases hm with ⟨h, _⟩ | ⟨h, _⟩ <;> omega)
    (by
      show nav.dialog.indexInt (nav.threadcurrent + m + -m - 1) = some dialog
      rw [hback]
      exact hdialog)
    (by
      show nav.chatterlines.indexInt (nav.threadcurrent + m + -m - 1) = some chatterlines
      rw [hback]
      exact hchatterlines)]
  show loadThread chatters
    (v1.take i ++
      [(block.showThread nav (nav.threadcurrent + m) (htmlOf (dialog1.index 0))).showThread
        { nav with
          threadcurrent := nav.threadcurrent + m
          threadprev := nav.threadcurrent + m == 1
          threadnext := nav.threadcurrent + m == (nav.threadmax : Int) }
        (nav.threadcurrent + m + -m) (htmlOf (dialog.index 0))])
    chatterlines dialog 1 = .ok view
  rw [hback1, htake, showThread_back block nav _ _ dialog hnav hshows hdialog]
  have hsucc : view.take i ++ [block] = view.take (i + 1) := by
    rw [List.take_succ, ← List.get?_eq_getElem?, hblock]
    rfl
  rw [hsucc]
  exact hload

/-- Scenario B as rendered, thread 1 of 2 on display: next and then previous
gives the view as rendered; and from the view with thread 2 on display,
previous and then next gives that view again. -/
theorem changeThread_reversible_viewB :
    (changeThread chattersB viewB 1 1 = .ok viewB2 ∧
      changeThread chattersB viewB2 1 (-1) = .ok viewB) ∧
    (changeThread chattersB viewB2 1 (-1) = .ok viewB ∧
      changeThread chattersB viewB 1 1 = .ok viewB2) :=
  ⟨⟨rfl,
      changeThread_reversible chattersB viewB viewB2 1 _ _ 1 rfl rfl
        (fun nav h => by cases h; exact ⟨rfl, by decide, by decide, rfl, rfl, rfl⟩)
        ⟨_, _, .array [.leaf "<div>a1</div>", .leaf "<div>q2</div>"],
          .array [.leaf "Assistant", .leaf "User"], rfl, rfl, rfl, rfl, rfl⟩
        (Or.inl ⟨rfl, by decide⟩) rfl⟩,
    ⟨rfl,
      changeThread_reversible chattersB viewB2 viewB 1 _ _ (-1) rfl rfl
        (fun nav h => by cases h; exact ⟨rfl, by decide, by decide, rfl, rfl, rfl⟩)
        ⟨_, _, .array [.leaf "<div>a1b</div>"], .array [.leaf "Assistant"],
          rfl, rfl, rfl, rfl, rfl⟩
        (Or.inr ⟨rfl, by decide⟩) rfl⟩⟩

/-! ## The forks of an initial render -/

theorem get_append_length (pre : List Block) (x : Block) (xs : List Block) :
    (pre ++ x :: xs).get? pre.length = some x := by
  rw [List.get?_eq_getElem?, List.getElem?_append_right (Nat.le_refl _)]
  simp

theorem shownFork_subtreeFresh (chatters : Chatters) (bs : Branches) (b : Turn)
    (next : Thread) (more1 more2 : List Item) (pre : List Block)
    (hrendered : bs.lines rendered = .array (.leaf (rendered b) :: next.lines rendered) :: more1)
    (hspeaker : bs.lines speaker = .array (.leaf (speaker b) :: next.lines speaker) :: more2)
    (hch : ∀ u ∈ next.units, (chatters.lookup (speaker u)).isSome = true) :
    subtreeFresh chatters (pre ++ shownFork bs b :: next.rootBlocks chatters) pre.length := by
  have key := loadThreadFrom_rootBlocks chatters next [.leaf (speaker b)]
    (pre ++ [shownFork bs b]) hch
  simp only [List.singleton_append, List.length_singleton, List.append_assoc] at key
  refine ⟨shownFork bs b, _, .array (.leaf (rendered b) :: next.lines rendered),
    .array (.leaf (speaker b) :: next.lines speaker), ?_, rfl, ?_, ?_, ?_⟩
  · exact get_append_length pre _ _
  · simp [shownFork, Item.indexInt, Item.index, hrendered]
  · simp [shownFork, Item.indexInt, Item.index, hspeaker]
  · have htake : (pre ++ shownFork bs b :: next.rootBlocks chatters).take (pre.length + 1) =
        pre ++ [shownFork bs b] := by
      simp [List.take_append_eq_append_take]
    rw [htake]
    simpa [loadThread] using key

mutual
theorem rootBlocks_subtreeFresh (chatters : Chatters) :
    ∀ (t : Thread) (pre : List Block) (i : Nat) (block : Block),
      (∀ u ∈ t.units, (chatters.lookup (speaker u)).isSome = true) →
      (pre ++ t.rootBlocks chatters).get? i = some block → pre.length ≤ i →
      block.threadnav.isSome = true →
      subtreeFresh chatters (pre ++ t.rootBlocks chatters) i
  | .done, pre, i, block, _, hget, hi, _ => by
    simp only [Thread.rootBlocks, List.append_nil] at hget
    have := (List.get?_eq_some.1 hget).1
    omega
  | .unit none _, pre, i, block, _, hget, hi, _ => by
    simp only [Thread.rootBlocks, List.append_nil] at hget
    have := (List.get?_eq_some.1 hget).1
    omega
  | .unit (some turn) next, pre, i, block, h, hget, hi, hnav => by
    simp only [Thread.rootBlocks] at hget ⊢
    rcases Nat.eq_or_lt_of_le hi with heq | hlt
    · subst heq
      rw [get_append_length] at hget
      cases hget
      cases hnav
    · have hnext : ∀ u ∈ next.units, (chatters.lookup (speaker u)).isSome = true :=
        fun u hu => h u (by simp [Thread.units, hu])
      have ih := rootBlocks_subtreeFresh chatters next
        (pre ++ [{ chatter := chatters.lookup (speaker turn), threadnav := none,
                   content := rendered turn }]) i block hnext
        (by simpa using hget) (by simp; omega) hnav
      simpa using ih
  | .fork _ bs, pre, i, block, h, hget, hi, hnav => by
    simp only [Thread.rootBlocks] at hget ⊢
    exact branchRootBlocks_subtreeFresh chatters bs pre i block
      (fun u hu => h u (by simpa [Thread.units] using hu)) hget hi hnav
theorem branchRootBlocks_subtreeFresh (chatters : Chatters) :
    ∀ (bs : Branches) (pre : List Block) (i : Nat) (block : Block),
      (∀ u ∈ bs.units, (chatters.lookup (speaker u)).isSome = true) →
      (pre ++ bs.rootBlocks chatters).get? i = some block → pre.length ≤ i →
      block.threadnav.isSome = true →
      subtreeFresh chatters (pre ++ bs.rootBlocks chatters) i
  | .last b next, pre, i, block, h, hget, hi, hnav => by
    have hnext : ∀ u ∈ next.units, (chatters.lookup (speaker u)).isSome = true :=
      fun u hu => h u (by simp [Branches.units, hu])
    simp only [Branches.rootBlocks] at hget ⊢
    rcases Nat.eq_or_lt_of_le hi with heq | hlt
    · subst heq
      exact shownFork_subtreeFresh chatters (.last b next) b next [] [] pre rfl rfl hnext
    · have ih := rootBlocks_subtreeFresh chatters next
        (pre ++ [shownFork (.last b next) b]) i block hnext
        (by simpa using hget) (by simp; omega) hnav
      simpa using ih
  | .cons b next more, pre, i, block, h, hget, hi, hnav => by
    have hnext : ∀ u ∈ next.units, (chatters.lookup (speaker u)).isSome = true :=
      fun u hu => h u (by simp [Branches.units, hu])
    simp only [Branches.rootBlocks] at hget ⊢
    rcases Nat.eq_or_lt_of_le hi with heq | hlt
    · subst heq
      exact shownFork_subtreeFresh chatters (.cons b next more) b next _ _ pre rfl rfl hnext
    · have ih := rootBlocks_subtreeFresh chatters next
        (pre ++ [shownFork (.cons b next more) b]) i block hnext
        (by simpa using hget) (by simp; omega) hnav
      simpa using ih
end

/-- In the initial render of a capture of `buildFullLog` whose `chatters` has
an entry for every name in `chatterlines`, the subtree of every fork block is
freshly rendered. -/
theorem loadLog_subtreeFresh (enc : IconElement → String) (page : Page)
    (out : DownloadOutput) (view : List Block) (i : Nat) (block : Block)
    (h : buildFullLog enc page = .ok out)
    (hch : ∀ n ∈ leaves out.chatterlines, (out.chatters.lookup n).isSome = true)
    (hview : loadLog out = .ok view) (hblock : view.get? i = some block)
    (hnav : block.threadnav.isSome = true) :
    subtreeFresh out.chatters view i := by
  obtain ⟨log, hlog, hout⟩ := buildFullLog_ok enc page out h
  have hload := loadLog_eq_rootBlocks enc page log out hlog h hch
  rw [hload] at hview
  cases hview
  have hunits : ∀ u ∈ log.units, (out.chatters.lookup (speaker u)).isSome = true := by
    intro u hu
    apply hch
    rw [hout]
    simp only [threadLines_leaves]
    exact List.mem_map_of_mem speaker hu
  have key := rootBlocks_subtreeFresh out.chatters log [] i block hunits
    (by simpa using hblock) (Nat.zero_le i) hnav
  simpa using key

/-! ## The two captures on a page without a fork -/

theorem forkFree_lines (f : Turn → String) :
    ∀ log : Thread, log.forkFree = true →
      log.lines f = (turnsBeforePadding log.children).map (fun u => .leaf (f u))
  | .done, _ => by simp [Thread.lines, Thread.children, turnsBeforePadding]
  | .unit none _, _ => by simp [Thread.lines, Thread.children, turnsBeforePadding]
  | .unit (some turn) next, h => by
    have ih := forkFree_lines f next (by simpa [Thread.forkFree] using h)
    simp only [turnsBeforePadding] at ih
    simp [Thread.lines, Thread.children, turnsBeforePadding, ih]
  | .fork _ _, h => by simp [Thread.forkFree] at h

theorem forkFree_units :
    ∀ log : Thread, log.forkFree = true → log.units = turnsBeforePadding log.children
  | .done, _ => by simp [Thread.units, Thread.children, turnsBeforePadding]
  | .unit none _, _ => by simp [Thread.units, Thread.children, turnsBeforePadding]
  | .unit (some turn) next, h => by
    have ih := forkFree_units next (by simpa [Thread.forkFree] using h)
    simp only [turnsBeforePadding] at ih
    simp [Thread.units, Thread.children, turnsBeforePadding, ih]
  | .fork _ _, h => by simp [Thread.forkFree] at h

theorem filterMap_all_none :
    ∀ blocks : List DialogBlock, blocks.all Option.isNone = true → blocks.filterMap id = []
  | [], _ => rfl
  | none :: rest, h => by
    have ih := filterMap_all_none rest (by simpa using h)
    simpa using ih
  | some _ :: _, h => by simp at h

theorem paddingLast_turns :
    ∀ blocks : List DialogBlock, paddingLast blocks = true →
      turnsBeforePadding blocks = blocks.filterMap id
  | [], _ => rfl
  | none :: rest, h => by
    have hrest := filterMap_all_none rest (by simpa [paddingLast] using h)
    simp [turnsBeforePadding, hrest]
  | some turn :: rest, h => by
    have ih := paddingLast_turns rest (by simpa [paddingLast] using h)
    simp only [turnsBeforePadding] at ih
    simp [turnsBeforePadding, ih]

/-- C22: on a page without a fork, where every block without `.text-base` comes
after all the blocks that have it, `buildSimpleLog` and `buildFullLog` both
return an output, and the two outputs have the same `chatters`, the same
`chatterlines`, the same `dialog` and the same `strippeddialog` (and the same
`GUID` and `title`). -/
theorem buildSimpleLog_eq_buildFullLog (enc : IconElement → String) (page : Page)
    (log : Thread) (hlog : page.log = some log) (hfork : log.forkFree = true)
    (hpadding : paddingLast log.children = true) :
    ∃ simple full,
      buildSimpleLog enc page = .ok simple ∧ buildFullLog enc page = .ok full ∧
      simple.chatters = full.chatters ∧ simple.chatterlines = full.chatterlines ∧
      simple.dialog = full.dialog ∧ simple.strippeddialog = full.strippeddialog ∧
      simple.GUID = full.GUID ∧ simple.title = full.title := by
  have hturns : log.shownUnits = turnsBeforePadding log.children :=
    (paddingLast_turns log.children hpadding).symm
  refine ⟨_, _, buildSimpleLog_eq enc page log hlog, buildFullLog_eq enc page log hlog,
    ?_, ?_, ?_, ?_, rfl, rfl⟩
  · show cacheAll enc log.shownUnits [] = cacheAll enc log.units []
    rw [hturns, forkFree_units log hfork]
  · show log.shownUnits.map (fun u => Item.leaf (speaker u)) = log.lines speaker
    rw [hturns, forkFree_lines speaker log hfork]
  · show log.shownUnits.map (fun u => Item.leaf (rendered u)) = log.lines rendered
    rw [hturns, forkFree_lines rendered log hfork]
  · show log.shownUnits.map (fun u => Item.leaf (stripped u)) = log.lines stripped
    rw [hturns, forkFree_lines stripped log hfork]

/-- Scenario A, three units by User, Assistant, User and the padding element:
both captures return, with the same `chatters`, `chatterlines`, `dialog` and
`strippeddialog`. -/
theorem buildSimpleLog_eq_buildFullLog_scenarioA :
    ∃ simple full,
      buildSimpleLog encodeStub scenarioA = .ok simple ∧
      buildFullLog encodeStub scenarioA = .ok full ∧
      simple.chatters = full.chatters ∧ simple.chatterlines = full.chatterlines ∧
      simple.dialog = full.dialog ∧ simple.strippeddialog = full.strippeddialog ∧
      simple.GUID = full.GUID ∧ simple.title = full.title :=
  buildSimpleLog_eq_buildFullLog encodeStub scenarioA _ rfl (by rfl) (by rfl)

/-! ## Rendering without a failed lookup -/

theorem ready_of_threadnav_none (chatters : Chatters) (b : Block) (h : b.threadnav = none) :
    b.ready chatters := by
  intro nav hnav
  rw [h] at hnav
  cases hnav

theorem showThread_ready (chatters : Chatters) (block : Block) (nav : ThreadNav)
    (cls ds : List Item) (t : Int) (dialog first : Item)
    (hcl : nav.chatterlines = .array cls) (hd : nav.dialog = .array ds)
    (hfork : forkRenders chatters cls ds = true) (hmax : nav.threadmax = ds.length)
    (h1 : 1 ≤ t) (h2 : t ≤ (ds.length : Int))
    (hdialog : nav.dialog.indexInt (t - 1) = some dialog)
    (hfirst : dialog.index 0 = some first) :
    (block.showThread nav t (htmlOf (dialog.index 0))).ready chatters := by
  intro nav1 hnav1
  simp only [Block.showThread, Option.some.injEq] at hnav1
  subst hnav1
  refine ⟨cls, ds, dialog, first, hcl, hd, hfork, hmax, h1, h2, hdialog, hfirst, ?_⟩
  show htmlOf (dialog.index 0) = first.toString
  rw [hfirst]
  rfl

theorem setupIcon_total (chatters : Chatters) (c d : Item)
    (h : c.renders chatters d = true) :
    ∃ block, setupIcon chatters c = .ok block ∧ block.threadnav = none := by
  cases c with
  | array cls => exact ⟨_, rfl, rfl⟩
  | leaf name =>
    cases d with
    | array ds => simp [Item.renders] at h
    | leaf s =>
      simp only [Item.renders] at h
      obtain ⟨chatter, hchatter⟩ := Option.isSome_iff_exists.1 h
      exact ⟨{ chatter := some chatter, threadnav := none, content := "" },
        by simp [setupIcon, hchatter], rfl⟩

theorem threadRenders_inv (chatters : Chatters) (cl d : Item)
    (h : cl.threadRenders chatters d = true) :
    ∃ c0 cs first rest, cl = .array (c0 :: cs) ∧ d = .array (first :: rest) ∧
      renders chatters cs rest = true := by
  cases cl with
  | leaf _ => simp [Item.threadRenders] at h
  | array cl =>
    cases d with
    | leaf _ => simp [Item.threadRenders] at h
    | array d =>
      simp only [Item.threadRenders, Bool.and_eq_true] at h
      obtain ⟨hhead, hr⟩ := h
      cases d with
      | nil => simp [headIsLeaf] at hhead
      | cons first rest =>
        cases cl with
        | nil => simp [renders] at hr
        | cons c0 cs =>
          simp only [renders, Bool.and_eq_true] at hr
          exact ⟨c0, cs, first, rest, rfl, rfl, hr.2⟩

theorem forkRenders_get (chatters : Chatters) :
    ∀ (cls ds : List Item) (k : Nat) (d : Item),
      forkRenders chatters cls ds = true → ds.get? k = some d →
      ∃ cl, cls.get? k = some cl ∧ cl.threadRenders chatters d = true
  | [], [], _, _, _, h => by simp at h
  | [], _ :: _, _, _, hf, _ => by simp [forkRenders] at hf
  | _ :: _, [], _, _, hf, _ => by simp [forkRenders] at hf
  | cl :: cls, d0 :: ds, 0, d, hf, h => by
    simp only [forkRenders, Bool.and_eq_true] at hf
    simp only [List.get?_cons_zero, Option.some.injEq] at h
    subst h
    exact ⟨cl, rfl, hf.1⟩
  | cl :: cls, d0 :: ds, k + 1, d, hf, h => by
    simp only [forkRenders, Bool.and_eq_true] at hf
    simpa using forkRenders_get chatters cls ds k d hf.2 (by simpa using h)

mutual
theorem loadThreadFrom_total (chatters : Chatters) :
    ∀ (ds cls pre : List Item) (w : List Block),
      renders chatters cls ds = true → (∀ x ∈ w, x.ready chatters) →
      ∃ r, loadThreadFrom chatters (.array (pre ++ cls)) ds pre.length w = .ok r ∧
        ∀ x ∈ r, x.ready chatters
  | [], [], pre, w, _, hw => ⟨w, by simp [loadThreadFrom, Item.length], hw⟩
  | [], _ :: _, _, _, h, _ => by simp [renders] at h
  | _ :: _, [], _, _, h, _ => by simp [renders] at h
  | d :: rest, c :: cs, pre, w, h, hw => by
    simp only [renders, Bool.and_eq_true] at h
    obtain ⟨hc, hcs⟩ := h
    obtain ⟨block, hblock, hnone⟩ := setupIcon_total chatters c d hc
    obtain ⟨w1, hw1, hready⟩ := setupMessage_total chatters d c block w hc hnone hw
    have ih := loadThreadFrom_total chatters rest cs (pre ++ [c]) w1 hcs hready
    simp only [List.append_assoc, List.singleton_append, List.length_append,
      List.length_singleton] at ih
    obtain ⟨r, hr, hrr⟩ := ih
    refine ⟨r, ?_, hrr⟩
    rw [loadThreadFrom]
    simp only [length_array_append, List.length_cons, index_append_length, hblock, hw1]
    simp only [show pre.length < pre.length + (cs.length + 1) by omega, if_true]
    exact hr
termination_by structural ds => ds
theorem setupMessage_total (chatters : Chatters) :
    ∀ (d c : Item) (block : Block) (w : List Block),
      c.renders chatters d = true → block.threadnav = none → (∀ x ∈ w, x.ready chatters) →
      ∃ r, setupMessage chatters c block d w = .ok r ∧ ∀ x ∈ r, x.ready chatters
  | .leaf s, c, block, w, _, hn, hw =>
    ⟨_, rfl, forall_mem_append_singleton (Block.ready chatters) w _ hw
      (ready_of_threadnav_none chatters _ hn)⟩
  | .array threads, .leaf _, _, _, h, _, _ => by simp [Item.renders] at h
  | .array threads, .array cls, block, w, h, _, hw => by
    simp only [Item.renders, Bool.and_eq_true] at h
    simp only [setupMessage]
    exact showFirst_total chatters threads cls block w h.1 h.2 hw
termination_by structural d => d
theorem showFirst_total (chatters : Chatters) :
    ∀ (threads cls : List Item) (block : Block) (w : List Block),
      (!threads.isEmpty) = true → forkRenders chatters cls threads = true →
      (∀ x ∈ w, x.ready chatters) →
      ∃ r, showFirst chatters (.array cls)
          (forkBlock block (.array cls) (.array threads)) threads w = .ok r ∧
        ∀ x ∈ r, x.ready chatters
  | [], _, _, _, hne, _, _ => by simp at hne
  | _ :: _, [], _, _, _, h, _ => by simp [forkRenders] at h
  | dialog :: more, cl :: cls, block, w, _, h, hw => by
    simp only [showFirst]
    exact showDialog_total chatters dialog more cl cls block w h hw
termination_by structural threads => threads
theorem showDialog_total (chatters : Chatters) :
    ∀ (dialog : Item) (more : List Item) (cl : Item) (cls : List Item) (block : Block)
      (w : List Block),
      forkRenders chatters (cl :: cls) (dialog :: more) = true →
      (∀ x ∈ w, x.ready chatters) →
      ∃ r, showDialog chatters (.array (cl :: cls))
          (forkBlock block (.array (cl :: cls)) (.array (dialog :: more))) dialog w = .ok r ∧
        ∀ x ∈ r, x.ready chatters
  | .leaf s, more, cl, cls, block, w, h, _ => by
    cases cl <;> simp [forkRenders, Item.threadRenders] at h
  | .array items, more, cl, cls, block, w, h, hw => by
    simp only [showDialog]
    exact showItems_total chatters items more cl cls block w h hw
termination_by structural dialog => dialog
theorem showItems_total (chatters : Chatters) :
    ∀ (items more : List Item) (cl : Item) (cls : List Item) (block : Block)
      (w : List Block),
      forkRenders chatters (cl :: cls) (.array items :: more) = true →
      (∀ x ∈ w, x.ready chatters) →
      ∃ r, showItems chatters (.array (cl :: cls))
          (forkBlock block (.array (cl :: cls)) (.array (.array items :: more))) items w =
            .ok r ∧
        ∀ x ∈ r, x.ready chatters
  | [], more, cl, cls, block, w, h, _ => by
    cases cl <;> simp [forkRenders, Item.threadRenders, headIsLeaf] at h
  | first :: rest, more, cl, cls, block, w, h, hw => by
    have hf := h
    simp only [forkRenders, Bool.and_eq_true] at hf
    obtain ⟨c0, cs, first1, rest1, hcl, hd, hcs⟩ := threadRenders_inv chatters cl _ hf.1
    cases hd
    subst hcl
    have hshown := showThread_ready chatters
      (forkBlock block (.array (.array (c0 :: cs) :: cls))
        (.array (.array (first :: rest) :: more)))
      { threadcurrent := 1
        threadmax := (Item.array (.array (first :: rest) :: more)).length
        threadprev := true
        threadnext := false
        dialog := .array (.array (first :: rest) :: more)
        chatterlines := .array (.array (c0 :: cs) :: cls) }
      (.array (c0 :: cs) :: cls) (.array (first :: rest) :: more) 1
      (.array (first :: rest)) first rfl rfl h rfl (by decide)
      (by simp) rfl rfl
    have ih := loadThreadFrom_total chatters rest cs [c0] _ hcs
      (forall_mem_append_singleton (Block.ready chatters) w _ hw hshown)
    obtain ⟨r, hr, hrr⟩ := ih
    exact ⟨r, hr, hrr⟩
termination_by structural items => items
end

theorem loadThread_total (chatters : Chatters) (cl d : Item) (w : List Block)
    (h : cl.threadRenders chatters d = true) (hw : ∀ x ∈ w, x.ready chatters) :
    ∃ r, loadThread chatters w cl d 1 = .ok r ∧ ∀ x ∈ r, x.ready chatters := by
  obtain ⟨c0, cs, first, rest, hcl, hd, hcs⟩ := threadRenders_inv chatters cl d h
  subst hcl
  subst hd
  exact loadThreadFrom_total chatters rest cs [c0] w hcs hw

theorem forkRenders_length (chatters : Chatters) :
    ∀ cls ds : List Item, forkRenders chatters cls ds = true → cls.length = ds.length
  | [], [], _ => rfl
  | [], _ :: _, h => by simp [forkRenders] at h
  | _ :: _, [], h => by simp [forkRenders] at h
  | _ :: cls, _ :: ds, h => by
    simp only [forkRenders, Bool.and_eq_true] at h
    simp [forkRenders_length chatters cls ds h.2]

theorem changeThread_total (chatters : Chatters) (view : List Block) (i : Nat) (m : Int)
    (hview : ∀ b ∈ view, b.ready chatters)
    (hclick : ((view.get? i).bind (fun block => block.threadnav)).isSome = true)
    (hm : m = -1 ∨ m = 1) :
    ∃ v1, changeThread chatters view i m = .ok v1 ∧ ∀ b ∈ v1, b.ready chatters := by
  obtain ⟨nav, hbind⟩ := Option.isSome_iff_exists.1 hclick
  obtain ⟨block, hblock, hnav⟩ := Option.bind_eq_some.1 hbind
  obtain ⟨cls, ds, _, _, hcl, hd, hfork, hmax, h1, h2, _, _, _⟩ :=
    hview block (List.get?_mem hblock) nav hnav
  by_cases hlow : nav.threadcurrent = 1 ∧ m = -1
  · refine ⟨view, ?_, hview⟩
    unfold changeThread
    simp only [hblock, hnav]
    simp [hlow.1, hlow.2]
  by_cases hhigh : nav.threadcurrent = (nav.threadmax : Int) ∧ m = 1
  · refine ⟨view, ?_, hview⟩
    unfold changeThread
    simp only [hblock, hnav]
    simp [hhigh.1, hhigh.2]
  have ht1 : 1 ≤ nav.threadcurrent + m := by
    rcases hm with hm | hm <;> omega
  have ht2 : nav.threadcurrent + m ≤ (ds.length : Int) := by
    rcases hm with hm | hm <;> omega
  have hk0 : 0 ≤ nav.threadcurrent + m - 1 := by omega
  have hto := Int.toNat_of_nonneg hk0
  have hk : (nav.threadcurrent + m - 1).toNat < ds.length := by omega
  have hget : ds.get? (nav.threadcurrent + m - 1).toNat = some (ds.get ⟨_, hk⟩) :=
    List.get?_eq_get hk
  obtain ⟨cl, hclget, hthread⟩ := forkRenders_get chatters cls ds _ _ hfork hget
  have hdialog : nav.dialog.indexInt (nav.threadcurrent + m - 1) = some (ds.get ⟨_, hk⟩) := by
    rw [hd]
    simp only [Item.indexInt, if_neg (not_lt.2 hk0), Item.index]
    exact hget
  have hchatterlines : nav.chatterlines.indexInt (nav.threadcurrent + m - 1) = some cl := by
    rw [hcl]
    simp only [Item.indexInt, if_neg (not_lt.2 hk0), Item.index]
    exact hclget
  obtain ⟨c0, cs, first, rest, hcl0, hd0, _⟩ := threadRenders_inv chatters cl _ hthread
  have hfirst : (ds.get ⟨_, hk⟩).index 0 = some first := by
    rw [hd0]
    rfl
  rw [changeThread_eq_loadThread chatters view i block nav m _ cl hblock hnav hlow hhigh
    hdialog hchatterlines]
  refine loadThread_total chatters cl _ _ hthread ?_
  refine forall_mem_append_singleton (Block.ready chatters) _ _ ?_ ?_
  · intro x hx
    exact hview x (List.mem_of_mem_take hx)
  · exact showThread_ready chatters block nav cls ds _ _ first hcl hd hfork hmax ht1 ht2
      hdialog hfirst

theorem changeThreads_total (chatters : Chatters) :
    ∀ (clicks : List (Nat × Int)) (view : List Block),
      (∀ b ∈ view, b.ready chatters) → arrowClicks chatters clicks view = true →
      ∃ v, changeThreads chatters clicks view = .ok v ∧ ∀ b ∈ v, b.ready chatters
  | [], view, hview, _ => ⟨view, rfl, hview⟩
  | (i, m) :: clicks, view, hview, hclicks => by
    simp only [arrowClicks, Bool.and_eq_true, Bool.or_eq_true, beq_iff_eq] at hclicks
    obtain ⟨⟨hclick, hm⟩, hrest⟩ := hclicks
    obtain ⟨v1, hv1, hready⟩ := changeThread_total chatters view i m hview hclick hm
    rw [hv1] at hrest
    simp only [changeThreads, hv1]
    exact changeThreads_total chatters clicks v1 hready hrest

mutual
theorem item_renders_of_shape (chatters : Chatters) :
    ∀ x y z : Item, sameShape x y z = true → y.leafFirst = true → y.hasThreads = true →
      (∀ n ∈ x.leaves, (chatters.lookup n).isSome = true) → x.renders chatters y = true
  | .leaf n, y, z, hs, _, _, hl => by
    cases y with
    | array _ => cases z <;> simp [sameShape] at hs
    | leaf _ =>
      simp only [Item.renders]
      exact hl n (by simp [Item.leaves])
  | .array xs, y, z, hs, hf, ht, hl => by
    cases y with
    | leaf _ => cases z <;> simp [sameShape] at hs
    | array ys =>
      cases z with
      | leaf _ => simp [sameShape] at hs
      | array zs =>
        simp only [sameShape] at hs
        simp only [Item.leafFirst] at hf
        simp only [Item.hasThreads, Bool.and_eq_true] at ht
        simp only [Item.renders, Bool.and_eq_true]
        exact ⟨ht.1, fork_renders_of_shape chatters xs ys zs hs hf ht.2
          (by simpa [Item.leaves] using hl)⟩
termination_by structural x => x
theorem fork_renders_of_shape (chatters : Chatters) :
    ∀ xs ys zs : List Item, sameShapes xs ys zs = true → leafFirstIn ys = true →
      hasThreadsIn ys = true → (∀ n ∈ leaves xs, (chatters.lookup n).isSome = true) →
      forkRenders chatters xs ys = true
  | [], ys, zs, hs, _, _, _ => by
    cases ys with
    | nil => rfl
    | cons _ _ => cases zs <;> simp [sameShapes] at hs
  | x :: xs, ys, zs, hs, hf, ht, hl => by
    cases ys with
    | nil => cases zs <;> simp [sameShapes] at hs
    | cons y ys =>
      cases zs with
      | nil => simp [sameShapes] at hs
      | cons z zs =>
        simp only [sameShapes, Bool.and_eq_true] at hs
        simp only [leafFirstIn, Bool.and_eq_true] at hf
        simp only [hasThreadsIn, Bool.and_eq_true] at ht
        simp only [forkRenders, Bool.and_eq_true]
        exact ⟨thread_renders_of_shape chatters x y z hs.1 hf.1 ht.1
            (fun n hn => hl n (by simp [leaves, hn])),
          fork_renders_of_shape chatters xs ys zs hs.2 hf.2 ht.2
            (fun n hn => hl n (by simp [leaves, hn]))⟩
termination_by structural xs => xs
theorem thread_renders_of_shape (chatters : Chatters) :
    ∀ x y z : Item, sameShape x y z = true → y.threadLeafFirst = true →
      y.threadHasThreads = true → (∀ n ∈ x.leaves, (chatters.lookup n).isSome = true) →
      x.threadRenders chatters y = true
  | .leaf _, y, z, hs, hf, _, _ => by
    cases y with
    | array _ => cases z <;> simp [sameShape] at hs
    | leaf _ => simp [Item.threadLeafFirst] at hf
  | .array xs, y, z, hs, hf, ht, hl => by
    cases y with
    | leaf _ => cases z <;> simp [sameShape] at hs
    | array ys =>
      cases z with
      | leaf _ => simp [sameShape] at hs
      | array zs =>
        simp only [sameShape] at hs
        simp only [Item.threadLeafFirst, Bool.and_eq_true] at hf
        simp only [Item.threadHasThreads] at ht
        simp only [Item.threadRenders, Bool.and_eq_true]
        exact ⟨hf.1, renders_of_shape chatters xs ys zs hs hf.2 ht
          (by simpa [Item.leaves] using hl)⟩
termination_by structural x => x
theorem renders_of_shape (chatters : Chatters) :
    ∀ xs ys zs : List Item, sameShapes xs ys zs = true → leafFirst ys = true →
      hasThreads ys = true → (∀ n ∈ leaves xs, (chatters.lookup n).isSome = true) →
      renders chatters xs ys = true
  | [], ys, zs, hs, _, _, _ => by
    cases ys with
    | nil => rfl
    | cons _ _ => cases zs <;> simp [sameShapes] at hs
  | x :: xs, ys, zs, hs, hf, ht, hl => by
    cases ys with
    | nil => cases zs <;> simp [sameShapes] at hs
    | cons y ys =>
      cases zs with
      | nil => simp [sameShapes] at hs
      | cons z zs =>
        simp only [sameShapes, Bool.and_eq_true] at hs
        simp only [leafFirst, Bool.and_eq_true] at hf
        simp only [hasThreads, Bool.and_eq_true] at ht
        simp only [renders, Bool.and_eq_true]
        exact ⟨item_renders_of_shape chatters x y z hs.1 hf.1 ht.1
            (fun n hn => hl n (by simp [leaves, hn])),
          renders_of_shape chatters xs ys zs hs.2 hf.2 ht.2
            (fun n hn => hl n (by simp [leaves, hn]))⟩
termination_by structural xs => xs
end

theorem loadLog_total (downloadOutput : DownloadOutput)
    (h : renders downloadOutput.chatters downloadOutput.chatterlines downloadOutput.dialog
      = true) :
    ∃ view, loadLog downloadOutput = .ok view ∧
      ∀ b ∈ view, b.ready downloadOutput.chatters := by
  have key := loadThreadFrom_total downloadOutput.chatters downloadOutput.dialog
    downloadOutput.chatterlines [] [] h (fun x hx => absurd hx (List.not_mem_nil x))
  simpa [loadLog, loadThread] using key

mutual
theorem threadLines_hasThreads (f : Turn → String) :
    ∀ t : Thread, hasThreads (t.lines f) = true
  | .done => by simp [Thread.lines, hasThreads]
  | .unit none _ => by simp [Thread.lines, hasThreads]
  | .unit (some _) next => by
    simp [Thread.lines, hasThreads, Item.hasThreads, threadLines_hasThreads f next]
  | .fork _ bs => by
    have h := branchLines_hasThreadsIn f bs
    simp [Thread.lines, hasThreads, Item.hasThreads, h.1, h.2]
theorem branchLines_hasThreadsIn (f : Turn → String) :
    ∀ bs : Branches, (bs.lines f).isEmpty = false ∧ hasThreadsIn (bs.lines f) = true
  | .last _ next => by
    simp [Branches.lines, hasThreadsIn, Item.threadHasThreads, hasThreads, Item.hasThreads,
      threadLines_hasThreads f next]
  | .cons _ next more => by
    simp [Branches.lines, hasThreadsIn, Item.threadHasThreads, hasThreads, Item.hasThreads,
      threadLines_hasThreads f next, (branchLines_hasThreadsIn f more).2]
end

theorem renders_leaves (chatters : Chatters) (f g : Turn → String) :
    ∀ us : List Turn,
      (∀ n ∈ leaves (us.map (fun u => .leaf (f u))), (chatters.lookup n).isSome = true) →
      renders chatters (us.map (fun u => .leaf (f u))) (us.map (fun u => .leaf (g u))) = true
  | [], _ => rfl
  | u :: us, h => by
    simp only [List.map_cons, renders, Item.renders, Bool.and_eq_true]
    exact ⟨h (f u) (by simp [leaves, Item.leaves]),
      renders_leaves chatters f g us (fun n hn => h n (by simp [leaves, hn]))⟩

/-- In every output of `buildFullLog` every sub array holds at least one
thread: the loop of `parseThreads` runs at least once. -/
theorem capture_hasThreads (enc : IconElement → String) (page : Page)
    (out : DownloadOutput) (h : buildFullLog enc page = .ok out) :
    hasThreads out.chatterlines = true ∧ hasThreads out.dialog = true ∧
      hasThreads out.strippeddialog = true := by
  obtain ⟨log, -, hout⟩ := buildFullLog_ok enc page out h
  rw [hout]
  exact ⟨threadLines_hasThreads speaker log, threadLines_hasThreads rendered log,
    threadLines_hasThreads stripped log⟩

theorem render_total_of_renders (downloadOutput : DownloadOutput)
    (hrenders : renders downloadOutput.chatters downloadOutput.chatterlines
      downloadOutput.dialog = true) :
    ∃ view0, loadLog downloadOutput = .ok view0 ∧
      ∀ clicks, arrowClicks downloadOutput.chatters clicks view0 = true →
        ∃ view, changeThreads downloadOutput.chatters clicks view0 = .ok view ∧
          ∀ b ∈ view, ∀ nav, b.threadnav = some nav →
            ∃ dialog first,
              nav.dialog.indexInt (nav.threadcurrent - 1) = some dialog ∧
              dialog.index 0 = some first ∧ b.content = first.toString := by
  obtain ⟨view0, h0, hready⟩ := loadLog_total downloadOutput hrenders
  refine ⟨view0, h0, ?_⟩
  intro clicks hclicks
  obtain ⟨view, hview, hr⟩ :=
    changeThreads_total downloadOutput.chatters clicks view0 hready hclicks
  refine ⟨view, hview, ?_⟩
  intro b hb nav hnav
  obtain ⟨_, _, dialog, first, _, _, _, _, _, _, hdialog, hfirst1, hcontent⟩ := hr b hb nav hnav
  exact ⟨dialog, first, hdialog, hfirst1, hcontent⟩

/-- Any log, written by a capture or not, whose three arrays have the same
shape, in which every thread of every sub array is a non-empty array that
starts with a string and every sub array holds at least one thread, and whose
`chatters` has an entry for every name in `chatterlines`, is rendered, and
every sequence of clicks on thread arrows returns a view. -/
theorem loadLog_changeThreads_total (downloadOutput : DownloadOutput)
    (hshape : sameShapes downloadOutput.chatterlines downloadOutput.dialog
      downloadOutput.strippeddialog = true)
    (hfirst : leafFirst downloadOutput.dialog = true)
    (hthreads : hasThreads downloadOutput.dialog = true)
    (hchatters : ∀ n ∈ leaves downloadOutput.chatterlines,
      (downloadOutput.chatters.lookup n).isSome = true) :
    ∃ view0, loadLog downloadOutput = .ok view0 ∧
      ∀ clicks, arrowClicks downloadOutput.chatters clicks view0 = true →
        ∃ view, changeThreads downloadOutput.chatters clicks view0 = .ok view ∧
          ∀ b ∈ view, ∀ nav, b.threadnav = some nav →
            ∃ dialog first,
              nav.dialog.indexInt (nav.threadcurrent - 1) = some dialog ∧
              dialog.index 0 = some first ∧ b.content = first.toString :=
  render_total_of_renders downloadOutput
    (renders_of_shape downloadOutput.chatters _ _ _ hshape hfirst hthreads hchatters)

/-- A log that no capture writes, with a sub array that holds no thread:
`loadLog` throws, because `changeThread` reads `dialog[0][0]` of that sub
array. -/
theorem loadLog_scenarioNoThread :
    hasThreads scenarioNoThread.dialog = false ∧
    loadLog scenarioNoThread = .error .typeError := by
  refine ⟨by rfl, by rfl⟩

/-- C21: for every captured conversation (the output of `buildFullLog` or of
`buildSimpleLog` on any page) whose `chatters` has an entry for every name in
`chatterlines`, `loadLog` returns a view, and every sequence of clicks on
thread arrows (`changeThread` with modifier -1 or +1 on a block that has
arrows at that moment) returns a view: no lookup of `chatters[name]`,
`dialog[i]` or `dialog[t-1]` fails. In every such view, for every fork block,
the thread on display `dialog[t-1]` and its first element are defined, and
that element is the message of the block. (No condition on the shape of the
three arrays is needed as a hypothesis.) -/
theorem capture_render_total (enc : IconElement → String) (page : Page)
    (out : DownloadOutput)
    (h : buildFullLog enc page = .ok out ∨ buildSimpleLog enc page = .ok out)
    (hchatters : ∀ n ∈ leaves out.chatterlines, (out.chatters.lookup n).isSome = true) :
    ∃ view0, loadLog out = .ok view0 ∧
      ∀ clicks, arrowClicks out.chatters clicks view0 = true →
        ∃ view, changeThreads out.chatters clicks view0 = .ok view ∧
          ∀ b ∈ view, ∀ nav, b.threadnav = some nav →
            ∃ dialog first,
              nav.dialog.indexInt (nav.threadcurrent - 1) = some dialog ∧
              dialog.index 0 = some first ∧ b.content = first.toString := by
  refine render_total_of_renders out ?_
  rcases h with h | h
  · obtain ⟨log, -, hout⟩ := buildFullLog_ok enc page out h
    refine renders_of_shape out.chatters _ _ out.strippeddialog ?_ ?_ ?_ hchatters
    · rw [hout]
      exact threadLines_sameShapes speaker rendered stripped log
    · rw [hout]
      exact threadLines_leafFirst rendered log
    · rw [hout]
      exact threadLines_hasThreads rendered log
  · cases hlog : page.log with
    | none => simp [buildSimpleLog, hlog] at h
    | some log =>
      rw [buildSimpleLog_eq enc page log hlog] at h
      cases h
      exact renders_leaves _ speaker rendered log.shownUnits hchatters

/-- Scenario B: its capture is rendered as `viewB`; next, next again and
previous are clicks on the arrows of its fork block, and they end on the view
as rendered, whose fork block shows the first element of its first thread. -/
theorem capture_render_total_scenarioB :
    buildFullLog encodeStub scenarioB = .ok captureB ∧
    loadLog captureB = .ok viewB ∧
    arrowClicks captureB.chatters [(1, 1), (1, 1), (1, -1)] viewB = true ∧
    changeThreads captureB.chatters [(1, 1), (1, 1), (1, -1)] viewB = .ok viewB ∧
    ∃ view, changeThreads captureB.chatters [(1, 1), (1, 1), (1, -1)] viewB = .ok view ∧
      ∀ b ∈ view, ∀ nav, b.threadnav = some nav →
        ∃ dialog first,
          nav.dialog.indexInt (nav.threadcurrent - 1) = some dialog ∧
          dialog.index 0 = some first ∧ b.content = first.toString := by
  obtain ⟨view0, h0, hall⟩ :=
    capture_render_total encodeStub scenarioB captureB (Or.inl (by rfl)) (by decide)
  have hv : view0 = viewB := Except.ok.inj (h0.symm.trans (by rfl))
  subst hv
  exact ⟨by rfl, h0, by decide, by rfl, hall _ (by decide)⟩

end ChatGPTDownloader
